import Mathlib

/-!
# xmllint structured error reporting: a shallow embedding

The definitions below embed the error-reporting helpers of `xmllint.c`
(fingerprinting, statistics, JSON escaping and serialisation, array mode
dispatch) as pure Lean functions.

Conventions of the embedding

* a C string (`const char *`) is the list of its bytes before the
  terminating NUL; a pointer that may be `NULL` is an `Option`;
* `int` values are `Int`, `unsigned long long` values are `Nat` reduced
  modulo `2 ^ 64` where the source arithmetic can wrap;
* text written to a `FILE *` is the list of bytes written, in order.
-/

namespace Xmllint

/-- Bytes of a C string, without the terminating NUL. -/
abbrev CStr := List Nat

/-- ASCII string literal of the source as a C string. -/
def lit (s : String) : CStr := s.toList.map Char.toNat

/-- The fields of `xmlError` read by `xmllint.c`. -/
structure xmlError where
  domain : Int
  code : Int
  message : Option CStr
  level : Int
  file : Option CStr
  line : Int
  str1 : Option CStr
  str2 : Option CStr
  str3 : Option CStr
  int1 : Int
  int2 : Int
deriving DecidableEq, Repr

/-! ## Fingerprint (xmllint.c 884-930) -/

/-- One round of the source: `hash ^= b; hash *= 1099511628211ULL;` on
`unsigned long long`. -/
def fnvStep (hash b : Nat) : Nat := (hash ^^^ b) * 1099511628211 % 2 ^ 64

/-- The four rounds of the body of `for (i = 0; i < 3; i++)` for one
`vals[i]`. -/
def fingerprintInt (hash : Nat) (v : Int) : Nat :=
  let h0 := fnvStep hash ((v % 256).toNat % 256)
  let h1 := fnvStep h0 (((v >>> (8 : Nat)) % 256).toNat % 256)
  let h2 := fnvStep h1 (((v >>> (16 : Nat)) % 256).toNat % 256)
  fnvStep h2 (((v >>> (24 : Nat)) % 256).toNat % 256)

/-- The loop `for (cur = s ? s : ""; *cur != 0; cur++)` with the FNV round
as its body. -/
def fingerprintStr (hash : Nat) (s : Option CStr) : Nat :=
  (s.getD []).foldl fnvStep hash

/-- Embedding of `xmllintErrorFingerprint`. -/
def xmllintErrorFingerprint (error : Option xmlError) : Nat :=
  match error with
  | none => 0
  | some e =>
    let hash := 1469598103934665603
    let hash := fingerprintInt hash e.domain
    let hash := fingerprintInt hash e.code
    let hash := fingerprintInt hash e.level
    let hash := fingerprintStr hash e.message
    let hash := fingerprintStr hash e.str1
    let hash := fingerprintStr hash e.str2
    fingerprintStr hash e.str3

/-! ### The fingerprint as the specification words it -/

/-- 64-bit FNV-1a of a byte sequence: offset basis 1469598103934665603,
prime 1099511628211, XOR then multiply per byte, modulo `2 ^ 64`. -/
def fnv1a64 (bytes : List Nat) : Nat :=
  bytes.foldl (fun h b => (h ^^^ b) * 1099511628211 % 18446744073709551616)
    1469598103934665603

/-- The four bytes of a 32-bit two's complement integer, least significant
byte first. -/
def int32BytesLE (v : Int) : List Nat :=
  let u := (v % 4294967296).toNat
  [u % 256, u / 256 % 256, u / 65536 % 256, u / 16777216 % 256]

/-- The byte sequence the specification hashes for a record. -/
def fingerprintInput (e : xmlError) : List Nat :=
  int32BytesLE e.domain ++ int32BytesLE e.code ++ int32BytesLE e.level ++
    e.message.getD [] ++ e.str1.getD [] ++ e.str2.getD [] ++ e.str3.getD []

/-! ## Formatting helpers (the `printf` conversions used by the source) -/

/-- Digits of `n` in base `base`, most significant first, as ASCII bytes
(lower-case letters above 9); `fuel` bounds the number of digits. -/
def digitsAux (base : Nat) : Nat → Nat → List Nat → List Nat
  | 0, _, acc => acc
  | fuel + 1, n, acc =>
    let d := n % base
    let c := if d < 10 then 48 + d else 87 + d
    if n < base then c :: acc else digitsAux base fuel (n / base) (c :: acc)

/-- Conversion `%u` of an unbounded natural number. -/
def fmtNat (n : Nat) : List Nat := digitsAux 10 (n + 1) n []

/-- Conversions `%d` and `%lld`. -/
def fmtInt (v : Int) : List Nat :=
  if v < 0 then 45 :: fmtNat (-v).toNat else fmtNat v.toNat

/-- Conversions `%04x` and `%016llx`: lower-case hexadecimal, padded with
zeros on the left to `width` digits. -/
def fmtHex (width n : Nat) : List Nat :=
  let ds := digitsAux 16 (n + 1) n []
  List.replicate (width - ds.length) 48 ++ ds

/-- Conversion of an integer value to `int` (32 bits, two's complement). -/
def castInt (v : Int) : Int := (v + 2147483648) % 4294967296 - 2147483648

/-! ## JSON escaping to a stream (xmllint.c 424-466) -/

/-- Body of the `switch (*cur)` of `xmllintJsonEscape`: the bytes written
for one input byte. -/
def xmllintJsonEscapeByte (c : Nat) : List Nat :=
  if c = 34 then [92, 34]            -- case '\"': fputs("\\\"")
  else if c = 92 then [92, 92]       -- case '\\': fputs("\\\\")
  else if c = 8 then [92, 98]        -- case '\b': fputs("\\b")
  else if c = 12 then [92, 102]      -- case '\f': fputs("\\f")
  else if c = 10 then [92, 110]      -- case '\n': fputs("\\n")
  else if c = 13 then [92, 114]      -- case '\r': fputs("\\r")
  else if c = 9 then [92, 116]       -- case '\t': fputs("\\t")
  else if c < 32 then [92, 117] ++ fmtHex 4 c   -- fprintf("\\u%04x")
  else [c]                           -- fputc(*cur)

/-- Embedding of `xmllintJsonEscape`: the bytes written to `out`. -/
def xmllintJsonEscape (str : Option CStr) : List Nat :=
  match str with
  | none => lit "null"
  | some s => [34] ++ s.flatMap xmllintJsonEscapeByte ++ [34]

/-! ## JSON stream helpers (xmllint.c 821-882, 932-1015) -/

/-- Embedding of `xmllintJsonIndent`. -/
def xmllintJsonIndent (pretty : Int) (level : Nat) : List Nat :=
  if pretty = 0 then [] else [10] ++ (List.replicate level (lit "  ")).flatten

/-- Embedding of `xmllintJsonKey`. -/
def xmllintJsonKey (pretty : Int) (level : Nat) (key : CStr) : List Nat :=
  xmllintJsonIndent pretty level ++ xmllintJsonEscape (some key) ++
    (if pretty ≠ 0 then lit ": " else lit ":")

/-- Embedding of `xmllintJsonAddInt`. -/
def xmllintJsonAddInt (value : Int) : List Nat := fmtInt value

/-- Embedding of `xmllintJsonAddLongLong`. -/
def xmllintJsonAddLongLong (value : Int) : List Nat := fmtInt value

/-- Seconds and microseconds, as in `xmlTime` and `struct timeval`. -/
structure xmlTime where
  sec : Int
  usec : Int
deriving DecidableEq, Repr

/-- Embedding of `xmllintJsonAddTime`; `tv` is the result of
`gettimeofday`, `none` when the call fails. -/
def xmllintJsonAddTime (pretty : Int) (level : Nat) (key : CStr)
    (tv : Option xmlTime) : List Nat :=
  match tv with
  | none => []
  | some t =>
    [44] ++ xmllintJsonKey pretty level key ++ lit "\x7b" ++
    xmllintJsonKey pretty (level + 1) (lit "sec") ++
    xmllintJsonAddInt (castInt t.sec) ++ [44] ++
    xmllintJsonKey pretty (level + 1) (lit "usec") ++
    xmllintJsonAddInt (castInt t.usec) ++
    xmllintJsonIndent pretty level ++ lit "\x7d"

/-- Embedding of `xmllintJsonAddChecksum`. -/
def xmllintJsonAddChecksum (pretty : Int) (level : Nat) (key : CStr)
    (valid : Int) (checksum : Nat) : List Nat :=
  [44] ++ xmllintJsonKey pretty level key ++
    (if valid = 0 then lit "null" else [34] ++ fmtHex 16 checksum ++ [34])

/-- Embedding of `xmllintJsonAddFingerprint`. -/
def xmllintJsonAddFingerprint (pretty : Int) (level : Nat) (key : CStr)
    (error : xmlError) : List Nat :=
  [44] ++ xmllintJsonKey pretty level key ++
    [34] ++ fmtHex 16 (xmllintErrorFingerprint (some error)) ++ [34]

/-- One row of the tables `xmlOpts` and `htmlOpts`. -/
structure xmllintOptName where
  flag : Nat
  name : CStr
deriving DecidableEq, Repr

/-- The loop of `xmllintJsonAddOptions` over the rows before the
terminating `{ 0, NULL }`; returns the bytes written and the final value
of `first`. -/
def xmllintJsonAddOptionsLoop (pretty : Int) (level : Nat) (options : Nat) :
    List xmllintOptName → Bool → List Nat × Bool
  | [], first => ([], first)
  | d :: ds, first =>
    if options &&& d.flag = 0 then
      xmllintJsonAddOptionsLoop pretty level options ds first
    else
      let r := xmllintJsonAddOptionsLoop pretty level options ds false
      ((if first then [] else [44]) ++ xmllintJsonIndent pretty (level + 1) ++
        xmllintJsonEscape (some d.name) ++ r.1, r.2)

/-- Embedding of `xmllintJsonAddOptions`. -/
def xmllintJsonAddOptions (pretty : Int) (level : Nat) (key : CStr)
    (options : Nat) (defs : List xmllintOptName) : List Nat :=
  let r := xmllintJsonAddOptionsLoop pretty level options defs true
  [44] ++ xmllintJsonKey pretty level key ++ lit "[" ++ r.1 ++
    (if r.2 then [] else xmllintJsonIndent pretty level) ++ lit "]"

/-! ## State (xmllint.c 185-314) -/

/-- Embedding of `xmllintCodeCount`; `count` is `unsigned`. -/
structure xmllintCodeCount where
  code : Int
  count : Nat
deriving DecidableEq, Repr

/-- Embedding of `xmllintStageCount`; `count` is `unsigned`. -/
structure xmllintStageCount where
  name : CStr
  count : Nat
  firstMs : Int
  lastMs : Int
deriving DecidableEq, Repr

def XMLLINT_REDACT_FILE : Nat := 1 <<< 0
def XMLLINT_REDACT_MESSAGE : Nat := 1 <<< 1
def XMLLINT_REDACT_STR1 : Nat := 1 <<< 2
def XMLLINT_REDACT_STR2 : Nat := 1 <<< 3
def XMLLINT_REDACT_STR3 : Nat := 1 <<< 4
def XMLLINT_REDACT_WINDOW : Nat := 1 <<< 5
def XML_LINT_HTML_ENABLED : Nat := 1 <<< 10
def XMLLINT_JSON_SCHEMA_VERSION : Int := 1

/-- Modelled from the spec: the severity enumeration of `libxml/xmlerror.h`
(not part of the sources), "severity enum {NONE, WARNING, ERROR, FATAL},
totally ordered", numbered from 0; `errorLevelCounts` has 4 slots. -/
def XML_ERR_NONE : Int := 0
/-- Modelled from the spec: second value of the severity enumeration. -/
def XML_ERR_WARNING : Int := 1
/-- Modelled from the spec: third value of the severity enumeration. -/
def XML_ERR_ERROR : Int := 2
/-- Modelled from the spec: last value of the severity enumeration. -/
def XML_ERR_FATAL : Int := 3

/-- Modelled from the spec: the last value of the error-domain enumeration
of `libxml/xmlerror.h` (not part of the sources), "integer enumeration tag
identifying the subsystem that raised the error"; the domains are numbered
from `XML_FROM_NONE = 0` in the order in which `xmllintDomainName` lists
its 31 cases. -/
def XML_FROM_URI : Int := 30

/-- What `xmlCtxtGetInputWindow(ctxt, 0, &start, &size, &offset)` stores
when it succeeds: `start` (possibly `NULL`) points to `size` readable
bytes. -/
structure xmlInputWindow where
  start : Option (List Nat)
  size : Int
  offset : Int
deriving DecidableEq, Repr

/-- The part of a parser context seen by `xmllint.c`: the result of the
library call `xmlCtxtGetInputWindow`, `none` when it returns a negative
status. -/
structure xmlParserCtxt where
  inputWindow : Option xmlInputWindow
  /-- the records returned by the library call `xmlCtxtGetErrorRing`,
  oldest first, `none` when it returns a negative count -/
  errorRing : Option (List xmlError) := some []
deriving DecidableEq, Repr

/-- The error-reporting fields of `xmllintState`.  A `FILE *` is the
number of the stream it designates.  The arrays `errorCodeCounts` and
`errorStageCounts` are the lists of their first `errorCodeCountsCount` and
`errorStageCountsCount` entries, so the two counters are the lengths of the
lists. -/
structure xmllintState where
  errStream : Nat
  ctxt : Option xmlParserCtxt
  htmlOptions : Nat
  parseOptions : Nat
  appOptions : Nat
  errorXml : Int
  errorJson : Int
  errorJsonArray : Int
  errorJsonPretty : Int
  errorJsonLimit : Int
  errorJsonCount : Int
  errorJsonArrayOpen : Int
  errorJsonArrayCount : Int
  errorJsonArrayFile : Option CStr
  errorJsonSummary : Int
  errorJsonWindow : Int
  errorJsonChecksum : Int
  errorSyslog : Int
  errorRedactFlags : Nat
  errorXmlStream : Option Nat
  errorJsonStream : Option Nat
  errorJsonWarnStream : Option Nat
  errorChecksum : Nat
  checksumValid : Int
  errorDomainCounts : List Nat
  errorLevelCounts : List Nat
  errorCodeCounts : List xmllintCodeCount
  errorCodeCountsSize : Nat
  errorStageCounts : List xmllintStageCount
  errorStageCountsSize : Nat
  errorStatsStart : xmlTime
  errorRingSize : Int := 0
  errorRingDump : Int := 0
  errorRingDumpStream : Option Nat := none
  errorRingDumpCborStream : Option Nat := none
  errorRingDumpBinStream : Option Nat := none
deriving DecidableEq

/-- What the environment answers during one call of the error handler:
the clock, the allocator and the library functions that are not part of
the sources. -/
structure Env where
  /-- value stored by `getTime` -/
  now : xmlTime
  /-- result of `gettimeofday` in `xmllintJsonAddTime`, `none` on failure -/
  tv : Option xmlTime
  /-- whether `xmlRealloc` of the code table succeeds -/
  codeRealloc : Bool
  /-- whether `xmlRealloc` of the stage table succeeds -/
  stageRealloc : Bool
  /-- whether `xmlMemStrdup` of the stage name succeeds -/
  stageStrdup : Bool
  /-- whether `xmlMalloc` of the window copy succeeds -/
  windowMalloc : Bool
  /-- whether `xmlBufferCreate` succeeds -/
  bufferCreate : Bool
  /-- the library function `xmlBufferAdd`: new content, `none` on failure -/
  xmlBufferAdd : List Nat → List Nat → Option (List Nat)
  /-- the library function `xmlErrorToXml`: the text, `none` on failure -/
  xmlErrorToXml : xmlError → Option (List Nat)
  /-- whether `xmlMalloc` of the copy of the error ring succeeds -/
  ringMalloc : Bool := true
  /-- whether the second call of `xmlCtxtGetErrorRing`, which copies the
  records, succeeds -/
  ringCopy : Bool := true

/-- Embedding of `xmllintRedactValue` (for a non-`NULL` state). -/
def xmllintRedactValue (lint : xmllintState) (flag : Nat)
    (value : Option CStr) : Option CStr :=
  match value with
  | none => none
  | some v => if lint.errorRedactFlags &&& flag = 0 then some v
              else some (lit "[redacted]")

/-- Embedding of `xmllintJsonAddWindow`. -/
def xmllintJsonAddWindow (pretty : Int) (level : Nat) (key : CStr)
    (lint : xmllintState) (env : Env) : List Nat :=
  if lint.errorJsonWindow ≤ 0 then []
  else if lint.errorRedactFlags &&& XMLLINT_REDACT_WINDOW ≠ 0 then
    [44] ++ xmllintJsonKey pretty level key ++ lit "null"
  else
    match lint.ctxt with
    | none => []
    | some ctxt =>
      match ctxt.inputWindow with
      | none => []
      | some w =>
        match w.start with
        | none => []
        | some start =>
          if w.size ≤ 0 then []
          else
            let offset := if w.offset < 0 then 0 else w.offset
            let offset := if offset > w.size then w.size else offset
            let len := lint.errorJsonWindow
            let len := if len > w.size - offset then w.size - offset else len
            if env.windowMalloc then
              -- memcpy(buf, start + offset, len); buf[len] = 0
              let buf := (start.drop offset.toNat).take len.toNat
              [44] ++ xmllintJsonKey pretty level key ++
                xmllintJsonEscape (some (buf.takeWhile (fun b => b ≠ 0)))
            else []

/-- The static tables `xmlOpts` and `htmlOpts` of the two serialisers, up
to their terminating `{ 0, NULL }`.  The flag constants `XML_PARSE_*` and
`HTML_PARSE_*` are declared in library headers that are not part of the
sources, so the tables are parameters. -/
structure xmllintOptTables where
  xmlOpts : List xmllintOptName
  htmlOpts : List xmllintOptName
deriving DecidableEq, Repr

/-! ## One error as a JSON object on a stream (xmllint.c 1302-1421) -/

/-- Embedding of `xmllintWriteJsonError` (built with
`LIBXML_HTML_ENABLED`): the bytes written to `out`. -/
def xmllintWriteJsonError (tabs : xmllintOptTables) (lint : xmllintState)
    (error : xmlError) (filename : Option CStr) (env : Env) : List Nat :=
  let pretty := lint.errorJsonPretty
  let level : Nat := if pretty ≠ 0 then 1 else 0
  let file := xmllintRedactValue lint XMLLINT_REDACT_FILE filename
  let message := xmllintRedactValue lint XMLLINT_REDACT_MESSAGE error.message
  let str1 := xmllintRedactValue lint XMLLINT_REDACT_STR1 error.str1
  let str2 := xmllintRedactValue lint XMLLINT_REDACT_STR2 error.str2
  let str3 := xmllintRedactValue lint XMLLINT_REDACT_STR3 error.str3
  let resourceType := str2
  let stage := str3
  lit "\x7b" ++
  xmllintJsonKey pretty level (lit "schema_version") ++
  xmllintJsonAddInt XMLLINT_JSON_SCHEMA_VERSION ++
  [44] ++ xmllintJsonKey pretty level (lit "file") ++
  xmllintJsonEscape file ++
  [44] ++ xmllintJsonKey pretty level (lit "domain") ++
  xmllintJsonAddInt error.domain ++
  [44] ++ xmllintJsonKey pretty level (lit "code") ++
  xmllintJsonAddInt error.code ++
  [44] ++ xmllintJsonKey pretty level (lit "level") ++
  xmllintJsonAddInt error.level ++
  [44] ++ xmllintJsonKey pretty level (lit "line") ++
  xmllintJsonAddInt error.line ++
  [44] ++ xmllintJsonKey pretty level (lit "column") ++
  xmllintJsonAddInt error.int2 ++
  [44] ++ xmllintJsonKey pretty level (lit "message") ++
  xmllintJsonEscape message ++
  [44] ++ xmllintJsonKey pretty level (lit "str1") ++
  xmllintJsonEscape str1 ++
  [44] ++ xmllintJsonKey pretty level (lit "str2") ++
  xmllintJsonEscape str2 ++
  [44] ++ xmllintJsonKey pretty level (lit "str3") ++
  xmllintJsonEscape str3 ++
  [44] ++ xmllintJsonKey pretty level (lit "resource_type") ++
  xmllintJsonEscape resourceType ++
  [44] ++ xmllintJsonKey pretty level (lit "stage") ++
  xmllintJsonEscape stage ++
  xmllintJsonAddOptions pretty level (lit "parse_options")
    lint.parseOptions tabs.xmlOpts ++
  (if lint.appOptions &&& XML_LINT_HTML_ENABLED ≠ 0 then
    xmllintJsonAddOptions pretty level (lit "html_options")
      lint.htmlOptions tabs.htmlOpts
   else []) ++
  xmllintJsonAddWindow pretty level (lit "window") lint env ++
  xmllintJsonAddChecksum pretty level (lit "checksum")
    lint.checksumValid lint.errorChecksum ++
  xmllintJsonAddFingerprint pretty level (lit "fingerprint") error ++
  xmllintJsonAddTime pretty level (lit "timestamp") env.tv ++
  xmllintJsonIndent pretty 0 ++
  lit "\x7d"

/-! ## Statistics (xmllint.c 1017-1112, 2090-2102) -/

/-- Embedding of `xmllintTimeDiffMs`; `/` of C truncates towards zero. -/
def xmllintTimeDiffMs (start stop : xmlTime) : Int :=
  (stop.sec - start.sec) * 1000 + (stop.usec - start.usec).tdiv 1000

/-- Embedding of `xmllintErrorStatsReset`; `now` is the value stored by
`getTime`. -/
def xmllintErrorStatsReset (lint : xmllintState) (now : xmlTime) :
    xmllintState :=
  { lint with
    errorDomainCounts := List.replicate (XML_FROM_URI + 1).toNat 0
    errorLevelCounts := List.replicate 4 0
    errorCodeCounts := []
    errorStageCounts := []
    errorStatsStart := now }

/-- The statement `counts[i] += 1` on an array of `unsigned`. -/
def incrCount (counts : List Nat) (i : Nat) : List Nat :=
  counts.set i ((counts.getD i 0 + 1) % 4294967296)

/-- The search loop of `xmllintErrorStageAdd`: the table after the update
of the first entry named `stage`, or `none` when the loop ends without a
match. -/
def stageLoop (stage : CStr) (msec : Int) :
    List xmllintStageCount → Option (List xmllintStageCount)
  | [] => none
  | s :: rest =>
    if s.name = stage then
      some ({ s with count := (s.count + 1) % 4294967296, lastMs := msec } :: rest)
    else (stageLoop stage msec rest).map (fun t => s :: t)

/-- The reallocation step of `xmllintErrorStageAdd` when it succeeds:
the capacity doubles (8 at first) if the table is full. -/
def growStageCounts (lint : xmllintState) : xmllintState :=
  if lint.errorStageCounts.length = lint.errorStageCountsSize then
    { lint with errorStageCountsSize :=
        if lint.errorStageCountsSize ≠ 0 then lint.errorStageCountsSize * 2 else 8 }
  else lint

/-- Embedding of `xmllintErrorStageAdd`. -/
def xmllintErrorStageAdd (lint : xmllintState) (error : xmlError)
    (env : Env) : xmllintState :=
  let stage := match error.str3 with
    | some s => s
    | none => lit "unknown"
  let msec := xmllintTimeDiffMs lint.errorStatsStart env.now
  match stageLoop stage msec lint.errorStageCounts with
  | some t => { lint with errorStageCounts := t }   -- `return` inside the loop
  | none =>
    if lint.errorStageCounts.length = lint.errorStageCountsSize ∧
        env.stageRealloc = false then lint
    else
      let lint := growStageCounts lint
      if env.stageStrdup = false then lint
      else { lint with errorStageCounts :=
              lint.errorStageCounts ++ [⟨stage, 1, msec, msec⟩] }

/-- The search loop of `xmllintErrorStatsAdd`: the table after the
increment of the first entry for `code`, or `none` when the loop ends
without a match. -/
def codeLoop (code : Int) :
    List xmllintCodeCount → Option (List xmllintCodeCount)
  | [] => none
  | c :: rest =>
    if c.code = code then
      some ({ c with count := (c.count + 1) % 4294967296 } :: rest)
    else (codeLoop code rest).map (fun t => c :: t)

/-- The statement `if ((error->domain >= 0) && (error->domain <=
XML_FROM_URI)) lint->errorDomainCounts[error->domain] += 1;`. -/
def statsAddDomain (lint : xmllintState) (error : xmlError) : xmllintState :=
  if 0 ≤ error.domain ∧ error.domain ≤ XML_FROM_URI then
    { lint with errorDomainCounts :=
        incrCount lint.errorDomainCounts error.domain.toNat }
  else lint

/-- The statement `if ((error->level >= 0) && (error->level <=
XML_ERR_FATAL)) lint->errorLevelCounts[error->level] += 1;`. -/
def statsAddLevel (lint : xmllintState) (error : xmlError) : xmllintState :=
  if 0 ≤ error.level ∧ error.level ≤ XML_ERR_FATAL then
    { lint with errorLevelCounts :=
        incrCount lint.errorLevelCounts error.level.toNat }
  else lint

/-- The reallocation step of `xmllintErrorStatsAdd` when it succeeds: the
capacity doubles (16 at first) if the table is full. -/
def growCodeCounts (lint : xmllintState) : xmllintState :=
  if lint.errorCodeCounts.length = lint.errorCodeCountsSize then
    { lint with errorCodeCountsSize :=
        if lint.errorCodeCountsSize ≠ 0 then lint.errorCodeCountsSize * 2 else 16 }
  else lint

/-- Embedding of `xmllintErrorStatsAdd`. -/
def xmllintErrorStatsAdd (lint : xmllintState) (error : xmlError)
    (env : Env) : xmllintState :=
  let lint := statsAddLevel (statsAddDomain lint error) error
  match codeLoop error.code lint.errorCodeCounts with
  | some t => { lint with errorCodeCounts := t }   -- `return` inside the loop
  | none =>
    if lint.errorCodeCounts.length = lint.errorCodeCountsSize ∧
        env.codeRealloc = false then lint
    else
      let lint := growCodeCounts lint
      xmllintErrorStageAdd
        { lint with errorCodeCounts := lint.errorCodeCounts ++ [⟨error.code, 1⟩] }
        error env

/-- The statistics after the handler has recorded a sequence of errors,
each with the answers of its environment. -/
def statsRun (lint : xmllintState) (events : List (xmlError × Env)) :
    xmllintState :=
  events.foldl (fun l ev => xmllintErrorStatsAdd l ev.1 ev.2) lint

/-! ## Summary object (xmllint.c 1114-1207, 1240-1276) -/

/-- The loops of the source that write `,` before every item but the
first (`if (!first) fputc(','); ...; first = 0;`). -/
def commaLoop : List (List Nat) → Bool → List Nat
  | [], _ => []
  | x :: xs, first => (if first then [] else [44]) ++ x ++ commaLoop xs false

/-- Embedding of `xmllintDomainName`, the domain constants `XML_FROM_*`
being numbered from 0 in the order of the cases. -/
def xmllintDomainName (domain : Int) : CStr :=
  (["none", "parser", "tree", "namespace", "dtd", "html", "memory",
    "output", "io", "ftp", "http", "xinclude", "xpath", "xpointer",
    "regexp", "datatype", "schemasp", "schemasv", "relaxngp", "relaxngv",
    "catalog", "c14n", "xslt", "valid", "check", "writer", "module",
    "i18n", "schematronv", "buffer", "uri"].map lit).getD
    (if domain < 0 then 31 else domain.toNat) (lit "unknown")

/-- Name of a level in the `by_level` loop of the summary. -/
def levelName (i : Int) : CStr :=
  if i = XML_ERR_NONE then lit "none"
  else if i = XML_ERR_WARNING then lit "warning"
  else if i = XML_ERR_ERROR then lit "error"
  else lit "fatal"

/-- Embedding of `xmllintJsonWriteSummary`; an `unsigned` count is passed
to `xmllintJsonAddInt`, which takes an `int`. -/
def xmllintJsonWriteSummary (pretty : Int) (level : Nat)
    (lint : xmllintState) : List Nat :=
  if lint.errorJsonSummary = 0 then []
  else
    lit "\x7b" ++
    xmllintJsonKey pretty (level + 1) (lit "by_level") ++ lit "\x7b" ++
    commaLoop ((List.range (XML_ERR_FATAL + 1).toNat).map (fun (i : Nat) =>
      xmllintJsonKey pretty (level + 2) (levelName (i : Int)) ++
      xmllintJsonAddInt (castInt (lint.errorLevelCounts.getD i 0)))) true ++
    xmllintJsonIndent pretty (level + 1) ++ lit "\x7d" ++
    [44] ++ xmllintJsonKey pretty (level + 1) (lit "by_domain") ++ lit "\x7b" ++
    commaLoop (((List.range (XML_FROM_URI + 1).toNat).filter (fun (i : Nat) =>
      lint.errorDomainCounts.getD i 0 ≠ 0)).map (fun (i : Nat) =>
      xmllintJsonKey pretty (level + 2) (xmllintDomainName (i : Int)) ++
      xmllintJsonAddInt (castInt (lint.errorDomainCounts.getD i 0)))) true ++
    xmllintJsonIndent pretty (level + 1) ++ lit "\x7d" ++
    [44] ++ xmllintJsonKey pretty (level + 1) (lit "by_code") ++ lit "\x7b" ++
    commaLoop (lint.errorCodeCounts.map (fun c =>
      xmllintJsonKey pretty (level + 2) (fmtInt c.code) ++
      xmllintJsonAddInt (castInt c.count))) true ++
    xmllintJsonIndent pretty (level + 1) ++ lit "\x7d" ++
    [44] ++ xmllintJsonKey pretty (level + 1) (lit "by_stage") ++ lit "\x7b" ++
    commaLoop (lint.errorStageCounts.map (fun st =>
      let span := st.lastMs - st.firstMs
      xmllintJsonKey pretty (level + 2) st.name ++ lit "\x7b" ++
      xmllintJsonKey pretty (level + 3) (lit "count") ++
      xmllintJsonAddInt (castInt st.count) ++
      [44] ++ xmllintJsonKey pretty (level + 3) (lit "first_ms") ++
      xmllintJsonAddLongLong st.firstMs ++
      [44] ++ xmllintJsonKey pretty (level + 3) (lit "last_ms") ++
      xmllintJsonAddLongLong st.lastMs ++
      [44] ++ xmllintJsonKey pretty (level + 3) (lit "span_ms") ++
      xmllintJsonAddLongLong (if span < 0 then 0 else span) ++
      xmllintJsonIndent pretty (level + 2) ++ lit "\x7d")) true ++
    xmllintJsonIndent pretty (level + 1) ++ lit "\x7d" ++
    xmllintJsonIndent pretty level ++ lit "\x7d"

/-! ## Output sinks -/

/-- Where the error handler writes: a stream (`FILE *`) or the system
log. -/
inductive Sink where
  | file (fp : Nat)
  | syslog
deriving DecidableEq, Repr

/-- The writes of a run, in order. -/
abbrev Trace := List (Sink × List Nat)

/-- Everything a trace wrote to one sink, in order. -/
def written (t : Trace) (s : Sink) : List Nat :=
  (t.filter (fun w => w.1 = s)).flatMap (fun w => w.2)

/-! ## JSON array mode (xmllint.c 1754-1792) -/

/-- Embedding of `xmllintStartErrorArray`. -/
def xmllintStartErrorArray (lint : xmllintState) (filename : Option CStr) :
    xmllintState × Trace :=
  if lint.errorJsonArray = 0 then (lint, [])
  else
    let out := match lint.errorJsonStream with
      | some fp => fp
      | none => lint.errStream
    ({ lint with errorJsonArrayOpen := 1, errorJsonArrayCount := 0 },
     [(Sink.file out,
       lit "\x7b\"schema_version\":" ++
       xmllintJsonAddInt XMLLINT_JSON_SCHEMA_VERSION ++
       lit ",\"file\":" ++
       xmllintJsonEscape (xmllintRedactValue lint XMLLINT_REDACT_FILE filename) ++
       lit ",\"errors\":[")])

/-- Embedding of `xmllintFinishErrorArray`. -/
def xmllintFinishErrorArray (lint : xmllintState) : xmllintState × Trace :=
  if lint.errorJsonArrayOpen = 0 then (lint, [])
  else
    let out := match lint.errorJsonStream with
      | some fp => fp
      | none => lint.errStream
    let p : Int := if lint.errorJsonPretty ≠ 0 then 1 else 0
    let l : Nat := if lint.errorJsonPretty ≠ 0 then 1 else 0
    ({ lint with errorJsonArrayOpen := 0 },
     [(Sink.file out,
       lit "]" ++
       (if lint.errorJsonSummary ≠ 0 then xmllintJsonWriteSummary p l lint
        else []) ++
       (if lint.errorJsonChecksum ≠ 0 then
          xmllintJsonAddChecksum p l (lit "checksum")
            lint.checksumValid lint.errorChecksum
        else []) ++
       lit "\x7d\n")])

/-- Embedding of `xmllintWriteSummaryLine`, the summary of the
line-delimited mode. -/
def xmllintWriteSummaryLine (lint : xmllintState) (filename : Option CStr) :
    Trace :=
  if lint.errorJsonSummary = 0 then []
  else
    let out := match lint.errorJsonStream with
      | some fp => fp
      | none => lint.errStream
    [(Sink.file out,
      lit "\x7b\"schema_version\":" ++
      xmllintJsonAddInt XMLLINT_JSON_SCHEMA_VERSION ++
      lit ",\"file\":" ++
      xmllintJsonEscape (xmllintRedactValue lint XMLLINT_REDACT_FILE filename) ++
      lit ",\"summary\":" ++
      xmllintJsonWriteSummary 0 0 lint ++
      (if lint.errorJsonChecksum ≠ 0 then
         xmllintJsonAddChecksum 0 0 (lit "checksum")
           lint.checksumValid lint.errorChecksum
       else []) ++
      lit "\x7d\n")]

/-! ## JSON into a buffer (xmllint.c 468-799) -/

/-- Result of a buffer helper: whether it returned 0, and the content of
the buffer afterwards. -/
abbrev BufRes := Bool × List Nat

/-- Sequencing of buffer helpers: `if (first != 0) return -1; next`. -/
def bufSeq (r : BufRes) (next : List Nat → BufRes) : BufRes :=
  if r.1 then next r.2 else r

/-- Embedding of `xmllintBufAdd`: `str` is a C string, so its storage ends
with a NUL byte, and `len` bytes of the storage are added (`strlen(str)`
bytes when `len < 0`). -/
def xmllintBufAdd (env : Env) (buf : List Nat) (str : CStr) (len : Int) :
    BufRes :=
  let bytes := if len < 0 then str else (str ++ [0]).take len.toNat
  match env.xmlBufferAdd buf bytes with
  | some b => (true, b)
  | none => (false, buf)

/-- Body of the `switch (*cur)` of `xmllintBufEscape`. -/
def xmllintBufEscapeByte (env : Env) (buf : List Nat) (c : Nat) : BufRes :=
  if c = 34 then xmllintBufAdd env buf [92, 34] 2
  else if c = 92 then xmllintBufAdd env buf [92, 92] 2
  else if c = 8 then xmllintBufAdd env buf [92, 98] 2
  else if c = 12 then xmllintBufAdd env buf [92, 102] 2
  else if c = 10 then xmllintBufAdd env buf [92, 110] 2
  else if c = 13 then xmllintBufAdd env buf [92, 114] 2
  else if c = 9 then xmllintBufAdd env buf [92, 116] 2
  else if c < 32 then
    -- snprintf(tmp, sizeof(tmp), "\\u%04x", *cur)
    xmllintBufAdd env buf (([92, 117] ++ fmtHex 4 c).take 6) 6
  else
    -- xmlBufferAdd(buf, cur, 1)
    match env.xmlBufferAdd buf [c] with
    | some b => (true, b)
    | none => (false, buf)

/-- The `for` loop of `xmllintBufEscape`. -/
def xmllintBufEscapeLoop (env : Env) : List Nat → List Nat → BufRes
  | [], buf => (true, buf)
  | c :: cs, buf =>
    bufSeq (xmllintBufEscapeByte env buf c) (xmllintBufEscapeLoop env cs)

/-- Embedding of `xmllintBufEscape`. -/
def xmllintBufEscape (env : Env) (buf : List Nat) (str : Option CStr) :
    BufRes :=
  match str with
  | none => xmllintBufAdd env buf (lit "null") 4
  | some s =>
    bufSeq (xmllintBufAdd env buf (lit "\"") 1) fun buf =>
    bufSeq (xmllintBufEscapeLoop env s buf) fun buf =>
    xmllintBufAdd env buf (lit "\"") 1

/-- Embedding of `xmllintBufAddInt`. -/
def xmllintBufAddInt (env : Env) (buf : List Nat) (value : Int) : BufRes :=
  let tmp := fmtInt value
  let len : Int := tmp.length
  if len ≤ 0 then (false, buf) else xmllintBufAdd env buf tmp len

/-- Embedding of `xmllintBufAddKey`. -/
def xmllintBufAddKey (env : Env) (buf : List Nat) (key : CStr) : BufRes :=
  bufSeq (xmllintBufEscape env buf (some key)) fun buf =>
  xmllintBufAdd env buf (lit ":") 1

/-- The loop of `xmllintBufAddOptions`, with the current value of
`first`. -/
def xmllintBufAddOptionsLoop (env : Env) (options : Nat) :
    List xmllintOptName → Bool → List Nat → BufRes
  | [], _, buf => (true, buf)
  | d :: ds, first, buf =>
    if options &&& d.flag = 0 then
      xmllintBufAddOptionsLoop env options ds first buf
    else
      bufSeq (if first then (true, buf) else xmllintBufAdd env buf (lit ",") 1)
        fun buf =>
      bufSeq (xmllintBufEscape env buf (some d.name)) fun buf =>
      xmllintBufAddOptionsLoop env options ds false buf

/-- Embedding of `xmllintBufAddOptions`. -/
def xmllintBufAddOptions (env : Env) (buf : List Nat) (key : CStr)
    (options : Nat) (defs : List xmllintOptName) : BufRes :=
  bufSeq (xmllintBufAdd env buf (lit ",") 1) fun buf =>
  bufSeq (xmllintBufAddKey env buf key) fun buf =>
  bufSeq (xmllintBufAdd env buf (lit "[") 1) fun buf =>
  bufSeq (xmllintBufAddOptionsLoop env options defs true buf) fun buf =>
  xmllintBufAdd env buf (lit "]") 1

/-- Embedding of `xmllintBufAddChecksum`. -/
def xmllintBufAddChecksum (env : Env) (buf : List Nat) (key : CStr)
    (valid : Int) (checksum : Nat) : BufRes :=
  bufSeq (xmllintBufAdd env buf (lit ",") 1) fun buf =>
  bufSeq (xmllintBufAddKey env buf key) fun buf =>
  if valid = 0 then xmllintBufAdd env buf (lit "null") 4
  else
    let tmp := [34] ++ fmtHex 16 checksum ++ [34]
    let len : Int := tmp.length
    if len ≤ 0 then (false, buf) else xmllintBufAdd env buf tmp len

/-- Embedding of `xmllintBufAddWindow`. -/
def xmllintBufAddWindow (env : Env) (buf : List Nat) (key : CStr)
    (lint : xmllintState) : BufRes :=
  if lint.errorJsonWindow ≤ 0 then (true, buf)
  else if lint.errorRedactFlags &&& XMLLINT_REDACT_WINDOW ≠ 0 then
    bufSeq (xmllintBufAdd env buf (lit ",") 1) fun buf =>
    bufSeq (xmllintBufAddKey env buf key) fun buf =>
    xmllintBufAdd env buf (lit "null") 4
  else
    match lint.ctxt with
    | none => (true, buf)
    | some ctxt =>
      match ctxt.inputWindow with
      | none => (true, buf)
      | some w =>
        match w.start with
        | none => (true, buf)
        | some start =>
          if w.size ≤ 0 then (true, buf)
          else
            let offset := if w.offset < 0 then 0 else w.offset
            let offset := if offset > w.size then w.size else offset
            let len := lint.errorJsonWindow
            let len := if len > w.size - offset then w.size - offset else len
            if env.windowMalloc then
              let tmp := (start.drop offset.toNat).take len.toNat
              bufSeq (xmllintBufAdd env buf (lit ",") 1) fun buf =>
              bufSeq (xmllintBufAddKey env buf key) fun buf =>
              xmllintBufEscape env buf (some (tmp.takeWhile (fun b => b ≠ 0)))
            else (false, buf)

/-- Embedding of `xmllintJsonErrorToBuffer` (built with
`LIBXML_HTML_ENABLED`). -/
def xmllintJsonErrorToBuffer (tabs : xmllintOptTables) (env : Env)
    (buf : List Nat) (lint : xmllintState) (error : xmlError)
    (filename : Option CStr) : BufRes :=
  let file := xmllintRedactValue lint XMLLINT_REDACT_FILE filename
  let message := xmllintRedactValue lint XMLLINT_REDACT_MESSAGE error.message
  let str1 := xmllintRedactValue lint XMLLINT_REDACT_STR1 error.str1
  let str2 := xmllintRedactValue lint XMLLINT_REDACT_STR2 error.str2
  let str3 := xmllintRedactValue lint XMLLINT_REDACT_STR3 error.str3
  let resourceType := str2
  let stage := str3
  bufSeq (xmllintBufAdd env buf (lit "\x7b") 1) fun buf =>
  bufSeq (xmllintBufAddKey env buf (lit "schema_version")) fun buf =>
  bufSeq (xmllintBufAddInt env buf XMLLINT_JSON_SCHEMA_VERSION) fun buf =>
  bufSeq (xmllintBufAdd env buf (lit ",") 1) fun buf =>
  bufSeq (xmllintBufAddKey env buf (lit "file")) fun buf =>
  bufSeq (xmllintBufEscape env buf file) fun buf =>
  bufSeq (xmllintBufAdd env buf (lit ",\"domain\":") 10) fun buf =>
  bufSeq (xmllintBufAddInt env buf error.domain) fun buf =>
  bufSeq (xmllintBufAdd env buf (lit ",\"code\":") 8) fun buf =>
  bufSeq (xmllintBufAddInt env buf error.code) fun buf =>
  bufSeq (xmllintBufAdd env buf (lit ",\"level\":") 9) fun buf =>
  bufSeq (xmllintBufAddInt env buf error.level) fun buf =>
  bufSeq (xmllintBufAdd env buf (lit ",\"line\":") 8) fun buf =>
  bufSeq (xmllintBufAddInt env buf error.line) fun buf =>
  bufSeq (xmllintBufAdd env buf (lit ",\"column\":") 10) fun buf =>
  bufSeq (xmllintBufAddInt env buf error.int2) fun buf =>
  bufSeq (xmllintBufAdd env buf (lit ",\"message\":") 11) fun buf =>
  bufSeq (xmllintBufEscape env buf message) fun buf =>
  bufSeq (xmllintBufAdd env buf (lit ",\"str1\":") 8) fun buf =>
  bufSeq (xmllintBufEscape env buf str1) fun buf =>
  bufSeq (xmllintBufAdd env buf (lit ",\"str2\":") 8) fun buf =>
  bufSeq (xmllintBufEscape env buf str2) fun buf =>
  bufSeq (xmllintBufAdd env buf (lit ",\"str3\":") 8) fun buf =>
  bufSeq (xmllintBufEscape env buf str3) fun buf =>
  bufSeq (xmllintBufAdd env buf (lit ",\"resource_type\":") 17) fun buf =>
  bufSeq (xmllintBufEscape env buf resourceType) fun buf =>
  bufSeq (xmllintBufAdd env buf (lit ",\"stage\":") 9) fun buf =>
  bufSeq (xmllintBufEscape env buf stage) fun buf =>
  bufSeq (xmllintBufAddOptions env buf (lit "parse_options")
    lint.parseOptions tabs.xmlOpts) fun buf =>
  bufSeq (if lint.appOptions &&& XML_LINT_HTML_ENABLED ≠ 0 then
            xmllintBufAddOptions env buf (lit "html_options")
              lint.htmlOptions tabs.htmlOpts
          else (true, buf)) fun buf =>
  bufSeq (xmllintBufAddWindow env buf (lit "window") lint) fun buf =>
  bufSeq (xmllintBufAddChecksum env buf (lit "checksum")
    lint.checksumValid lint.errorChecksum) fun buf =>
  bufSeq (xmllintBufAdd env buf (lit ",\"fingerprint\":\"") 17) fun buf =>
  bufSeq (let tmp := fmtHex 16 (xmllintErrorFingerprint (some error))
          let len : Int := tmp.length
          if len ≤ 0 then (false, buf) else xmllintBufAdd env buf tmp len)
    fun buf =>
  bufSeq (xmllintBufAdd env buf (lit "\"") 1) fun buf =>
  xmllintBufAdd env buf (lit "\x7d") 1

/-- Embedding of `xmllintSyslogError`: the message given to `syslog` with
the format `%s`, which ends at the first NUL byte of the buffer. -/
def xmllintSyslogError (tabs : xmllintOptTables) (lint : xmllintState)
    (error : xmlError) (env : Env) : Trace :=
  if env.bufferCreate = false then []
  else
    let r := xmllintJsonErrorToBuffer tabs env [] lint error
      lint.errorJsonArrayFile
    if r.1 then [(Sink.syslog, r.2.takeWhile (fun b => b ≠ 0))] else []

/-! ## XML error lines (xmllint.c 1209-1238) -/

/-- Embedding of `xmllintWriteXmlError`: the bytes written to `out`. -/
def xmllintWriteXmlError (lint : xmllintState) (error : xmlError)
    (filename : Option CStr) (env : Env) : List Nat :=
  let file := match filename with
    | some f => some f
    | none => error.file
  let tmp : xmlError :=
    { error with
      file := xmllintRedactValue lint XMLLINT_REDACT_FILE file
      message := xmllintRedactValue lint XMLLINT_REDACT_MESSAGE error.message
      str1 := xmllintRedactValue lint XMLLINT_REDACT_STR1 error.str1
      str2 := xmllintRedactValue lint XMLLINT_REDACT_STR2 error.str2
      str3 := xmllintRedactValue lint XMLLINT_REDACT_STR3 error.str3 }
  match env.xmlErrorToXml tmp with
  | some xml => xml ++ [10]
  | none => []

/-! ## The error handler (xmllint.c 1423-1481) -/

/-- Embedding of `xmllintStructuredError` for a non-`NULL` state, on a
platform other than Windows. -/
def xmllintStructuredError (tabs : xmllintOptTables) (lint : xmllintState)
    (error : Option xmlError) (env : Env) : xmllintState × Trace :=
  match error with
  | none => (lint, [])
  | some error =>
    let lint := xmllintErrorStatsAdd lint error env
    let limited : Bool :=
      lint.errorJsonLimit > 0 ∧ lint.errorJsonCount ≥ lint.errorJsonLimit
    let emitJson : Int := if limited then 0 else lint.errorJson
    let emitSyslog : Int := if limited then 0 else lint.errorSyslog
    let emitXml : Int := lint.errorXml
    if emitJson = 0 ∧ emitSyslog = 0 ∧ emitXml = 0 then (lint, [])
    else
      let r1 : xmllintState × Trace :=
        if emitJson ≠ 0 then
          let out :=
            if error.level = XML_ERR_WARNING ∧ lint.errorJsonWarnStream.isSome then
              lint.errorJsonWarnStream.getD lint.errStream
            else
              match lint.errorJsonStream with
              | some fp => fp
              | none => lint.errStream
          let r : xmllintState × Trace :=
            if lint.errorJsonArray ≠ 0 then
              ({ lint with errorJsonArrayCount := lint.errorJsonArrayCount + 1 },
               (if lint.errorJsonArrayCount > 0 then [(Sink.file out, [44])]
                else []) ++
               [(Sink.file out,
                 xmllintWriteJsonError tabs lint error lint.errorJsonArrayFile env)])
            else
              (lint,
               [(Sink.file out,
                 xmllintWriteJsonError tabs lint error lint.errorJsonArrayFile env),
                (Sink.file out, [10])])
          ({ r.1 with errorJsonCount := r.1.errorJsonCount + 1 }, r.2)
        else (lint, [])
      let lint := r1.1
      let t2 : Trace :=
        if emitXml ≠ 0 then
          let xmlOut := match lint.errorXmlStream with
            | some fp => fp
            | none => lint.errStream
          [(Sink.file xmlOut,
            xmllintWriteXmlError lint error lint.errorJsonArrayFile env)]
        else []
      let t3 : Trace :=
        if emitSyslog ≠ 0 then xmllintSyslogError tabs lint error env else []
      (lint, r1.2 ++ t2 ++ t3)

/-! ## File checksum (xmllint.c 1278-1300) -/

/-- Embedding of `xmllintChecksumFile`: the returned hash and the value
stored in `*ok`.  `fopen` is the answer of the file system for a name: the
bytes of the file, `none` when it cannot be opened. -/
def xmllintChecksumFile (fopen : CStr → Option (List Nat))
    (filename : Option CStr) : Nat × Int :=
  match filename with
  | none => (0, 0)
  | some name =>
    if name = lit "-" then (0, 0)
    else
      match fopen name with
      | none => (0, 0)
      | some bytes => (bytes.foldl (fun h c => fnvStep h (c % 256))
                        1469598103934665603, 1)

/-! ## One input file in the main loop (xmllint.c 5282-5309) -/

/-- The handler called on each event of a parse, in order. -/
def xmllintParseEvents (tabs : xmllintOptTables) :
    List (xmlError × Env) → xmllintState → xmllintState × Trace
  | [], lint => (lint, [])
  | (error, env) :: rest, lint =>
    let r := xmllintStructuredError tabs lint (some error) env
    let r2 := xmllintParseEvents tabs rest r.1
    (r2.1, r.2 ++ r2.2)

/-- The statements of `xmllintMain` around one parse of `filename` (one
iteration of the `repeat` loop followed by the end of the file): the
counters are reset, the array is started, the parser reports `events` to
the handler, which is installed when `errorJson` or `errorXml` is set, and
the array is finished or the summary line is written. -/
def xmllintMainFile (tabs : xmllintOptTables) (lint : xmllintState)
    (filename : CStr) (fopen : CStr → Option (List Nat)) (now : xmlTime)
    (events : List (xmlError × Env)) : xmllintState × Trace :=
  let lint := { lint with
    errorJsonArrayOpen := 0
    errorJsonArrayCount := 0
    errorJsonArrayFile := some filename
    errorJsonCount := 0 }
  let lint := xmllintErrorStatsReset lint now
  let lint :=
    if lint.errorJsonChecksum ≠ 0 then
      let r := xmllintChecksumFile fopen (some filename)
      { lint with errorChecksum := r.1, checksumValid := r.2 }
    else { lint with errorChecksum := 0, checksumValid := 0 }
  let r0 : xmllintState × Trace :=
    if lint.errorJsonArray ≠ 0 then xmllintStartErrorArray lint (some filename)
    else (lint, [])
  let r1 : xmllintState × Trace :=
    if lint.errorJson ≠ 0 ∨ lint.errorXml ≠ 0 then
      xmllintParseEvents tabs events r0.1
    else (r0.1, [])
  let lint := r1.1
  let r2 : xmllintState × Trace :=
    if lint.errorJsonArray ≠ 0 ∧ lint.errorJsonArrayOpen ≠ 0 then
      xmllintFinishErrorArray lint
    else if lint.errorJsonSummary ≠ 0 ∧ lint.errorJson ≠ 0 then
      (lint, xmllintWriteSummaryLine lint (some filename))
    else (lint, [])
  (r2.1, r0.2 ++ r1.2 ++ r2.2)

/-! ## Definitions used to state the properties -/

/-- Embedding of `xmllintInit` followed by `lint->errStream = errStream`;
the initial `parseOptions` and `htmlOptions` are built from header
constants and are parameters. -/
def xmllintInit (errStream parseOptions htmlOptions : Nat) : xmllintState :=
  { errStream := errStream, ctxt := none, htmlOptions := htmlOptions,
    parseOptions := parseOptions, appOptions := 0,
    errorXml := 0, errorJson := 0, errorJsonArray := 0, errorJsonPretty := 0,
    errorJsonLimit := 0, errorJsonCount := 0, errorJsonArrayOpen := 0,
    errorJsonArrayCount := 0, errorJsonArrayFile := none,
    errorJsonSummary := 0, errorJsonWindow := 0, errorJsonChecksum := 0,
    errorSyslog := 0, errorRedactFlags := 0,
    errorXmlStream := none, errorJsonStream := none,
    errorJsonWarnStream := none, errorChecksum := 0, checksumValid := 0,
    errorDomainCounts := List.replicate (XML_FROM_URI + 1).toNat 0,
    errorLevelCounts := List.replicate 4 0,
    errorCodeCounts := [], errorCodeCountsSize := 0,
    errorStageCounts := [], errorStageCountsSize := 0,
    errorStatsStart := ⟨0, 0⟩ }

/-- An environment in which every allocation succeeds, the clock reads
`t`, `xmlBufferAdd` appends and `xmlErrorToXml` fails. -/
def envAt (t : xmlTime) : Env :=
  { now := t, tv := some t, codeRealloc := true, stageRealloc := true,
    stageStrdup := true, windowMalloc := true, bufferCreate := true,
    xmlBufferAdd := fun b s => some (b ++ s), xmlErrorToXml := fun _ => none }

/-- A record with the given domain, code, level, message and stage, at
line 5, column 3. -/
def mkError (domain code level : Int) (message : String)
    (stage : Option String) : xmlError :=
  { domain := domain, code := code, message := some (lit message),
    level := level, file := none, line := 5, str1 := none, str2 := none,
    str3 := stage.map lit, int1 := 0, int2 := 3 }

/-- The stage of a record: `str3`, or the literal `unknown`. -/
def errorStage (e : xmlError) : CStr :=
  match e.str3 with
  | some s => s
  | none => lit "unknown"

/-- Increment of the entries for `code`. -/
def bumpCode (code : Int) (e : xmllintCodeCount) : xmllintCodeCount :=
  if e.code = code then { e with count := (e.count + 1) % 4294967296 } else e

/-- The code table after one record when the table can grow. -/
def addCode (code : Int) (t : List xmllintCodeCount) : List xmllintCodeCount :=
  match codeLoop code t with
  | some t2 => t2
  | none => t ++ [⟨code, 1⟩]

/-- Invariant of the code table with respect to the records seen. -/
def CodeInv (t : List xmllintCodeCount) (evs : List (xmlError × Env)) : Prop :=
  (t.map (fun e => e.code)).Nodup ∧
  (∀ c, c ∈ t.map (fun e => e.code) ↔ ∃ ev ∈ evs, ev.1.code = c) ∧
  (∀ e ∈ t, e.count = evs.countP (fun ev => ev.1.code = e.code) % 4294967296)

/-! ### The escaper as the specification words it -/

/-- Lower-case hexadecimal digit of a value below 16, as an ASCII byte. -/
def hexDigitChar (d : Nat) : Nat := if d < 10 then 48 + d else 87 + d

/-- What the specification writes for one byte. -/
def jsonEscapeByteSpec (c : Nat) : List Nat :=
  if c = 0x22 then lit "\\\""
  else if c = 0x5c then lit "\\\\"
  else if c = 0x08 then lit "\\b"
  else if c = 0x0c then lit "\\f"
  else if c = 0x0a then lit "\\n"
  else if c = 0x0d then lit "\\r"
  else if c = 0x09 then lit "\\t"
  else if c < 0x20 then lit "\\u00" ++ [hexDigitChar (c / 16), hexDigitChar (c % 16)]
  else [c]

/-- What the specification writes for a string: the token `null` for an
absent string, else the escaped bytes between double quotes. -/
def jsonEscapeSpec (str : Option CStr) : List Nat :=
  match str with
  | none => lit "null"
  | some s => lit "\"" ++ s.flatMap jsonEscapeByteSpec ++ lit "\""

/-! ### A decoder of JSON string literals (RFC 8259, section 7) -/

/-- Value of a hexadecimal digit. -/
def hexVal (c : Nat) : Option Nat :=
  if 48 ≤ c ∧ c ≤ 57 then some (c - 48)
  else if 97 ≤ c ∧ c ≤ 102 then some (c - 87)
  else if 65 ≤ c ∧ c ≤ 70 then some (c - 55)
  else none

/-- The byte denoted by the character after a backslash, for the
two-character escapes. -/
def simpleEscape (c : Nat) : Option Nat :=
  if c = 34 then some 34          -- \"
  else if c = 92 then some 92     -- \\
  else if c = 47 then some 47     -- \/
  else if c = 98 then some 8      -- \b
  else if c = 102 then some 12    -- \f
  else if c = 110 then some 10    -- \n
  else if c = 114 then some 13    -- \r
  else if c = 116 then some 9     -- \t
  else none

/-- UTF-8 encoding of a code point of the basic multilingual plane. -/
def utf8Encode (v : Nat) : List Nat :=
  if v < 0x80 then [v]
  else if v < 0x800 then [0xc0 + v / 64, 0x80 + v % 64]
  else [0xe0 + v / 4096, 0x80 + v / 64 % 64, 0x80 + v % 64]

/-- Where the decoder is in a literal. -/
inductive DecMode where
  | start                      -- before the opening quote
  | normal                     -- between the quotes
  | escape                     -- after a backslash
  | hex (k : Nat) (v : Nat)    -- after `\u` and `k` digits of value `v`
  | done                       -- after the closing quote
  | fail                       -- not a string literal
deriving DecidableEq, Repr

/-- State of the decoder: the mode and the bytes decoded so far. -/
structure Dec where
  mode : DecMode
  out : List Nat
deriving DecidableEq, Repr

/-- One byte of the literal. -/
def decStep (d : Dec) (c : Nat) : Dec :=
  match d.mode with
  | .start => if c = 34 then ⟨.normal, d.out⟩ else ⟨.fail, d.out⟩
  | .normal =>
    if c = 34 then ⟨.done, d.out⟩
    else if c = 92 then ⟨.escape, d.out⟩
    else if c < 32 then ⟨.fail, d.out⟩
    else ⟨.normal, d.out ++ [c]⟩
  | .escape =>
    if c = 117 then ⟨.hex 0 0, d.out⟩
    else match simpleEscape c with
      | some b => ⟨.normal, d.out ++ [b]⟩
      | none => ⟨.fail, d.out⟩
  | .hex k v =>
    match hexVal c with
    | none => ⟨.fail, d.out⟩
    | some h =>
      if k = 3 then
        (if 0xd800 ≤ v * 16 + h ∧ v * 16 + h < 0xe000 then ⟨.fail, d.out⟩
         else ⟨.normal, d.out ++ utf8Encode (v * 16 + h)⟩)
      else ⟨.hex (k + 1) (v * 16 + h), d.out⟩
  | .done => ⟨.fail, d.out⟩
  | .fail => ⟨.fail, d.out⟩

/-- Decoding of a text as one JSON string literal: the bytes it denotes,
or `none` when the text is not a well-formed literal (a raw byte below
0x20, a quote or a backslash that is not part of an escape, a missing
quote, or text after the closing quote). -/
def jsonStringDecode (text : List Nat) : Option (List Nat) :=
  let d := text.foldl decStep ⟨.start, []⟩
  if d.mode = .done then some d.out else none

/-- The library call `xmlBufferAdd` never fails in `env`: it appends. -/
def BufferAddOk (env : Env) : Prop :=
  ∀ buf bytes : List Nat, env.xmlBufferAdd buf bytes = some (buf ++ bytes)

/-! ### A scanner of the member keys of a JSON object -/

/-- State of the scanner: bracket depth, whether it is inside a string
literal and after a backslash there, whether the next string at depth 1 is a
member key, the raw text of the key being read, and the keys read so far. -/
structure KeyScan where
  depth : Nat
  inStr : Bool
  esc : Bool
  expectKey : Bool
  cur : Option (List Nat)
  keys : List (List Nat)
deriving DecidableEq, Repr

/-- One byte of the text. -/
def keyStep (s : KeyScan) (c : Nat) : KeyScan :=
  if s.inStr then
    if s.esc then { s with esc := false, cur := s.cur.map (fun k => k ++ [c]) }
    else if c = 92 then { s with esc := true, cur := s.cur.map (fun k => k ++ [c]) }
    else if c = 34 then
      { s with inStr := false, cur := none,
               keys := match s.cur with
                 | some k => s.keys ++ [k]
                 | none => s.keys }
    else { s with cur := s.cur.map (fun k => k ++ [c]) }
  else if c = 34 then
    { s with inStr := true, expectKey := false,
             cur := if s.depth = 1 ∧ s.expectKey = true then some [] else none }
  else if c = 123 then
    { s with depth := s.depth + 1, expectKey := decide (s.depth = 0) }
  else if c = 91 then { s with depth := s.depth + 1, expectKey := false }
  else if c = 125 ∨ c = 93 then { s with depth := s.depth - 1 }
  else if c = 44 then { s with expectKey := decide (s.depth = 1) }
  else s

/-- The keys of the members of the outermost object of a JSON text, in
order of appearance: the raw text between the quotes of every string that
follows the opening brace or a comma of the outermost object. -/
def jsonTopLevelKeys (text : List Nat) : List (List Nat) :=
  (text.foldl keyStep ⟨0, false, false, false, none, []⟩).keys

/-- Scanner state outside a string. -/
abbrev K (d : Nat) (e : Bool) (ks : List (List Nat)) : KeyScan :=
  ⟨d, false, false, e, none, ks⟩

/-- Bytes that do not change the state of the scanner outside a string. -/
abbrev Inert (b : Nat) : Prop := b ≠ 34 ∧ b ≠ 123 ∧ b ≠ 91 ∧ b ≠ 125 ∧ b ≠ 93 ∧ b ≠ 44

/-- A piece of the inside of a string literal: scanned inside a string and
not after a backslash, it is appended to the text being read and leaves the
scanner inside the string and not after a backslash. -/
def StrPiece (bs : List Nat) : Prop :=
  ∀ (d : Nat) (e : Bool) (cur : Option (List Nat)) (ks : List (List Nat)),
    bs.foldl keyStep ⟨d, true, false, e, cur, ks⟩ =
      ⟨d, true, false, e, cur.map (fun k => k ++ bs), ks⟩

/-- ASCII digits and lower-case hexadecimal letters. -/
abbrev IsHexChar (b : Nat) : Prop := (48 ≤ b ∧ b ≤ 57) ∨ (97 ≤ b ∧ b ≤ 102)

/-- A text that the scanner passes over at depth 1 outside a string, as the
value of a member. -/
def Neutral (v : List Nat) : Prop :=
  ∀ ks : List (List Nat), v.foldl keyStep (K 1 false ks) = K 1 false ks

/-- The keys of the members of the object written for one error, with the
three optional members present or not. -/
def errorObjectKeys (html window timestamp : Bool) : List (List Nat) :=
  [lit "schema_version", lit "file", lit "domain", lit "code", lit "level",
   lit "line", lit "column", lit "message", lit "str1", lit "str2", lit "str3",
   lit "resource_type", lit "stage", lit "parse_options"] ++
  (if html then [lit "html_options"] else []) ++
  (if window then [lit "window"] else []) ++
  [lit "checksum", lit "fingerprint"] ++
  (if timestamp then [lit "timestamp"] else [])

/-- The text of an error object up to and including the key of its
`message` member. -/
def jsonErrorHead (lint : xmllintState) (error : xmlError)
    (filename : Option CStr) : List Nat :=
  let pretty := lint.errorJsonPretty
  let level : Nat := if pretty ≠ 0 then 1 else 0
  lit "\x7b" ++
  xmllintJsonKey pretty level (lit "schema_version") ++
  xmllintJsonAddInt XMLLINT_JSON_SCHEMA_VERSION ++
  [44] ++ xmllintJsonKey pretty level (lit "file") ++
  xmllintJsonEscape (xmllintRedactValue lint XMLLINT_REDACT_FILE filename) ++
  [44] ++ xmllintJsonKey pretty level (lit "domain") ++
  xmllintJsonAddInt error.domain ++
  [44] ++ xmllintJsonKey pretty level (lit "code") ++
  xmllintJsonAddInt error.code ++
  [44] ++ xmllintJsonKey pretty level (lit "level") ++
  xmllintJsonAddInt error.level ++
  [44] ++ xmllintJsonKey pretty level (lit "line") ++
  xmllintJsonAddInt error.line ++
  [44] ++ xmllintJsonKey pretty level (lit "column") ++
  xmllintJsonAddInt error.int2 ++
  [44] ++ xmllintJsonKey pretty level (lit "message")

/-- The text of an error object after the value of its `message` member. -/
def jsonErrorTail (tabs : xmllintOptTables) (lint : xmllintState)
    (error : xmlError) (env : Env) : List Nat :=
  let pretty := lint.errorJsonPretty
  let level : Nat := if pretty ≠ 0 then 1 else 0
  let str2 := xmllintRedactValue lint XMLLINT_REDACT_STR2 error.str2
  let str3 := xmllintRedactValue lint XMLLINT_REDACT_STR3 error.str3
  [44] ++ (xmllintJsonKey pretty level (lit "str1") ++
  xmllintJsonEscape (xmllintRedactValue lint XMLLINT_REDACT_STR1 error.str1) ++
  [44] ++ xmllintJsonKey pretty level (lit "str2") ++
  xmllintJsonEscape str2 ++
  [44] ++ xmllintJsonKey pretty level (lit "str3") ++
  xmllintJsonEscape str3 ++
  [44] ++ xmllintJsonKey pretty level (lit "resource_type") ++
  xmllintJsonEscape str2 ++
  [44] ++ xmllintJsonKey pretty level (lit "stage") ++
  xmllintJsonEscape str3 ++
  xmllintJsonAddOptions pretty level (lit "parse_options")
    lint.parseOptions tabs.xmlOpts ++
  (if lint.appOptions &&& XML_LINT_HTML_ENABLED ≠ 0 then
    xmllintJsonAddOptions pretty level (lit "html_options")
      lint.htmlOptions tabs.htmlOpts
   else []) ++
  xmllintJsonAddWindow pretty level (lit "window") lint env) ++
  (xmllintJsonAddChecksum pretty level (lit "checksum")
    lint.checksumValid lint.errorChecksum ++
  xmllintJsonAddFingerprint pretty level (lit "fingerprint") error ++
  (xmllintJsonAddTime pretty level (lit "timestamp") env.tv ++
  xmllintJsonIndent pretty 0 ++
  lit "\x7d"))

/-- The state with the `message` bit of the redaction flags set. -/
def redactMessage (lint : xmllintState) : xmllintState :=
  { lint with errorRedactFlags := lint.errorRedactFlags ||| XMLLINT_REDACT_MESSAGE }

/-- The rows of `xmlOpts` and `htmlOpts` with the flag values of the
libxml2 headers `parser.h` and `HTMLparser.h`; used in the examples only. -/
def exampleOptTables : xmllintOptTables :=
  { xmlOpts :=
      [⟨1 <<< 0, lit "RECOVER"⟩, ⟨1 <<< 1, lit "NOENT"⟩, ⟨1 <<< 2, lit "DTDLOAD"⟩,
       ⟨1 <<< 3, lit "DTDATTR"⟩, ⟨1 <<< 4, lit "DTDVALID"⟩, ⟨1 <<< 5, lit "NOERROR"⟩,
       ⟨1 <<< 6, lit "NOWARNING"⟩, ⟨1 <<< 7, lit "PEDANTIC"⟩, ⟨1 <<< 8, lit "NOBLANKS"⟩,
       ⟨1 <<< 9, lit "SAX1"⟩, ⟨1 <<< 10, lit "XINCLUDE"⟩, ⟨1 <<< 11, lit "NONET"⟩,
       ⟨1 <<< 12, lit "NODICT"⟩, ⟨1 <<< 13, lit "NSCLEAN"⟩, ⟨1 <<< 14, lit "NOCDATA"⟩,
       ⟨1 <<< 15, lit "NOXINCNODE"⟩, ⟨1 <<< 16, lit "COMPACT"⟩, ⟨1 <<< 17, lit "OLDXML10"⟩,
       ⟨1 <<< 18, lit "NOBASEFIX"⟩, ⟨1 <<< 19, lit "HUGE"⟩, ⟨1 <<< 22, lit "BIG_LINES"⟩,
       ⟨1 <<< 23, lit "NO_XXE"⟩, ⟨1 <<< 24, lit "UNZIP"⟩, ⟨1 <<< 25, lit "NO_SYS_CATALOG"⟩,
       ⟨1 <<< 26, lit "CATALOG_PI"⟩, ⟨1 <<< 27, lit "SKIP_IDS"⟩,
       ⟨1 <<< 28, lit "REQUIRE_LOADER"⟩]
    htmlOpts :=
      [⟨1 <<< 0, lit "RECOVER"⟩, ⟨1 <<< 2, lit "NODEFDTD"⟩, ⟨1 <<< 5, lit "NOERROR"⟩,
       ⟨1 <<< 6, lit "NOWARNING"⟩, ⟨1 <<< 7, lit "PEDANTIC"⟩, ⟨1 <<< 8, lit "NOBLANKS"⟩,
       ⟨1 <<< 11, lit "NONET"⟩, ⟨1 <<< 13, lit "NOIMPLIED"⟩, ⟨1 <<< 16, lit "COMPACT"⟩,
       ⟨1 <<< 26, lit "HTML5"⟩, ⟨1 <<< 22, lit "BIG_LINES"⟩, ⟨1 <<< 21, lit "IGNORE_ENC"⟩,
       ⟨1 <<< 19, lit "HUGE"⟩] }

/-- The state after `xmllintInit` and the options `--error-json-array
--error-json-summary`, with standard error as stream 2. -/
def arraySummaryState : xmllintState :=
  { xmllintInit 2 4259840 4259840 with
    errorJson := 1, errorJsonArray := 1, errorJsonSummary := 1 }

/-- The state after `xmllintInit` and the options `--error-json-array
--error-json-warn-file w.json`, the warnings file being stream 7. -/
def arrayWarnState : xmllintState :=
  { xmllintInit 2 4259840 4259840 with
    errorJson := 1, errorJsonArray := 1, errorJsonWarnStream := some 7 }

/-- The state after `xmllintInit` and the option `--error-json`. -/
def jsonState : xmllintState :=
  { xmllintInit 2 4259840 4259840 with errorJson := 1 }

/-! ### A checker of JSON texts (RFC 8259) -/

/-- Where the checker is in the grammar of RFC 8259. -/
inductive JsonMode where
  | value                        -- a value must start
  | arrFirst                     -- after `[`: a value or `]`
  | objFirst                     -- after the opening brace: a key or the closing brace
  | key                          -- after `,` in an object: a key
  | colon                        -- after a key
  | after                        -- after a value
  | str (isKey : Bool) (sub : Nat)
      -- in a string: `sub` is 0, 1 after a backslash, 2 to 5 in `\uXXXX`
  | num (phase : Nat)
      -- in a number: after `-` (0), after a leading `0` (1), in the integer
      -- digits (2), after `.` (3), in the fraction (4), after `e` (5),
      -- after the sign of the exponent (6), in the exponent (7)
  | word (rest : List Nat)       -- in `true`, `false` or `null`
  | fail
deriving DecidableEq, Repr

/-- State of the checker: the open containers, innermost first (`true`
for an object, `false` for an array), and the mode. -/
structure JsonCheck where
  stack : List Bool
  mode : JsonMode
deriving DecidableEq, Repr

/-- JSON white space. -/
def isJsonSpace (c : Nat) : Bool := c = 32 ∨ c = 9 ∨ c = 10 ∨ c = 13

/-- ASCII decimal digit. -/
def isDigit (c : Nat) : Bool := 48 ≤ c ∧ c ≤ 57

/-- A byte read after a complete value. -/
def jsonAfter (stack : List Bool) (c : Nat) : JsonCheck :=
  if isJsonSpace c then ⟨stack, .after⟩
  else if c = 44 then
    match stack with
    | true :: _ => ⟨stack, .key⟩
    | false :: _ => ⟨stack, .value⟩
    | [] => ⟨stack, .fail⟩
  else if c = 125 then
    match stack with
    | true :: rest => ⟨rest, .after⟩
    | _ => ⟨stack, .fail⟩
  else if c = 93 then
    match stack with
    | false :: rest => ⟨rest, .after⟩
    | _ => ⟨stack, .fail⟩
  else ⟨stack, .fail⟩

/-- A byte read where a value must start. -/
def jsonValueStart (stack : List Bool) (c : Nat) : JsonCheck :=
  if isJsonSpace c then ⟨stack, .value⟩
  else if c = 34 then ⟨stack, .str false 0⟩
  else if c = 123 then ⟨true :: stack, .objFirst⟩
  else if c = 91 then ⟨false :: stack, .arrFirst⟩
  else if c = 45 then ⟨stack, .num 0⟩
  else if c = 48 then ⟨stack, .num 1⟩
  else if isDigit c then ⟨stack, .num 2⟩
  else if c = 116 then ⟨stack, .word [114, 117, 101]⟩
  else if c = 102 then ⟨stack, .word [97, 108, 115, 101]⟩
  else if c = 110 then ⟨stack, .word [117, 108, 108]⟩
  else ⟨stack, .fail⟩

/-- One byte of the text. -/
def jsonStep (s : JsonCheck) (c : Nat) : JsonCheck :=
  match s.mode with
  | .fail => s
  | .value => jsonValueStart s.stack c
  | .arrFirst =>
    if c = 93 then ⟨s.stack.tail, .after⟩
    else if isJsonSpace c then s
    else jsonValueStart s.stack c
  | .objFirst =>
    if isJsonSpace c then s
    else if c = 125 then ⟨s.stack.tail, .after⟩
    else if c = 34 then ⟨s.stack, .str true 0⟩
    else ⟨s.stack, .fail⟩
  | .key =>
    if isJsonSpace c then s
    else if c = 34 then ⟨s.stack, .str true 0⟩
    else ⟨s.stack, .fail⟩
  | .colon =>
    if isJsonSpace c then s
    else if c = 58 then ⟨s.stack, .value⟩
    else ⟨s.stack, .fail⟩
  | .after => jsonAfter s.stack c
  | .str isKey sub =>
    if sub = 0 then
      if c = 34 then ⟨s.stack, if isKey then .colon else .after⟩
      else if c = 92 then ⟨s.stack, .str isKey 1⟩
      else if c < 32 then ⟨s.stack, .fail⟩
      else s
    else if sub = 1 then
      if c = 117 then ⟨s.stack, .str isKey 2⟩
      else if (simpleEscape c).isSome then ⟨s.stack, .str isKey 0⟩
      else ⟨s.stack, .fail⟩
    else if (hexVal c).isSome then
      ⟨s.stack, .str isKey (if sub = 5 then 0 else sub + 1)⟩
    else ⟨s.stack, .fail⟩
  | .num phase =>
    if phase = 0 then
      if c = 48 then ⟨s.stack, .num 1⟩
      else if isDigit c then ⟨s.stack, .num 2⟩
      else ⟨s.stack, .fail⟩
    else if phase = 1 ∨ phase = 2 ∨ phase = 4 ∨ phase = 7 then
      if isDigit c ∧ phase ≠ 1 then s
      else if c = 46 ∧ (phase = 1 ∨ phase = 2) then ⟨s.stack, .num 3⟩
      else if (c = 101 ∨ c = 69) ∧ phase ≠ 7 then ⟨s.stack, .num 5⟩
      else jsonAfter s.stack c
    else if phase = 3 then
      if isDigit c then ⟨s.stack, .num 4⟩ else ⟨s.stack, .fail⟩
    else if phase = 5 then
      if c = 43 ∨ c = 45 then ⟨s.stack, .num 6⟩
      else if isDigit c then ⟨s.stack, .num 7⟩
      else ⟨s.stack, .fail⟩
    else
      if isDigit c then ⟨s.stack, .num 7⟩ else ⟨s.stack, .fail⟩
  | .word rest =>
    match rest with
    | [] => ⟨s.stack, .fail⟩
    | x :: r =>
      if c = x then ⟨s.stack, if r = [] then .after else .word r⟩
      else ⟨s.stack, .fail⟩

/-- Whether a text is one well-formed JSON value, surrounded by optional
white space. -/
def jsonWellFormed (text : List Nat) : Bool :=
  let s := text.foldl jsonStep ⟨[], .value⟩
  s.stack = [] ∧
    (s.mode = .after ∨ s.mode = .num 1 ∨ s.mode = .num 2 ∨ s.mode = .num 4 ∨
      s.mode = .num 7)

/-! ### The handler as a sequence of blocks, and its traces -/

/-- The state with the redaction flags replaced. -/
def withRedact (flags : Nat) (lint : xmllintState) : xmllintState :=
  { lint with errorRedactFlags := flags }

/-- The test of the emission limit in `xmllintStructuredError`:
`(errorJsonLimit > 0) && (errorJsonCount >= errorJsonLimit)`. -/
def emissionLimited (l : xmllintState) : Bool :=
  l.errorJsonLimit > 0 ∧ l.errorJsonCount ≥ l.errorJsonLimit

/-- The block `if (emitJson)` of `xmllintStructuredError`: the state and
the writes. -/
def handlerJson (tabs : xmllintOptTables) (lint : xmllintState) (error : xmlError)
    (env : Env) : xmllintState × Trace :=
  let out :=
    if error.level = XML_ERR_WARNING ∧ lint.errorJsonWarnStream.isSome then
      lint.errorJsonWarnStream.getD lint.errStream
    else
      match lint.errorJsonStream with
      | some fp => fp
      | none => lint.errStream
  let r : xmllintState × Trace :=
    if lint.errorJsonArray ≠ 0 then
      ({ lint with errorJsonArrayCount := lint.errorJsonArrayCount + 1 },
       (if lint.errorJsonArrayCount > 0 then [(Sink.file out, [44])]
        else []) ++
       [(Sink.file out,
         xmllintWriteJsonError tabs lint error lint.errorJsonArrayFile env)])
    else
      (lint,
       [(Sink.file out,
         xmllintWriteJsonError tabs lint error lint.errorJsonArrayFile env),
        (Sink.file out, [10])])
  ({ r.1 with errorJsonCount := r.1.errorJsonCount + 1 }, r.2)

/-- The block `if (emitXml)` of `xmllintStructuredError`: the write. -/
def handlerXml (lint : xmllintState) (error : xmlError) (env : Env) : Trace :=
  let xmlOut := match lint.errorXmlStream with
    | some fp => fp
    | none => lint.errStream
  [(Sink.file xmlOut, xmllintWriteXmlError lint error lint.errorJsonArrayFile env)]

/-- The handler after the statistics, as the sequence of its three blocks. -/
def handlerBlocks (tabs : xmllintOptTables) (l : xmllintState) (error : xmlError)
    (env : Env) : xmllintState × Trace :=
  let r1 : xmllintState × Trace :=
    if emissionLimited l = false ∧ l.errorJson ≠ 0 then handlerJson tabs l error env
    else (l, [])
  (r1.1, r1.2 ++ (if l.errorXml ≠ 0 then handlerXml r1.1 error env else []) ++
    (if emissionLimited l = false ∧ l.errorSyslog ≠ 0 then
      xmllintSyslogError tabs r1.1 error env else []))

/-- The level and domain tables of a state. -/
def levelDomain (l : xmllintState) : List Nat × List Nat :=
  (l.errorLevelCounts, l.errorDomainCounts)

/-! ## CBOR and binary writers (xmllint.c 1535-1559, 1639-1676) -/

/-- The byte written by `fputc((int) x, out)`: `x` converted to
`unsigned char`. -/
def fputc (x : Nat) : Nat := x % 256

/-- Embedding of `xmllintCborWriteType`: the bytes written to `out`.
`major` is an `unsigned int`, `val` an `unsigned long long`. -/
def xmllintCborWriteType (major val : Nat) : List Nat :=
  let m := (major <<< 5) % 4294967296
  if val < 24 then
    [fputc (m ||| val)]
  else if val ≤ 0xFF then
    [fputc (m ||| 24), fputc val]
  else if val ≤ 0xFFFF then
    [fputc (m ||| 25), fputc ((val >>> 8) &&& 0xFF), fputc (val &&& 0xFF)]
  else if val ≤ 0xFFFFFFFF then
    [fputc (m ||| 26), fputc ((val >>> 24) &&& 0xFF), fputc ((val >>> 16) &&& 0xFF),
     fputc ((val >>> 8) &&& 0xFF), fputc (val &&& 0xFF)]
  else
    [fputc (m ||| 27), fputc ((val >>> 56) &&& 0xFF), fputc ((val >>> 48) &&& 0xFF),
     fputc ((val >>> 40) &&& 0xFF), fputc ((val >>> 32) &&& 0xFF),
     fputc ((val >>> 24) &&& 0xFF), fputc ((val >>> 16) &&& 0xFF),
     fputc ((val >>> 8) &&& 0xFF), fputc (val &&& 0xFF)]

/-- Embedding of `xmllintCborWriteText`: `len` is `strlen(str)`, or 0 for
`NULL`. -/
def xmllintCborWriteText (str : Option CStr) : List Nat :=
  let s := str.getD []
  let len := s.length
  xmllintCborWriteType 3 (len % 18446744073709551616) ++ (if len > 0 then s else [])

/-- Embedding of `xmllintWriteBinHeader`, the write succeeding. -/
def xmllintWriteBinHeader : List Nat := [88, 69, 82, 66, 0, 0, 0, 1]

/-- Embedding of `xmllintWriteBinRecord`, the writes succeeding: `len`
is an `unsigned int` and `data` points to at least `len` bytes. -/
def xmllintWriteBinRecord (data : List Nat) (len : Nat) : List Nat :=
  let hdr := [((len >>> 24) &&& 0xFF) % 256, ((len >>> 16) &&& 0xFF) % 256,
              ((len >>> 8) &&& 0xFF) % 256, (len &&& 0xFF) % 256]
  hdr ++ (if len > 0 then data.take len else [])

/-! ### Readers of the two formats -/

/-- The value of a sequence of bytes read as a big-endian unsigned
integer. -/
def bigEndianValue (bytes : List Nat) : Nat :=
  bytes.foldl (fun acc b => acc * 256 + b) 0

/-- The `n` bytes of `v` in big-endian order. -/
def bigEndianBytes : Nat → Nat → List Nat
  | 0, _ => []
  | n + 1, v => bigEndianBytes n (v / 256) ++ [v % 256]

/-- The head of a CBOR data item as RFC 8949 defines the shortest form:
the initial byte holds the major type in its three high bits and, in its
five low bits, the value itself below 24, or 24, 25, 26, 27 followed by
the value in 1, 2, 4, 8 big-endian bytes. -/
def cborHeadSpec (m v : Nat) : List Nat :=
  if v < 24 then [m * 32 + v]
  else if v ≤ 0xFF then (m * 32 + 24) :: bigEndianBytes 1 v
  else if v ≤ 0xFFFF then (m * 32 + 25) :: bigEndianBytes 2 v
  else if v ≤ 0xFFFFFFFF then (m * 32 + 26) :: bigEndianBytes 4 v
  else (m * 32 + 27) :: bigEndianBytes 8 v

/-- Decoder of the head of a CBOR data item: the major type, the argument
and the bytes that follow; `none` for a truncated head and for the
additional information 28 to 31, which is reserved or marks an indefinite
length. -/
def cborDecodeHead : List Nat → Option (Nat × Nat × List Nat)
  | [] => none
  | b :: rest =>
    let m := b / 32
    let ai := b % 32
    let n := if ai < 24 then 0 else if ai = 24 then 1 else if ai = 25 then 2
      else if ai = 26 then 4 else 8
    if ai < 24 then some (m, ai, rest)
    else if 28 ≤ ai then none
    else if rest.length < n then none
    else some (m, bigEndianValue (rest.take n), rest.drop n)

/-- Reader of one length-prefixed record: the payload and the bytes that
follow, `none` when fewer bytes are left than the prefix announces. -/
def readBinRecord (bytes : List Nat) : Option (List Nat × List Nat) :=
  if bytes.length < 4 then none
  else
    let len := bigEndianValue (bytes.take 4)
    let rest := bytes.drop 4
    if rest.length < len then none else some (rest.take len, rest.drop len)

/-! ## Dumps of the error ring (xmllint.c 1561-1637, 1678-1752, 4790-4812, 5311-5316) -/

/-- The conversion `(unsigned long long) v` of an `int`. -/
def castULL (v : Int) : Nat := (v % 18446744073709551616).toNat

/-- The body of the loop of `xmllintDumpErrorRingCbor`: the bytes written
for one record of the ring. -/
def cborErrorRecord (lint : xmllintState) (e : xmlError) : List Nat :=
  let message := xmllintRedactValue lint XMLLINT_REDACT_MESSAGE e.message
  let str1 := xmllintRedactValue lint XMLLINT_REDACT_STR1 e.str1
  let str2 := xmllintRedactValue lint XMLLINT_REDACT_STR2 e.str2
  let str3 := xmllintRedactValue lint XMLLINT_REDACT_STR3 e.str3
  xmllintCborWriteType 5 8 ++   -- `/* map with 8 keys */`
  xmllintCborWriteText (some (lit "domain")) ++
  xmllintCborWriteType 0 (castULL e.domain) ++
  xmllintCborWriteText (some (lit "code")) ++
  xmllintCborWriteType 0 (castULL e.code) ++
  xmllintCborWriteText (some (lit "level")) ++
  xmllintCborWriteType 0 (castULL e.level) ++
  xmllintCborWriteText (some (lit "line")) ++
  xmllintCborWriteType 0 (castULL e.line) ++
  xmllintCborWriteText (some (lit "column")) ++
  xmllintCborWriteType 0 (castULL e.int2) ++
  xmllintCborWriteText (some (lit "message")) ++
  xmllintCborWriteText message ++
  xmllintCborWriteText (some (lit "str1")) ++
  xmllintCborWriteText str1 ++
  xmllintCborWriteText (some (lit "str2")) ++
  xmllintCborWriteText str2 ++
  xmllintCborWriteText (some (lit "str3")) ++
  xmllintCborWriteText str3

/-- Embedding of `xmllintDumpErrorRingCbor` for a non-`NULL` state: the
bytes written to `errorRingDumpCborStream`. -/
def xmllintDumpErrorRingCbor (env : Env) (lint : xmllintState)
    (ctxt : Option xmlParserCtxt) (filename : Option CStr) : List Nat :=
  match ctxt with
  | none => []
  | some ctxt =>
    if lint.errorRingDumpCborStream = none then []
    else
      match ctxt.errorRing with
      | none => []
      | some errors =>
        if env.ringMalloc = false then []
        else if errors.length > 0 ∧ env.ringCopy = false then []
        else
          xmllintCborWriteType 5 2 ++   -- `/* map with 2 keys */`
          xmllintCborWriteText (some (lit "file")) ++
          xmllintCborWriteText
            (xmllintRedactValue lint XMLLINT_REDACT_FILE (some (filename.getD []))) ++
          xmllintCborWriteText (some (lit "errors")) ++
          xmllintCborWriteType 4 (castULL errors.length) ++
          errors.flatMap (cborErrorRecord lint)

/-- The loop `for (i = 0; i < count; i++)` of `xmllintDumpErrorRingBinary`
from the record `i`: whether it ends with `i == count`, and the buffer.
The result of the `xmllintBufAdd` of the comma is not tested. -/
def binDumpLoop (tabs : xmllintOptTables) (env : Env) (lint : xmllintState)
    (filename : Option CStr) : Bool → List xmlError → List Nat → Bool × List Nat
  | _, [], buf => (true, buf)
  | first, e :: rest, buf =>
    let buf := if first then buf else (xmllintBufAdd env buf (lit ",") 1).2
    let r := xmllintJsonErrorToBuffer tabs env buf lint e filename
    if r.1 then binDumpLoop tabs env lint filename false rest r.2 else (false, r.2)

/-- The part of `xmllintDumpErrorRingBinary` (non-`NULL` state) before the
record is written: the content of the buffer, `none` when the function
returns before. -/
def binDumpBuffer (tabs : xmllintOptTables) (env : Env) (lint : xmllintState)
    (ctxt : Option xmlParserCtxt) (filename : Option CStr) : Option (List Nat) :=
  match ctxt with
  | none => none
  | some ctxt =>
    if lint.errorRingDumpBinStream = none then none
    else if lint.errorRingSize ≤ 0 then none
    else
      match ctxt.errorRing with
      | none => none
      | some errors =>
        if env.ringMalloc = false then none
        else if errors.length > 0 ∧ env.ringCopy = false then none
        else if env.bufferCreate = false then none
        else
          let r :=
            bufSeq (xmllintBufAdd env [] (lit "\x7b") 1) fun buf =>
            bufSeq (xmllintBufAddKey env buf (lit "schema_version")) fun buf =>
            bufSeq (xmllintBufAddInt env buf XMLLINT_JSON_SCHEMA_VERSION) fun buf =>
            bufSeq (xmllintBufAdd env buf (lit ",") 1) fun buf =>
            bufSeq (xmllintBufAddKey env buf (lit "file")) fun buf =>
            bufSeq (xmllintBufEscape env buf
              (xmllintRedactValue lint XMLLINT_REDACT_FILE filename)) fun buf =>
            xmllintBufAdd env buf (lit ",\"errors\":[") 11
          if r.1 then
            let l := binDumpLoop tabs env lint filename true errors r.2
            if l.1 then some (xmllintBufAdd env l.2 (lit "]\x7d") 2).2 else some l.2
          else some r.2

/-- Embedding of `xmllintDumpErrorRingBinary` for a non-`NULL` state, the
content of a created buffer being non-`NULL`: the bytes written to
`errorRingDumpBinStream`, the length being converted to `unsigned int`. -/
def xmllintDumpErrorRingBinary (tabs : xmllintOptTables) (env : Env)
    (lint : xmllintState) (ctxt : Option xmlParserCtxt) (filename : Option CStr) :
    List Nat :=
  match binDumpBuffer tabs env lint ctxt filename with
  | none => []
  | some buf => xmllintWriteBinRecord buf (buf.length % 4294967296)

/-- The statements of `xmllintParseOptions` after
`fopen(errorRingDumpBinFile, "ab")` has succeeded on a file with the given
content: the bytes they append.  `seekOk` is whether `fseek` returns 0;
`ftell` then gives the size of the file. -/
def openBinDumpFile (content : List Nat) (seekOk : Bool) : List Nat :=
  if seekOk then
    let pos : Int := content.length
    if pos = 0 then xmllintWriteBinHeader else []
  else []

/-- The arguments and the environment of one call of a ring dump at the
end of an input file. -/
structure DumpCall where
  env : Env
  lint : xmllintState
  ctxt : Option xmlParserCtxt
  filename : Option CStr

/-- The content of the binary dump file after one run of the program: the
file is opened in append mode, then the main loop calls
`xmllintDumpErrorRingBinary` after each input file when the stream is
set. -/
def binRun (tabs : xmllintOptTables) (content : List Nat) (seekOk : Bool)
    (calls : List DumpCall) : List Nat :=
  calls.foldl
    (fun c call =>
      c ++ (if call.lint.errorRingDumpBinStream ≠ none then
              xmllintDumpErrorRingBinary tabs call.env call.lint call.ctxt call.filename
            else []))
    (content ++ openBinDumpFile content seekOk)

/-- The content of the binary dump file after several runs in sequence. -/
def binRuns (tabs : xmllintOptTables) (content : List Nat)
    (runs : List (Bool × List DumpCall)) : List Nat :=
  runs.foldl (fun c r => binRun tabs c r.1 r.2) content

/-- Reader of a sequence of length-prefixed records up to the end of the
bytes. -/
def readBinRecords : Nat → List Nat → Option (List (List Nat))
  | 0, _ => none
  | fuel + 1, bytes =>
    if bytes = [] then some []
    else
      match readBinRecord bytes with
      | none => none
      | some (p, rest) => (readBinRecords fuel rest).map (fun ps => p :: ps)

/-- Reader of a binary dump file: the magic `XERB` 0 0 0 1, then
length-prefixed records up to the end of the file. -/
def readBinFile (bytes : List Nat) : Option (List (List Nat)) :=
  if bytes.take 8 = [88, 69, 82, 66, 0, 0, 0, 1] then
    readBinRecords (bytes.length + 1) (bytes.drop 8)
  else none

/-- Reader of CBOR data items (RFC 8949, definite lengths): the bytes left
after `pending` well-formed items, `none` when the bytes do not begin
with so many well-formed items.  An integer or a simple value is its
head; a string is its head and as many bytes as the head announces; an
array of `n` is its head and `n` items, a map of `n` its head and `2 * n`
items, a tag its head and one item. -/
def cborSkipItems : Nat → Nat → List Nat → Option (List Nat)
  | _, 0, bytes => some bytes
  | 0, _ + 1, _ => none
  | fuel + 1, pending + 1, bytes =>
    match cborDecodeHead bytes with
    | none => none
    | some (m, v, rest) =>
      if m = 2 ∨ m = 3 then
        if rest.length < v then none else cborSkipItems fuel pending (rest.drop v)
      else if m = 4 then cborSkipItems fuel (pending + v) rest
      else if m = 5 then cborSkipItems fuel (pending + 2 * v) rest
      else if m = 6 then cborSkipItems fuel (pending + 1) rest
      else cborSkipItems fuel pending rest

/-- Whether the bytes are exactly one well-formed CBOR data item. -/
def cborWellFormed (bytes : List Nat) : Bool :=
  cborSkipItems (bytes.length + 1) 1 bytes = some []

/-- The state after `xmllintInit` and the options `--error-ring 4
--error-ring-dump-cbor-file r.cbor --error-ring-dump-bin-file r.bin`, the
files being the streams 8 and 9. -/
def ringDumpState : xmllintState :=
  { xmllintInit 2 4259840 4259840 with
    errorRingSize := 4, errorRingDump := 1,
    errorRingDumpCborStream := some 8, errorRingDumpBinStream := some 9 }

/-- The record that `xmllintDumpErrorRingBinary` writes for a buffer. -/
def binRecordOf (p : List Nat) : List Nat :=
  xmllintWriteBinRecord p (p.length % 4294967296)

/-- The buffers of the calls of a run that write a record. -/
def binPayloads (tabs : xmllintOptTables) (calls : List DumpCall) : List (List Nat) :=
  calls.filterMap (fun call =>
    binDumpBuffer tabs call.env call.lint call.ctxt call.filename)

/-- A call of the ring dumps in the state `ringDumpState` for the file
`a.xml`, the ring holding `errors`, every allocation succeeding. -/
def ringDumpCall (errors : List xmlError) : DumpCall :=
  { env := envAt ⟨100, 0⟩, lint := ringDumpState,
    ctxt := some { inputWindow := none, errorRing := some errors },
    filename := some (lit "a.xml") }

/-! ## The redaction list of the command line (xmllint.c 199-204, 4031-4074) -/

/-- The macro `XMLLINT_REDACT_ALL`. -/
def XMLLINT_REDACT_ALL : Nat :=
  XMLLINT_REDACT_FILE ||| XMLLINT_REDACT_MESSAGE ||| XMLLINT_REDACT_STR1 |||
    XMLLINT_REDACT_STR2 ||| XMLLINT_REDACT_STR3 ||| XMLLINT_REDACT_WINDOW

/-- The tokens returned by `strtok(copy, delim)` and the calls
`strtok(NULL, delim)` that follow it, for a single delimiter byte: the
maximal runs of bytes other than the delimiter, none of them empty.  `cur`
is the token being read. -/
def strtokTokens (delim : Nat) : List Nat → List Nat → List CStr
  | [], cur => if cur = [] then [] else [cur]
  | c :: rest, cur =>
    if c = delim then
      if cur = [] then strtokTokens delim rest []
      else cur :: strtokTokens delim rest []
    else strtokTokens delim rest (cur ++ [c])

/-- The loop of `xmllintParseRedact` over the tokens: the value of `flags`
at the end, `none` when the loop is left through `return(-1)`. -/
def redactLoop : List CStr → Nat → Option Nat
  | [], flags => some flags
  | token :: rest, flags =>
    if token = lit "all" then redactLoop rest XMLLINT_REDACT_ALL
    else if token = lit "none" then redactLoop rest 0
    else if token = lit "file" then redactLoop rest (flags ||| XMLLINT_REDACT_FILE)
    else if token = lit "message" then redactLoop rest (flags ||| XMLLINT_REDACT_MESSAGE)
    else if token = lit "str1" then redactLoop rest (flags ||| XMLLINT_REDACT_STR1)
    else if token = lit "str2" then redactLoop rest (flags ||| XMLLINT_REDACT_STR2)
    else if token = lit "str3" then redactLoop rest (flags ||| XMLLINT_REDACT_STR3)
    else if token = lit "window" then redactLoop rest (flags ||| XMLLINT_REDACT_WINDOW)
    else none

/-- Embedding of `xmllintParseRedact` for a non-`NULL` state: the value
returned and the state.  `strdupOk` is whether `xmlMemStrdup` succeeds. -/
def xmllintParseRedact (lint : xmllintState) (value : Option CStr)
    (strdupOk : Bool) : Int × xmllintState :=
  match value with
  | none => (-1, lint)
  | some v =>
    if strdupOk = false then (-1, lint)
    else
      match redactLoop (strtokTokens 44 v []) lint.errorRedactFlags with
      | none => (-1, lint)
      | some flags => (0, { lint with errorRedactFlags := flags })

/-- The tokens that the usage text lists for `--error-redact`. -/
def redactTokenNames : List CStr :=
  [lit "file", lit "message", lit "str1", lit "str2", lit "str3", lit "window",
   lit "all", lit "none"]

/-- The effect of one valid token on the flags as the claim words it: `all`
sets every bit, `none` clears every bit, a field name sets its bit. -/
def redactTokenApply (flags : Nat) (token : CStr) : Nat :=
  if token = lit "all" then 63
  else if token = lit "none" then 0
  else if token = lit "file" then flags ||| 1
  else if token = lit "message" then flags ||| 2
  else if token = lit "str1" then flags ||| 4
  else if token = lit "str2" then flags ||| 8
  else if token = lit "str3" then flags ||| 16
  else if token = lit "window" then flags ||| 32
  else flags

/-- A list of pieces joined by commas. -/
def joinComma : List CStr → CStr
  | [] => []
  | [p] => p
  | p :: q :: rest => p ++ [44] ++ joinComma (q :: rest)

/-! ### Times and the invariant of the stage table -/

/-- A time whose microseconds are normalized. -/
abbrev timeNormal (t : xmlTime) : Prop := 0 ≤ t.usec ∧ t.usec < 1000000

/-- The order of two times, seconds first. -/
abbrev timeLe (a b : xmlTime) : Prop :=
  a.sec < b.sec ∨ (a.sec = b.sec ∧ a.usec ≤ b.usec)

/-- Invariant of the stage table with respect to the start of the
statistics and the latest reading of the clock. -/
def StageInv (start t : xmlTime) (table : List xmllintStageCount) : Prop :=
  ∀ st ∈ table, 0 ≤ st.firstMs ∧ st.firstMs ≤ st.lastMs ∧
    st.lastMs ≤ xmllintTimeDiffMs start t

/-! ## The memory limit (xmllint.c 316-318, 1996-2014, 5008-5013) -/

/-- The globals `xmllintMaxmem`, `xmllintMaxmemReached` and `xmllintOom`
(xmllint.c 316-318). -/
structure MemGlobals where
  xmllintMaxmem : Int
  xmllintMaxmemReached : Int
  xmllintOom : Int
deriving DecidableEq, Repr

/-- The statements of `xmllintMain` that install the allocation hooks
(xmllint.c 5008-5013), `maxmem` being `lint->maxmem` as the branch of
`--maxmem` in `xmllintParseOptions` stored it: the globals, and whether
`xmlMemSetup` is called with the hooks. -/
def maxmemSetup (maxmem : Int) (g : MemGlobals) : MemGlobals × Bool :=
  if maxmem ≠ 0 then
    ({ xmllintMaxmem := 0, xmllintMaxmemReached := 0, xmllintOom := 0 }, true)
  else (g, false)

/-- Embedding of `myMallocFunc`: the globals and whether a block is
returned.  `used` is the value of `xmlMemUsed()`, `mallocOk` whether
`xmlMemMalloc` succeeds; the sum and the comparison are in `size_t`. -/
def myMallocFunc (g : MemGlobals) (used size : Nat) (mallocOk : Bool) :
    MemGlobals × Bool :=
  if (used + size) % 18446744073709551616 >
      (g.xmllintMaxmem % 18446744073709551616).toNat then
    ({ g with xmllintMaxmemReached := 1, xmllintOom := 1 }, false)
  else if mallocOk then (g, true)
  else ({ g with xmllintOom := 1 }, false)

/-! ## Options with a value and the loop over the input files (xmllint.c 4076-4150, 4218-4716, 5157-5166) -/

/-- The operands of the disjunction of `skipArgs`, in the order of the
source, with every optional feature of the library enabled. -/
def skipArgsNames : List CStr :=
  [lit "-path", lit "--path", lit "-maxmem", lit "--maxmem",
   lit "-error-ring", lit "--error-ring",
   lit "-o", lit "-output", lit "--output", lit "-encode", lit "--encode",
   lit "-pretty", lit "--pretty",
   lit "-dtdvalid", lit "--dtdvalid", lit "-dtdvalidfpi", lit "--dtdvalidfpi",
   lit "-relaxng", lit "--relaxng", lit "-schema", lit "--schema",
   lit "-schematron", lit "--schematron", lit "-pattern", lit "--pattern",
   lit "-xpath", lit "--xpath", lit "-xpath0", lit "--xpath0",
   lit "-error-ring", lit "--error-ring",
   lit "-error-ring-dump-file", lit "--error-ring-dump-file",
   lit "-error-ring-dump-cbor-file", lit "--error-ring-dump-cbor-file",
   lit "-error-ring-dump-bin-file", lit "--error-ring-dump-bin-file",
   lit "-error-xml-file", lit "--error-xml-file",
   lit "-error-json-file", lit "--error-json-file",
   lit "-error-json-warn-file", lit "--error-json-warn-file",
   lit "-error-redact", lit "--error-redact",
   lit "-error-json-limit", lit "--error-json-limit",
   lit "-error-json-window", lit "--error-json-window",
   lit "-error-dedup", lit "--error-dedup",
   lit "-max-ampl", lit "--max-ampl"]

/-- Embedding of `skipArgs`: 1 when `arg` is equal to one of the names of
the disjunction, else 0. -/
def skipArgs (arg : CStr) : Int :=
  if arg ∈ skipArgsNames then 1 else 0

/-- The option names whose branch in the loop of `xmllintParseOptions`
(xmllint.c 4218-4716) executes `i++` and reads `argv[i]` as the value of
the option, in the order of the source, with every optional feature
enabled and not on Windows. -/
def optionsWithValue : List CStr :=
  [lit "-maxmem", lit "--maxmem",
   lit "-dtdvalid", lit "--dtdvalid", lit "-dtdvalidfpi", lit "--dtdvalidfpi",
   lit "-error-ring", lit "--error-ring", lit "-error-dedup", lit "--error-dedup",
   lit "-error-ring-dump-file", lit "--error-ring-dump-file",
   lit "-error-ring-dump-cbor-file", lit "--error-ring-dump-cbor-file",
   lit "-error-ring-dump-bin-file", lit "--error-ring-dump-bin-file",
   lit "-error-xml-file", lit "--error-xml-file",
   lit "-error-json-file", lit "--error-json-file",
   lit "-error-json-warn-file", lit "--error-json-warn-file",
   lit "-error-json-window", lit "--error-json-window",
   lit "-error-redact", lit "--error-redact",
   lit "-error-syslog-facility", lit "--error-syslog-facility",
   lit "-error-json-limit", lit "--error-json-limit",
   lit "-o", lit "-output", lit "--output", lit "-encode", lit "--encode",
   lit "-pretty", lit "--pretty", lit "-pattern", lit "--pattern",
   lit "-relaxng", lit "--relaxng", lit "-schema", lit "--schema",
   lit "-schematron", lit "--schematron", lit "-path", lit "--path",
   lit "-xpath", lit "--xpath", lit "-xpath0", lit "--xpath0",
   lit "-max-ampl", lit "--max-ampl"]

/-- The loop over the input documents of `xmllintMain` (xmllint.c
5157-5166) on `argv[1]`, `argv[2]`, ...: the arguments taken as input
files.  `skip` is the number of arguments that `i += skipArgs(filename)`
still jumps over. -/
def inputFileArgs : Nat → List CStr → List CStr
  | _, [] => []
  | skip + 1, _ :: rest => inputFileArgs skip rest
  | 0, filename :: rest =>
    if filename.head? = some 45 ∧ filename ≠ lit "-" then
      inputFileArgs (skipArgs filename).toNat rest
    else filename :: inputFileArgs 0 rest

/-! ## The bytes copied for the window (xmllint.c 620-641, 976-997) -/

/-- The statements of `xmllintJsonAddWindow` and `xmllintBufAddWindow`
from the clamping of `offset` to the `memcpy`: the `len` bytes copied,
`start` pointing to `size` bytes and `window` being `errorJsonWindow`. -/
def windowCopy (start : List Nat) (size offset window : Int) : List Nat :=
  let offset := if offset < 0 then 0 else offset
  let offset := if offset > size then size else offset
  let len := window
  let len := if len > size - offset then size - offset else len
  (start.drop offset.toNat).take len.toNat

/-- The state after `xmllintInit` and the options `--error-json
--error-json-window 16 --error-redact window`, with no parser context. -/
def windowRedactedState : xmllintState :=
  { xmllintInit 2 4259840 4259840 with
    errorJson := 1, errorJsonWindow := 16, errorRedactFlags := XMLLINT_REDACT_WINDOW }

/-- The state after `xmllintInit` and the options `--error-json
--error-json-window 4`, the input of the parser being `<a><b/></a>` and
the offset of the error 3. -/
def windowState : xmllintState :=
  { xmllintInit 2 4259840 4259840 with
    errorJson := 1, errorJsonWindow := 4,
    ctxt := some { inputWindow := some ⟨some (lit "<a><b/></a>"), 11, 3⟩ } }

/-- The state after `xmllintInit` and the options `--html --error-json
--error-json-window 4 --error-json-checksum`, the input of the parser
being `<a><b/></a>`, the offset of the error 3 and the checksum of the file
255. -/
def fullJsonState : xmllintState :=
  { xmllintInit 2 4259840 4259840 with
    errorJson := 1, errorJsonWindow := 4, appOptions := XML_LINT_HTML_ENABLED,
    checksumValid := 1, errorChecksum := 255,
    ctxt := some { inputWindow := some ⟨some (lit "<a><b/></a>"), 11, 3⟩ } }

/-! ## The error ring and its text dump (xmllint.c 1483-1533, 5238-5239) -/

/-- Modelled from the spec: the error ring of a parser context.  It lives
in the library (`xmlCtxtSetErrorRingSize`, the push of each reported
error, `xmlCtxtGetErrorRing`, `xmlCtxtResetErrorRing`); `xmllint.c` has
only the calls.  "Ring storage is a fixed-capacity circular log: oldest
entries are overwritten once capacity N is reached (N configured per run,
0 = disabled)."  The entries are kept oldest first. -/
structure ErrorRing where
  capacity : Nat
  entries : List xmlError
deriving DecidableEq, Repr

/-- Modelled from the spec: `configure(capacity)`, called by `xmllintMain`
as `xmlCtxtSetErrorRingSize(ctxt, lint->errorRingSize)` when the size is
positive; "capacity 0 means the feature stays UNINITIALIZED and all other
ring operations are no-ops". -/
def ringConfigure (capacity : Nat) : ErrorRing := ⟨capacity, []⟩

/-- Modelled from the spec: `push(record)`: "while ACTIVE, appends to the
circular log; when count reaches capacity, further pushes must overwrite
in FIFO order (oldest discarded first)". -/
def ringPush (r : ErrorRing) (e : xmlError) : ErrorRing :=
  if r.capacity = 0 then r
  else if r.entries.length < r.capacity then { r with entries := r.entries ++ [e] }
  else { r with entries := r.entries.drop 1 ++ [e] }

/-- Modelled from the spec: `snapshot() -> ordered sequence of
ErrorRecord`: "returns entries oldest-first; does not mutate the ring";
the accessor `xmlCtxtGetErrorRing`. -/
def ringSnapshot (r : ErrorRing) : List xmlError := r.entries

/-- The loop of `xmllintDumpErrorRing` from the record `i`; `recEnv i` is
the environment of the call of `xmllintWriteJsonError` for the record
`i`. -/
def dumpRingLoop (tabs : xmllintOptTables) (lint : xmllintState)
    (filename : Option CStr) (recEnv : Nat → Env) : Nat → List xmlError → List Nat
  | _, [] => []
  | i, e :: rest =>
    (if i > 0 then [44] else []) ++
    xmllintWriteJsonError tabs lint e filename (recEnv i) ++
    dumpRingLoop tabs lint filename recEnv (i + 1) rest

/-- Embedding of `xmllintDumpErrorRing` for a non-`NULL` state: the bytes
written to `errorRingDumpStream`, or to `errStream` when it is `NULL`. -/
def xmllintDumpErrorRing (tabs : xmllintOptTables) (env : Env) (recEnv : Nat → Env)
    (lint : xmllintState) (ctxt : Option xmlParserCtxt) (filename : Option CStr) :
    List Nat :=
  match ctxt with
  | none => []
  | some ctxt =>
    if lint.errorRingSize ≤ 0 then []
    else
      match ctxt.errorRing with
      | none => []
      | some errors =>
        if env.ringMalloc = false then []
        else if errors.length > 0 ∧ env.ringCopy = false then []
        else
          lit "\x7b\"schema_version\":" ++
          xmllintJsonAddInt XMLLINT_JSON_SCHEMA_VERSION ++
          lit ",\"file\":" ++
          xmllintJsonEscape (xmllintRedactValue lint XMLLINT_REDACT_FILE filename) ++
          lit ",\"errors\":[" ++
          dumpRingLoop tabs lint filename recEnv 0 errors ++
          lit "]\x7d\n"

/-- The parser context whose ring accessor answers the snapshot of a
ring. -/
def ctxtOfRing (r : ErrorRing) : xmlParserCtxt :=
  { inputWindow := none, errorRing := some (ringSnapshot r) }

/-! ### The common part of the two serializations of an error -/

/-- The text of an error object before its `fingerprint` member: from the
opening brace to the value of `checksum`. -/
def jsonErrorBeforeFingerprint (tabs : xmllintOptTables) (lint : xmllintState)
    (error : xmlError) (filename : Option CStr) (env : Env) : List Nat :=
  let pretty := lint.errorJsonPretty
  let level : Nat := if pretty ≠ 0 then 1 else 0
  let file := xmllintRedactValue lint XMLLINT_REDACT_FILE filename
  let message := xmllintRedactValue lint XMLLINT_REDACT_MESSAGE error.message
  let str1 := xmllintRedactValue lint XMLLINT_REDACT_STR1 error.str1
  let str2 := xmllintRedactValue lint XMLLINT_REDACT_STR2 error.str2
  let str3 := xmllintRedactValue lint XMLLINT_REDACT_STR3 error.str3
  lit "\x7b" ++
  xmllintJsonKey pretty level (lit "schema_version") ++
  xmllintJsonAddInt XMLLINT_JSON_SCHEMA_VERSION ++
  [44] ++ xmllintJsonKey pretty level (lit "file") ++
  xmllintJsonEscape file ++
  [44] ++ xmllintJsonKey pretty level (lit "domain") ++
  xmllintJsonAddInt error.domain ++
  [44] ++ xmllintJsonKey pretty level (lit "code") ++
  xmllintJsonAddInt error.code ++
  [44] ++ xmllintJsonKey pretty level (lit "level") ++
  xmllintJsonAddInt error.level ++
  [44] ++ xmllintJsonKey pretty level (lit "line") ++
  xmllintJsonAddInt error.line ++
  [44] ++ xmllintJsonKey pretty level (lit "column") ++
  xmllintJsonAddInt error.int2 ++
  [44] ++ xmllintJsonKey pretty level (lit "message") ++
  xmllintJsonEscape message ++
  [44] ++ xmllintJsonKey pretty level (lit "str1") ++
  xmllintJsonEscape str1 ++
  [44] ++ xmllintJsonKey pretty level (lit "str2") ++
  xmllintJsonEscape str2 ++
  [44] ++ xmllintJsonKey pretty level (lit "str3") ++
  xmllintJsonEscape str3 ++
  [44] ++ xmllintJsonKey pretty level (lit "resource_type") ++
  xmllintJsonEscape str2 ++
  [44] ++ xmllintJsonKey pretty level (lit "stage") ++
  xmllintJsonEscape str3 ++
  xmllintJsonAddOptions pretty level (lit "parse_options")
    lint.parseOptions tabs.xmlOpts ++
  (if lint.appOptions &&& XML_LINT_HTML_ENABLED ≠ 0 then
    xmllintJsonAddOptions pretty level (lit "html_options")
      lint.htmlOptions tabs.htmlOpts
   else []) ++
  xmllintJsonAddWindow pretty level (lit "window") lint env ++
  xmllintJsonAddChecksum pretty level (lit "checksum")
    lint.checksumValid lint.errorChecksum

/-! ## The repeat loop over one input file (xmllint.c 5266-5309) -/

/-- The statements at the head of one iteration of the loop
`for (j = 0; j < lint->repeat; j++)` of `xmllintMain` (xmllint.c
5282-5292): the array fields and the emission counter are cleared, the
statistics are reset at the clock reading `now`, and the checksum of the
file is taken.  The calls made before them when `j > 0` reset the parser
context, its error ring and its deduplication table, which are not part
of the state. -/
def xmllintRepeatStart (lint : xmllintState) (filename : CStr)
    (fopen : CStr → Option (List Nat)) (now : xmlTime) : xmllintState :=
  let lint := { lint with
    errorJsonArrayOpen := 0
    errorJsonArrayCount := 0
    errorJsonArrayFile := some filename
    errorJsonCount := 0 }
  let lint := xmllintErrorStatsReset lint now
  if lint.errorJsonChecksum ≠ 0 then
    let r := xmllintChecksumFile fopen (some filename)
    { lint with errorChecksum := r.1, checksumValid := r.2 }
  else { lint with errorChecksum := 0, checksumValid := 0 }

/-- One iteration of the loop `for (j = 0; j < lint->repeat; j++)` of
`xmllintMain` (xmllint.c 5266-5301): the head of the iteration, the start
of the array, and the parse, which reports `events` to the handler when
it is installed (`errorJson` or `errorXml` set, xmllint.c 5236-5237). -/
def xmllintRepeatPass (tabs : xmllintOptTables) (lint : xmllintState)
    (filename : CStr) (fopen : CStr → Option (List Nat)) (now : xmlTime)
    (events : List (xmlError × Env)) : xmllintState × Trace :=
  let lint := xmllintRepeatStart lint filename fopen now
  let r0 : xmllintState × Trace :=
    if lint.errorJsonArray ≠ 0 then xmllintStartErrorArray lint (some filename)
    else (lint, [])
  let r1 : xmllintState × Trace :=
    if lint.errorJson ≠ 0 ∨ lint.errorXml ≠ 0 then
      xmllintParseEvents tabs events r0.1
    else (r0.1, [])
  (r1.1, r0.2 ++ r1.2)

/-- The loop `for (j = 0; j < lint->repeat; j++)` of `xmllintMain`:
`passes` holds, for each iteration in order, the clock reading at the
reset and the events that the parser reports, so its length is
`lint->repeat` (1 by default, 100 after `--repeat`). -/
def xmllintRepeatLoop (tabs : xmllintOptTables) (filename : CStr)
    (fopen : CStr → Option (List Nat)) :
    List (xmlTime × List (xmlError × Env)) → xmllintState → xmllintState × Trace
  | [], lint => (lint, [])
  | p :: rest, lint =>
    let r := xmllintRepeatPass tabs lint filename fopen p.1 p.2
    let r2 := xmllintRepeatLoop tabs filename fopen rest r.1
    (r2.1, r.2 ++ r2.2)

/-- The statements of `xmllintMain` for one input file (xmllint.c
5266-5309): the repeat loop, then the end of the array or the summary
line. -/
def xmllintMainRepeat (tabs : xmllintOptTables) (lint : xmllintState)
    (filename : CStr) (fopen : CStr → Option (List Nat))
    (passes : List (xmlTime × List (xmlError × Env))) : xmllintState × Trace :=
  let r1 := xmllintRepeatLoop tabs filename fopen passes lint
  let lint := r1.1
  let r2 : xmllintState × Trace :=
    if lint.errorJsonArray ≠ 0 ∧ lint.errorJsonArrayOpen ≠ 0 then
      xmllintFinishErrorArray lint
    else if lint.errorJsonSummary ≠ 0 ∧ lint.errorJson ≠ 0 then
      (lint, xmllintWriteSummaryLine lint (some filename))
    else (lint, [])
  (r2.1, r1.2 ++ r2.2)

theorem fnv1a64_eq_foldl (bytes : List Nat) :
    fnv1a64 bytes = bytes.foldl fnvStep 1469598103934665603 := by
  unfold fnv1a64
  congr 1

theorem foldl_int32BytesLE (h : Nat) (v : Int) :
    (int32BytesLE v).foldl fnvStep h = fingerprintInt h v := by
  have e0 : (v % 256).toNat % 256 = (v % 4294967296).toNat % 256 := by omega
  have e1 : ((v >>> (8 : Nat)) % 256).toNat % 256 = (v % 4294967296).toNat / 256 % 256 := by
    rw [Int.shiftRight_eq_div_pow]; omega
  have e2 : ((v >>> (16 : Nat)) % 256).toNat % 256 = (v % 4294967296).toNat / 65536 % 256 := by
    rw [Int.shiftRight_eq_div_pow]; omega
  have e3 : ((v >>> (24 : Nat)) % 256).toNat % 256 = (v % 4294967296).toNat / 16777216 % 256 := by
    rw [Int.shiftRight_eq_div_pow]; omega
  simp only [int32BytesLE, fingerprintInt, List.foldl_cons, List.foldl_nil, e0, e1, e2, e3]

/-- C1: for every error record, `xmllintErrorFingerprint` is the 64-bit
FNV-1a hash (offset basis 1469598103934665603, prime 1099511628211, modulo
2^64, XOR then multiply per byte) of the four little-endian bytes of domain,
code and level followed by the bytes of message, str1, str2 and str3, an
absent string contributing no bytes. -/
theorem C1_fingerprint_is_fnv1a (e : xmlError) :
    xmllintErrorFingerprint (some e) = fnv1a64 (fingerprintInput e) := by
  simp only [xmllintErrorFingerprint, fingerprintInput, fnv1a64_eq_foldl,
    List.foldl_append, foldl_int32BytesLE, fingerprintStr]

/-- C2: two error records that agree on domain, code, level, message, str1,
str2 and str3 have the same fingerprint, whatever their line, column (int2)
and file. -/
theorem C2_fingerprint_ignores_location (a b : xmlError)
    (hd : a.domain = b.domain) (hc : a.code = b.code) (hl : a.level = b.level)
    (hm : a.message = b.message) (h1 : a.str1 = b.str1) (h2 : a.str2 = b.str2)
    (h3 : a.str3 = b.str3) :
    xmllintErrorFingerprint (some a) = xmllintErrorFingerprint (some b) := by
  simp only [xmllintErrorFingerprint, hd, hc, hl, hm, h1, h2, h3]

/-- Witness for C2: two records differing only in file, line and column. -/
theorem C2_fingerprint_ignores_location_witness :
    xmllintErrorFingerprint
        (some ⟨1, 201, some (lit "mismatched tag"), 2, some (lit "a.xml"), 5,
          none, none, some (lit "parsing"), 0, 3⟩) =
      xmllintErrorFingerprint
        (some ⟨1, 201, some (lit "mismatched tag"), 2, none, 77,
          none, none, some (lit "parsing"), 0, 12⟩) :=
  C2_fingerprint_ignores_location _ _ rfl rfl rfl rfl rfl rfl rfl

theorem statsAddDomain_codeCounts (lint : xmllintState) (error : xmlError) :
    (statsAddDomain lint error).errorCodeCounts = lint.errorCodeCounts := by
  unfold statsAddDomain; split <;> rfl

theorem statsAddLevel_codeCounts (lint : xmllintState) (error : xmlError) :
    (statsAddLevel lint error).errorCodeCounts = lint.errorCodeCounts := by
  unfold statsAddLevel; split <;> rfl

theorem growCodeCounts_codeCounts (lint : xmllintState) :
    (growCodeCounts lint).errorCodeCounts = lint.errorCodeCounts := by
  unfold growCodeCounts; split <;> rfl

theorem growStageCounts_codeCounts (lint : xmllintState) :
    (growStageCounts lint).errorCodeCounts = lint.errorCodeCounts := by
  unfold growStageCounts; split <;> rfl

theorem stageAdd_codeCounts (lint : xmllintState) (error : xmlError) (env : Env) :
    (xmllintErrorStageAdd lint error env).errorCodeCounts = lint.errorCodeCounts := by
  unfold xmllintErrorStageAdd
  simp only
  split
  · rfl
  · split
    · rfl
    · split
      · exact growStageCounts_codeCounts lint
      · exact growStageCounts_codeCounts lint

theorem statsAdd_codeCounts (lint : xmllintState) (error : xmlError) (env : Env)
    (h : env.codeRealloc = true) :
    (xmllintErrorStatsAdd lint error env).errorCodeCounts =
      addCode error.code lint.errorCodeCounts := by
  unfold xmllintErrorStatsAdd addCode
  simp only [h, Bool.true_eq_false, and_false, if_false, stageAdd_codeCounts,
    growCodeCounts_codeCounts, statsAddLevel_codeCounts, statsAddDomain_codeCounts]
  split
  · rfl
  · rw [stageAdd_codeCounts]

theorem codeLoop_eq_none (code : Int) (t : List xmllintCodeCount)
    (h : code ∉ t.map (fun e => e.code)) : codeLoop code t = none := by
  induction t with
  | nil => rfl
  | cons c rest ih =>
    simp only [List.map_cons, List.mem_cons, not_or] at h
    simp only [codeLoop]
    rw [if_neg (fun hc => h.1 hc.symm), ih h.2]
    rfl

theorem bumpCode_of_not_mem (code : Int) (t : List xmllintCodeCount)
    (h : code ∉ t.map (fun e => e.code)) : t.map (bumpCode code) = t := by
  induction t with
  | nil => rfl
  | cons c rest ih =>
    simp only [List.map_cons, List.mem_cons, not_or] at h
    have hne : ¬ c.code = code := fun hc => h.1 hc.symm
    simp only [List.map_cons, ih h.2, bumpCode, if_neg hne]

theorem codeLoop_eq_some (code : Int) (t : List xmllintCodeCount)
    (hn : (t.map (fun e => e.code)).Nodup) (h : code ∈ t.map (fun e => e.code)) :
    codeLoop code t = some (t.map (bumpCode code)) := by
  induction t with
  | nil => simp at h
  | cons c rest ih =>
    simp only [List.map_cons, List.nodup_cons] at hn
    simp only [codeLoop]
    by_cases hc : c.code = code
    · rw [if_pos hc, List.map_cons, bumpCode_of_not_mem code rest (hc ▸ hn.1)]
      simp only [bumpCode, if_pos hc]
    · rw [if_neg hc]
      simp only [List.map_cons, List.mem_cons] at h
      have hmem : code ∈ rest.map (fun e => e.code) := by
        rcases h with h | h
        · exact absurd h.symm hc
        · exact h
      rw [ih hn.2 hmem]
      simp only [Option.map_some', List.map_cons, bumpCode, if_neg hc]

theorem addCode_eq (code : Int) (t : List xmllintCodeCount)
    (hn : (t.map (fun e => e.code)).Nodup) :
    addCode code t =
      if code ∈ t.map (fun e => e.code) then t.map (bumpCode code)
      else t ++ [⟨code, 1⟩] := by
  unfold addCode
  split_ifs with h
  · rw [codeLoop_eq_some code t hn h]
  · rw [codeLoop_eq_none code t h]

theorem bumpCode_code (code : Int) (e : xmllintCodeCount) :
    (bumpCode code e).code = e.code := by
  unfold bumpCode; split <;> rfl

theorem codeInv_step (t : List xmllintCodeCount) (evs : List (xmlError × Env))
    (ev : xmlError × Env) (h : CodeInv t evs) :
    CodeInv (addCode ev.1.code t) (evs ++ [ev]) := by
  obtain ⟨hn, hmem, hcnt⟩ := h
  rw [addCode_eq _ _ hn]
  have hmap : (t.map (bumpCode ev.1.code)).map (fun e => e.code) = t.map (fun e => e.code) := by
    rw [List.map_map]; apply List.map_congr_left; intro e _; exact bumpCode_code _ _
  split_ifs with hc
  · refine ⟨by rw [hmap]; exact hn, ?_, ?_⟩
    · intro c
      rw [hmap, hmem c]
      constructor
      · rintro ⟨x, hx, rfl⟩; exact ⟨x, List.mem_append_left _ hx, rfl⟩
      · rintro ⟨x, hx, rfl⟩
        rcases List.mem_append.1 hx with hx | hx
        · exact ⟨x, hx, rfl⟩
        · rw [List.mem_singleton.1 hx]; exact (hmem _).1 hc
    · intro e he
      obtain ⟨e0, he0, rfl⟩ := List.mem_map.1 he
      rw [bumpCode_code, List.countP_append]
      simp only [List.countP_cons, List.countP_nil, decide_eq_true_eq]
      unfold bumpCode
      split_ifs with h1 h2 h2
      · simp only [hcnt e0 he0]; omega
      · exact absurd h1.symm h2
      · exact absurd h2.symm h1
      · simp only [hcnt e0 he0]; omega
  · have hzero : evs.countP (fun x => x.1.code = ev.1.code) = 0 := by
      rw [List.countP_eq_zero]
      intro x hx hxc
      exact hc ((hmem _).2 ⟨x, hx, by simpa using hxc⟩)
    refine ⟨?_, ?_, ?_⟩
    · rw [List.map_append, List.map_singleton]
      exact List.Nodup.append hn (List.nodup_singleton _)
        (by simpa [List.Disjoint] using hc)
    · intro c
      rw [List.map_append, List.mem_append, hmem c]
      constructor
      · rintro (⟨x, hx, rfl⟩ | h1)
        · exact ⟨x, List.mem_append_left _ hx, rfl⟩
        · exact ⟨ev, by simp, by simpa using Eq.symm (List.mem_singleton.1 h1)⟩
      · rintro ⟨x, hx, rfl⟩
        rcases List.mem_append.1 hx with hx | hx
        · exact Or.inl ⟨x, hx, rfl⟩
        · right; rw [List.mem_singleton.1 hx]; simp
    · intro e he
      rcases List.mem_append.1 he with he | he
      · have hne : ev.1.code ≠ e.code := fun h1 => hc (h1 ▸ List.mem_map_of_mem _ he)
        rw [List.countP_append]
        simp only [List.countP_cons, List.countP_nil, decide_eq_true_eq, if_neg hne]
        simpa using hcnt e he
      · rw [List.mem_singleton.1 he, List.countP_append, hzero]
        simp

theorem statsRun_append (lint : xmllintState) (a b : List (xmlError × Env)) :
    statsRun lint (a ++ b) = statsRun (statsRun lint a) b := by
  simp only [statsRun, List.foldl_append]

theorem codeInv_statsRun (lint : xmllintState) (events : List (xmlError × Env))
    (h0 : lint.errorCodeCounts = [])
    (halloc : ∀ ev ∈ events, ev.2.codeRealloc = true) :
    CodeInv (statsRun lint events).errorCodeCounts events := by
  induction events using List.reverseRecOn with
  | nil =>
    simp only [statsRun, List.foldl_nil, h0]
    exact ⟨List.nodup_nil, by simp, by simp⟩
  | append_singleton evs ev ih =>
    have h1 := ih (fun x hx => halloc x (List.mem_append_left _ hx))
    have h2 := halloc ev (by simp)
    rw [statsRun_append]
    simp only [statsRun, List.foldl_cons, List.foldl_nil]
    rw [statsAdd_codeCounts _ _ _ h2]
    exact codeInv_step _ _ _ h1

/-- C3: after `xmllintErrorStatsReset`, for every sequence of records passed
to `xmllintErrorStatsAdd` without allocation failure of the code table (and
short enough for the `int` and `unsigned` fields of the source), the code
table has exactly one entry per distinct code seen and the count of each
entry is the number of records carrying that code. -/
theorem C3_code_table_counts (lint : xmllintState) (now : xmlTime)
    (events : List (xmlError × Env))
    (halloc : ∀ ev ∈ events, ev.2.codeRealloc = true)
    (hlen : events.length < 2 ^ 30) :
    ((statsRun (xmllintErrorStatsReset lint now) events).errorCodeCounts.map
        (fun e => e.code)).Nodup ∧
    (∀ c, c ∈ (statsRun (xmllintErrorStatsReset lint now) events).errorCodeCounts.map
        (fun e => e.code) ↔ ∃ ev ∈ events, ev.1.code = c) ∧
    (∀ e ∈ (statsRun (xmllintErrorStatsReset lint now) events).errorCodeCounts,
        e.count = events.countP (fun ev => ev.1.code = e.code)) := by
  obtain ⟨hn, hmem, hcnt⟩ :=
    codeInv_statsRun (xmllintErrorStatsReset lint now) events rfl halloc
  refine ⟨hn, hmem, fun e he => ?_⟩
  rw [hcnt e he]
  apply Nat.mod_eq_of_lt
  have := List.countP_le_length (fun ev : xmlError × Env => decide (ev.1.code = e.code))
    (l := events)
  omega

/-- Witness for C3: three records of code 5 and two of code 7 give exactly
the table 5:3, 7:2. -/
theorem C3_code_table_counts_witness :
    (statsRun (xmllintErrorStatsReset (xmllintInit 2 0 0) ⟨100, 0⟩)
      [(mkError 1 5 2 "a" none, envAt ⟨100, 1000⟩),
       (mkError 1 7 2 "b" none, envAt ⟨100, 2000⟩),
       (mkError 1 5 2 "a" none, envAt ⟨100, 3000⟩),
       (mkError 1 7 2 "b" none, envAt ⟨100, 4000⟩),
       (mkError 1 5 2 "a" none, envAt ⟨100, 5000⟩)]).errorCodeCounts =
      [⟨5, 3⟩, ⟨7, 2⟩] ∧
    ∀ e ∈ (statsRun (xmllintErrorStatsReset (xmllintInit 2 0 0) ⟨100, 0⟩)
      [(mkError 1 5 2 "a" none, envAt ⟨100, 1000⟩),
       (mkError 1 7 2 "b" none, envAt ⟨100, 2000⟩),
       (mkError 1 5 2 "a" none, envAt ⟨100, 3000⟩),
       (mkError 1 7 2 "b" none, envAt ⟨100, 4000⟩),
       (mkError 1 5 2 "a" none, envAt ⟨100, 5000⟩)]).errorCodeCounts,
      e.count = List.countP (fun ev => decide (ev.1.code = e.code))
        [(mkError 1 5 2 "a" none, envAt ⟨100, 1000⟩),
         (mkError 1 7 2 "b" none, envAt ⟨100, 2000⟩),
         (mkError 1 5 2 "a" none, envAt ⟨100, 3000⟩),
         (mkError 1 7 2 "b" none, envAt ⟨100, 4000⟩),
         (mkError 1 5 2 "a" none, envAt ⟨100, 5000⟩)] :=
  ⟨by decide,
   (C3_code_table_counts (xmllintInit 2 0 0) ⟨100, 0⟩ _
      (by decide) (by decide)).2.2⟩

/-- C4 (evaluation at the failing input): two records with the same code
and the stage `parsing` are recorded after a reset; the stage table counts
one of them, because the handler returns as soon as it has found the code
in the code table. -/
theorem C4_stage_count_skips_known_code :
    (statsRun (xmllintErrorStatsReset (xmllintInit 2 0 0) ⟨100, 0⟩)
      [(mkError 1 201 2 "mismatched tag" (some "parsing"), envAt ⟨100, 1000⟩),
       (mkError 1 201 2 "mismatched tag" (some "parsing"), envAt ⟨100, 2000⟩)]
      ).errorStageCounts = [⟨lit "parsing", 1, 1, 1⟩] ∧
    List.countP (fun ev => decide (errorStage ev.1 = lit "parsing"))
      [(mkError 1 201 2 "mismatched tag" (some "parsing"), envAt ⟨100, 1000⟩),
       (mkError 1 201 2 "mismatched tag" (some "parsing"), envAt ⟨100, 2000⟩)] = 2 := by
  constructor <;> decide

theorem fmtHex_byte : ∀ c < 32,
    fmtHex 4 c = [48, 48, hexDigitChar (c / 16), hexDigitChar (c % 16)] := by
  decide

theorem jsonEscapeByte_eq_spec (c : Nat) :
    xmllintJsonEscapeByte c = jsonEscapeByteSpec c := by
  unfold xmllintJsonEscapeByte jsonEscapeByteSpec
  split_ifs with h1 h2 h3 h4 h5 h6 h7 h8
  · decide
  · decide
  · decide
  · decide
  · decide
  · decide
  · decide
  · rw [fmtHex_byte c h8]; rfl
  · rfl

/-- C5: for every string, `xmllintJsonEscape` writes a double-quoted literal
in which double quote, backslash, backspace, form feed, newline, carriage
return and tab are written as the two-character escapes, every other byte
below 0x20 as `\u00XX` with its two hexadecimal digits, and every other
byte unchanged; an absent string is written as the token `null`. -/
theorem C5_json_escape_spec (str : Option CStr) :
    xmllintJsonEscape str = jsonEscapeSpec str := by
  cases str with
  | none => rfl
  | some s =>
    simp only [xmllintJsonEscape, jsonEscapeSpec]
    have : s.flatMap xmllintJsonEscapeByte = s.flatMap jsonEscapeByteSpec := by
      congr 1; funext c; exact jsonEscapeByte_eq_spec c
    rw [this]; rfl

/-- The decoder only appends to its output. -/
theorem decStep_out (m : DecMode) (o x : List Nat) (c : Nat) :
    decStep ⟨m, o ++ x⟩ c = ⟨(decStep ⟨m, x⟩ c).mode, o ++ (decStep ⟨m, x⟩ c).out⟩ := by
  cases m <;> simp only [decStep] <;> repeat' split
  all_goals simp only [List.append_assoc]

theorem foldl_decStep_out (bs : List Nat) (m : DecMode) (o x : List Nat) :
    bs.foldl decStep ⟨m, o ++ x⟩ =
      ⟨(bs.foldl decStep ⟨m, x⟩).mode, o ++ (bs.foldl decStep ⟨m, x⟩).out⟩ := by
  induction bs generalizing m x with
  | nil => rfl
  | cons c rest ih =>
    simp only [List.foldl_cons]
    rw [decStep_out, ih]

theorem decode_escapeByte_small : ∀ c < 32,
    (xmllintJsonEscapeByte c).foldl decStep ⟨.normal, []⟩ = ⟨.normal, [c]⟩ := by
  decide

theorem decode_escapeByte_nil (c : Nat) :
    (xmllintJsonEscapeByte c).foldl decStep ⟨.normal, []⟩ = ⟨.normal, [c]⟩ := by
  by_cases h : c < 32
  · exact decode_escapeByte_small c h
  · by_cases h1 : c = 34
    · subst h1; decide
    · by_cases h2 : c = 92
      · subst h2; decide
      · have e : xmllintJsonEscapeByte c = [c] := by
          unfold xmllintJsonEscapeByte
          simp only [h1, h2, h, if_false]
          split_ifs <;> first | rfl | omega
        rw [e]
        simp only [List.foldl_cons, List.foldl_nil, decStep, h1, h2, h, if_false, List.nil_append]

theorem decode_escapeByte (o : List Nat) (c : Nat) :
    (xmllintJsonEscapeByte c).foldl decStep ⟨.normal, o⟩ = ⟨.normal, o ++ [c]⟩ := by
  have := foldl_decStep_out (xmllintJsonEscapeByte c) .normal o []
  rw [List.append_nil] at this
  rw [this, decode_escapeByte_nil]

theorem decode_escapeBody (s : List Nat) (o : List Nat) :
    (s.flatMap xmllintJsonEscapeByte).foldl decStep ⟨.normal, o⟩ = ⟨.normal, o ++ s⟩ := by
  induction s generalizing o with
  | nil => simp
  | cons c rest ih =>
    simp only [List.flatMap_cons, List.foldl_append]
    rw [decode_escapeByte, ih, List.append_assoc]
    rfl

theorem escapeByte_ge (c : Nat) : ∀ b ∈ xmllintJsonEscapeByte c, 32 ≤ b := by
  by_cases h : c < 32
  · revert c; decide
  · unfold xmllintJsonEscapeByte
    split_ifs
    all_goals simp
    all_goals omega

theorem bufAdd_ok (env : Env) (h : BufferAddOk env) (buf : List Nat) (str : CStr)
    (len : Int) :
    xmllintBufAdd env buf str len =
      (true, buf ++ (if len < 0 then str else (str ++ [0]).take len.toNat)) := by
  unfold xmllintBufAdd
  simp only [h _ _]

theorem bufEscapeByte_ok (env : Env) (h : BufferAddOk env) (buf : List Nat) (c : Nat) :
    xmllintBufEscapeByte env buf c = (true, buf ++ xmllintJsonEscapeByte c) := by
  unfold xmllintBufEscapeByte xmllintJsonEscapeByte
  split_ifs with h1 h2 h3 h4 h5 h6 h7 h8
  · rw [bufAdd_ok env h]; rfl
  · rw [bufAdd_ok env h]; rfl
  · rw [bufAdd_ok env h]; rfl
  · rw [bufAdd_ok env h]; rfl
  · rw [bufAdd_ok env h]; rfl
  · rw [bufAdd_ok env h]; rfl
  · rw [bufAdd_ok env h]; rfl
  · rw [bufAdd_ok env h, fmtHex_byte c h8]; rfl
  · simp only [h _ _]

theorem bufEscapeLoop_ok (env : Env) (h : BufferAddOk env) (s : List Nat)
    (buf : List Nat) :
    xmllintBufEscapeLoop env s buf = (true, buf ++ s.flatMap xmllintJsonEscapeByte) := by
  induction s generalizing buf with
  | nil => simp [xmllintBufEscapeLoop]
  | cons c rest ih =>
    simp only [xmllintBufEscapeLoop, bufEscapeByte_ok env h, bufSeq, if_true, ih,
      List.flatMap_cons, List.append_assoc]

theorem bufEscape_ok (env : Env) (h : BufferAddOk env) (buf : List Nat)
    (str : Option CStr) :
    xmllintBufEscape env buf str = (true, buf ++ xmllintJsonEscape str) := by
  cases str with
  | none => simp only [xmllintBufEscape, bufAdd_ok env h]; rfl
  | some s =>
    simp only [xmllintBufEscape, bufAdd_ok env h, bufSeq, if_true,
      bufEscapeLoop_ok env h, xmllintJsonEscape, List.append_assoc]
    rfl

/-- C6: for every byte string `s`, what the JSON escapers write for `s`
(`xmllintJsonEscape` on a stream, `xmllintBufEscape` into a buffer when
`xmlBufferAdd` does not fail) is a well-formed JSON string literal: it has
no byte below 0x20 and the decoder of JSON string literals, which rejects a
raw control byte and a quote or backslash that is not part of an escape,
accepts it and returns exactly `s`. -/
theorem C6_json_escape_roundtrip (s : CStr) :
    ((∀ b ∈ xmllintJsonEscape (some s), 32 ≤ b) ∧
      jsonStringDecode (xmllintJsonEscape (some s)) = some s) ∧
    (∀ env : Env, BufferAddOk env →
      ∃ out, xmllintBufEscape env [] (some s) = (true, out) ∧
        (∀ b ∈ out, 32 ≤ b) ∧ jsonStringDecode out = some s) := by
  have hstream : (∀ b ∈ xmllintJsonEscape (some s), 32 ≤ b) ∧
      jsonStringDecode (xmllintJsonEscape (some s)) = some s := by
    constructor
    · intro b hb
      simp only [xmllintJsonEscape, List.mem_append, List.mem_singleton,
        List.mem_flatMap] at hb
      rcases hb with (hb | ⟨c, _, hb⟩) | hb
      · omega
      · exact escapeByte_ge c b hb
      · omega
    · unfold jsonStringDecode xmllintJsonEscape
      simp only [List.foldl_append, List.foldl_cons, List.foldl_nil]
      have h0 : decStep ⟨.start, []⟩ 34 = ⟨.normal, []⟩ := rfl
      rw [h0, decode_escapeBody]
      simp [decStep]
  refine ⟨hstream, fun env henv => ⟨xmllintJsonEscape (some s), ?_, hstream.1, hstream.2⟩⟩
  rw [bufEscape_ok env henv, List.nil_append]

/-- Witness for C6: a string with a quote, a backslash, a control byte and
a byte above 0x7f. -/
theorem C6_json_escape_roundtrip_witness :
    BufferAddOk (envAt ⟨0, 0⟩) ∧
    jsonStringDecode (xmllintJsonEscape (some [97, 34, 92, 1, 10, 200])) =
      some [97, 34, 92, 1, 10, 200] ∧
    ∃ out, xmllintBufEscape (envAt ⟨0, 0⟩) [] (some [97, 34, 92, 1, 10, 200]) = (true, out) ∧
      (∀ b ∈ out, 32 ≤ b) ∧ jsonStringDecode out = some [97, 34, 92, 1, 10, 200] :=
  ⟨fun _ _ => rfl,
   (C6_json_escape_roundtrip [97, 34, 92, 1, 10, 200]).1.2,
   (C6_json_escape_roundtrip [97, 34, 92, 1, 10, 200]).2 (envAt ⟨0, 0⟩) (fun _ _ => rfl)⟩

theorem keyStep_inert (d : Nat) (e : Bool) (ks : List (List Nat)) (b : Nat)
    (h : Inert b) : keyStep (K d e ks) b = K d e ks := by
  obtain ⟨h1, h2, h3, h4, h5, h6⟩ := h
  simp [keyStep, h1, h2, h3, h4, h5, h6]

theorem scan_inert (bs : List Nat) (d : Nat) (e : Bool) (ks : List (List Nat))
    (h : ∀ b ∈ bs, Inert b) : bs.foldl keyStep (K d e ks) = K d e ks := by
  induction bs with
  | nil => rfl
  | cons b rest ih =>
    rw [List.foldl_cons, keyStep_inert d e ks b (h b (by simp))]
    exact ih (fun x hx => h x (by simp [hx]))

theorem strPiece_nil : StrPiece [] := by
  intro d e cur ks
  cases cur <;> simp

theorem strPiece_append (a b : List Nat) (ha : StrPiece a) (hb : StrPiece b) :
    StrPiece (a ++ b) := by
  intro d e cur ks
  rw [List.foldl_append, ha, hb]
  cases cur <;> simp

theorem strPiece_plain (b : Nat) (h1 : b ≠ 34) (h2 : b ≠ 92) : StrPiece [b] := by
  intro d e cur ks
  simp [keyStep, h1, h2]

theorem strPiece_escaped (b : Nat) : StrPiece [92, b] := by
  intro d e cur ks
  cases cur <;> simp [keyStep]

theorem strPiece_plain_list (bs : List Nat) (h : ∀ b ∈ bs, b ≠ 34 ∧ b ≠ 92) :
    StrPiece bs := by
  induction bs with
  | nil => exact strPiece_nil
  | cons b rest ih =>
    have := strPiece_append [b] rest (strPiece_plain b (h b (by simp)).1 (h b (by simp)).2)
      (ih (fun x hx => h x (by simp [hx])))
    simpa using this

theorem fmtHex_byte_plain : ∀ c < 32, ∀ b ∈ fmtHex 4 c, b ≠ 34 ∧ b ≠ 92 := by
  decide

theorem strPiece_escapeByte (c : Nat) : StrPiece (xmllintJsonEscapeByte c) := by
  unfold xmllintJsonEscapeByte
  split_ifs with h1 h2 h3 h4 h5 h6 h7 h8
  · exact strPiece_escaped _
  · exact strPiece_escaped _
  · exact strPiece_escaped _
  · exact strPiece_escaped _
  · exact strPiece_escaped _
  · exact strPiece_escaped _
  · exact strPiece_escaped _
  · exact strPiece_append _ _ (strPiece_escaped _)
      (strPiece_plain_list _ (fmtHex_byte_plain c h8))
  · exact strPiece_plain c h1 h2

theorem strPiece_escapeBody (s : List Nat) : StrPiece (s.flatMap xmllintJsonEscapeByte) := by
  induction s with
  | nil => exact strPiece_nil
  | cons c rest ih =>
    rw [List.flatMap_cons]
    exact strPiece_append _ _ (strPiece_escapeByte c) ih

/-- Scanning a string literal whose inside is a string piece. -/
theorem scan_string (body : List Nat) (hb : StrPiece body) (d : Nat) (e : Bool)
    (ks : List (List Nat)) :
    ([34] ++ body ++ [34]).foldl keyStep (K d e ks) =
      K d false (if d = 1 ∧ e = true then ks ++ [body] else ks) := by
  rw [List.foldl_append, List.foldl_append]
  have h0 : [34].foldl keyStep (K d e ks) =
      ⟨d, true, false, false, if d = 1 ∧ e = true then some [] else none, ks⟩ := by
    simp [keyStep]
  rw [h0, hb]
  by_cases h : d = 1 ∧ e = true
  · simp [keyStep, h]
  · simp [keyStep, h]

theorem scan_escape_some (s : List Nat) (d : Nat) (e : Bool) (ks : List (List Nat)) :
    (xmllintJsonEscape (some s)).foldl keyStep (K d e ks) =
      K d false (if d = 1 ∧ e = true then ks ++ [s.flatMap xmllintJsonEscapeByte] else ks) :=
  scan_string _ (strPiece_escapeBody s) d e ks

theorem scan_escape_value (str : Option CStr) (d : Nat) (ks : List (List Nat)) :
    (xmllintJsonEscape str).foldl keyStep (K d false ks) = K d false ks := by
  cases str with
  | none => exact scan_inert _ d false ks (by decide)
  | some s => rw [scan_escape_some]; simp

theorem digitsAux_chars (base : Nat) (h0 : 0 < base) (h16 : base ≤ 16) :
    ∀ (fuel n : Nat) (acc : List Nat), (∀ b ∈ acc, IsHexChar b) →
      ∀ b ∈ digitsAux base fuel n acc, IsHexChar b := by
  intro fuel
  induction fuel with
  | zero => intro n acc hacc b hb; exact hacc b hb
  | succ fuel ih =>
    intro n acc hacc b hb
    have hd : n % base < base := Nat.mod_lt _ h0
    have hc : IsHexChar (if n % base < 10 then 48 + n % base else 87 + n % base) := by
      unfold IsHexChar
      split_ifs <;> omega
    have hacc2 : ∀ b ∈ (if n % base < 10 then 48 + n % base else 87 + n % base) :: acc,
        IsHexChar b := by
      intro x hx
      rcases List.mem_cons.1 hx with hx | hx
      · rw [hx]; exact hc
      · exact hacc x hx
    simp only [digitsAux] at hb
    by_cases hn : n < base
    · rw [if_pos hn] at hb; exact hacc2 b hb
    · rw [if_neg hn] at hb; exact ih _ _ hacc2 b hb

theorem fmtNat_chars (n : Nat) : ∀ b ∈ fmtNat n, IsHexChar b :=
  digitsAux_chars 10 (by decide) (by decide) _ _ _ (by simp)

theorem fmtInt_inert (v : Int) : ∀ b ∈ fmtInt v, Inert b := by
  intro b hb
  unfold fmtInt at hb
  split_ifs at hb
  · rcases List.mem_cons.1 hb with hb | hb
    · subst hb; decide
    · have := fmtNat_chars _ b hb
      unfold IsHexChar at this; unfold Inert; omega
  · have := fmtNat_chars _ b hb
    unfold IsHexChar at this; unfold Inert; omega

theorem fmtHex_chars (w n : Nat) : ∀ b ∈ fmtHex w n, IsHexChar b := by
  intro b hb
  unfold fmtHex at hb
  rcases List.mem_append.1 hb with hb | hb
  · rw [List.mem_replicate] at hb
    rw [hb.2]; decide
  · exact digitsAux_chars 16 (by decide) (by decide) _ _ _ (by simp) b hb

theorem indent_inert (p : Int) (l : Nat) : ∀ b ∈ xmllintJsonIndent p l, Inert b := by
  intro b hb
  unfold xmllintJsonIndent at hb
  split_ifs at hb
  · simp at hb
  · simp only [List.mem_append, List.mem_singleton, List.mem_flatten,
      List.mem_replicate] at hb
    rcases hb with hb | ⟨x, ⟨_, hx⟩, hb⟩
    · subst hb; decide
    · subst hx
      have : b = 32 := by
        have h2 : ∀ y ∈ lit "  ", y = 32 := by decide
        exact h2 b hb
      subst this; decide

theorem scan_indent (p : Int) (l d : Nat) (e : Bool) (ks : List (List Nat)) :
    (xmllintJsonIndent p l).foldl keyStep (K d e ks) = K d e ks :=
  scan_inert _ d e ks (indent_inert p l)

theorem scan_int (v : Int) (d : Nat) (e : Bool) (ks : List (List Nat)) :
    (xmllintJsonAddInt v).foldl keyStep (K d e ks) = K d e ks :=
  scan_inert _ d e ks (fmtInt_inert v)

theorem scan_key (p : Int) (l : Nat) (k : CStr) (d : Nat) (e : Bool)
    (ks : List (List Nat)) :
    (xmllintJsonKey p l k).foldl keyStep (K d e ks) =
      K d false (if d = 1 ∧ e = true then ks ++ [k.flatMap xmllintJsonEscapeByte] else ks) := by
  unfold xmllintJsonKey
  rw [List.foldl_append, List.foldl_append, scan_indent, scan_escape_some]
  apply scan_inert
  split_ifs <;> decide

/-- A member after the first one: a comma, the key and a neutral value. -/
theorem scan_member (p : Int) (l : Nat) (k : CStr) (v : List Nat) (hv : Neutral v)
    (ks : List (List Nat)) :
    ([44] ++ xmllintJsonKey p l k ++ v).foldl keyStep (K 1 false ks) =
      K 1 false (ks ++ [k.flatMap xmllintJsonEscapeByte]) := by
  rw [List.foldl_append, List.foldl_append]
  have h0 : [44].foldl keyStep (K 1 false ks) = K 1 true ks := by simp [keyStep]
  rw [h0, scan_key, hv]
  simp

theorem neutral_escape (str : Option CStr) : Neutral (xmllintJsonEscape str) :=
  fun ks => scan_escape_value str 1 ks

theorem neutral_int (v : Int) : Neutral (xmllintJsonAddInt v) :=
  fun ks => scan_int v 1 false ks

theorem neutral_inert (bs : List Nat) (h : ∀ b ∈ bs, Inert b) : Neutral bs :=
  fun ks => scan_inert bs 1 false ks h

theorem neutral_hexString (w n : Nat) : Neutral ([34] ++ fmtHex w n ++ [34]) := by
  intro ks
  rw [scan_string _ (strPiece_plain_list _ _)]
  · simp
  · intro b hb
    have := fmtHex_chars w n b hb
    unfold IsHexChar at this; omega

theorem scan_optionsLoop (p : Int) (l opts : Nat) (defs : List xmllintOptName)
    (first : Bool) (ks : List (List Nat)) :
    (xmllintJsonAddOptionsLoop p l opts defs first).1.foldl keyStep (K 2 false ks) =
      K 2 false ks := by
  induction defs generalizing first with
  | nil => rfl
  | cons d ds ih =>
    by_cases h : opts &&& d.flag = 0
    · simp only [xmllintJsonAddOptionsLoop, if_pos h]
      exact ih first
    · simp only [xmllintJsonAddOptionsLoop, if_neg h, List.foldl_append]
      have hc : (if first = true then [] else [44]).foldl keyStep (K 2 false ks) =
          K 2 false ks := by
        cases first <;> simp [keyStep]
      rw [hc, scan_indent, scan_escape_value, ih false]

theorem neutral_optionsArray (p : Int) (l opts : Nat) (defs : List xmllintOptName) :
    Neutral (lit "[" ++ (xmllintJsonAddOptionsLoop p l opts defs true).1 ++
      (if (xmllintJsonAddOptionsLoop p l opts defs true).2 = true then []
       else xmllintJsonIndent p l) ++ lit "]") := by
  intro ks
  simp only [List.foldl_append]
  have h0 : (lit "[").foldl keyStep (K 1 false ks) = K 2 false ks := by
    simp [lit, keyStep]
  have h1 : (lit "]").foldl keyStep (K 2 false ks) = K 1 false ks := by
    simp [lit, keyStep]
  rw [h0, scan_optionsLoop]
  split_ifs
  · simpa using h1
  · rw [scan_indent]; exact h1

theorem scan_options (p : Int) (l : Nat) (k : CStr) (opts : Nat)
    (defs : List xmllintOptName) (ks : List (List Nat)) :
    (xmllintJsonAddOptions p l k opts defs).foldl keyStep (K 1 false ks) =
      K 1 false (ks ++ [k.flatMap xmllintJsonEscapeByte]) := by
  have := scan_member p l k _ (neutral_optionsArray p l opts defs) ks
  simpa [xmllintJsonAddOptions, List.append_assoc] using this

theorem scan_checksum (p : Int) (l : Nat) (k : CStr) (valid : Int) (sum : Nat)
    (ks : List (List Nat)) :
    (xmllintJsonAddChecksum p l k valid sum).foldl keyStep (K 1 false ks) =
      K 1 false (ks ++ [k.flatMap xmllintJsonEscapeByte]) := by
  unfold xmllintJsonAddChecksum
  apply scan_member
  split_ifs
  · exact neutral_inert _ (by decide)
  · exact neutral_hexString 16 sum

theorem scan_fingerprint (p : Int) (l : Nat) (k : CStr) (error : xmlError)
    (ks : List (List Nat)) :
    (xmllintJsonAddFingerprint p l k error).foldl keyStep (K 1 false ks) =
      K 1 false (ks ++ [k.flatMap xmllintJsonEscapeByte]) := by
  unfold xmllintJsonAddFingerprint
  have := scan_member p l k _ (neutral_hexString 16 (xmllintErrorFingerprint (some error))) ks
  simpa [List.append_assoc] using this

theorem neutral_timeObject (p : Int) (l : Nat) (t : xmlTime) :
    Neutral (lit "\x7b" ++ xmllintJsonKey p (l + 1) (lit "sec") ++
      xmllintJsonAddInt (castInt t.sec) ++ [44] ++
      xmllintJsonKey p (l + 1) (lit "usec") ++ xmllintJsonAddInt (castInt t.usec) ++
      xmllintJsonIndent p l ++ lit "\x7d") := by
  intro ks
  simp only [List.foldl_append]
  have h0 : (lit "\x7b").foldl keyStep (K 1 false ks) = K 2 false ks := by
    simp [lit, keyStep]
  have h1 : [44].foldl keyStep (K 2 false ks) = K 2 false ks := by
    simp [keyStep]
  have h2 : (lit "\x7d").foldl keyStep (K 2 false ks) = K 1 false ks := by
    simp [lit, keyStep]
  rw [h0, scan_key, scan_int]
  simp only [OfNat.ofNat_ne_one, false_and, if_false]
  rw [h1, scan_key, scan_int, scan_indent]
  simpa using h2

theorem scan_time (p : Int) (l : Nat) (k : CStr) (tv : Option xmlTime)
    (ks : List (List Nat)) :
    (xmllintJsonAddTime p l k tv).foldl keyStep (K 1 false ks) =
      K 1 false (if tv.isSome then ks ++ [k.flatMap xmllintJsonEscapeByte] else ks) := by
  cases tv with
  | none => rfl
  | some t =>
    have := scan_member p l k _ (neutral_timeObject p l t) ks
    simpa [xmllintJsonAddTime, List.append_assoc] using this

theorem window_shape (p : Int) (l : Nat) (k : CStr) (lint : xmllintState) (env : Env) :
    xmllintJsonAddWindow p l k lint env = [] ∨
    ∃ v, Neutral v ∧ xmllintJsonAddWindow p l k lint env = [44] ++ xmllintJsonKey p l k ++ v := by
  unfold xmllintJsonAddWindow
  by_cases h1 : lint.errorJsonWindow ≤ 0
  · rw [if_pos h1]; exact Or.inl rfl
  rw [if_neg h1]
  by_cases h2 : lint.errorRedactFlags &&& XMLLINT_REDACT_WINDOW ≠ 0
  · rw [if_pos h2]; exact Or.inr ⟨_, neutral_inert _ (by decide), rfl⟩
  rw [if_neg h2]
  cases lint.ctxt with
  | none => exact Or.inl rfl
  | some ctxt =>
    dsimp only
    cases ctxt.inputWindow with
    | none => exact Or.inl rfl
    | some w =>
      dsimp only
      cases w.start with
      | none => exact Or.inl rfl
      | some start =>
        dsimp only
        by_cases h3 : w.size ≤ 0
        · rw [if_pos h3]; exact Or.inl rfl
        rw [if_neg h3]
        by_cases h4 : env.windowMalloc = true
        · rw [if_pos h4]; exact Or.inr ⟨_, neutral_escape _, rfl⟩
        · rw [if_neg h4]; exact Or.inl rfl

theorem scan_window (p : Int) (l : Nat) (k : CStr) (lint : xmllintState) (env : Env)
    (ks : List (List Nat)) :
    (xmllintJsonAddWindow p l k lint env).foldl keyStep (K 1 false ks) =
      K 1 false (if xmllintJsonAddWindow p l k lint env = [] then ks
                 else ks ++ [k.flatMap xmllintJsonEscapeByte]) := by
  rcases window_shape p l k lint env with h | ⟨v, hv, h⟩
  · rw [h]; simp
  · rw [h, scan_member p l k v hv]
    simp

theorem scan_comma (ks : List (List Nat)) :
    [44].foldl keyStep (K 1 false ks) = K 1 true ks := by
  simp [keyStep]

theorem scan_key_top (p : Int) (l : Nat) (k : CStr) (ks : List (List Nat)) :
    (xmllintJsonKey p l k).foldl keyStep (K 1 true ks) =
      K 1 false (ks ++ [k.flatMap xmllintJsonEscapeByte]) := by
  rw [scan_key]; simp

theorem scan_value (str : Option CStr) (ks : List (List Nat)) :
    (xmllintJsonEscape str).foldl keyStep (K 1 false ks) = K 1 false ks :=
  scan_escape_value str 1 ks

theorem scan_intValue (v : Int) (e : Bool) (ks : List (List Nat)) :
    (xmllintJsonAddInt v).foldl keyStep (K 1 e ks) = K 1 e ks :=
  scan_int v 1 e ks

theorem scan_open : (lit "\x7b").foldl keyStep ⟨0, false, false, false, none, []⟩ = K 1 true [] := by
  decide

theorem scan_close (p : Int) (ks : List (List Nat)) :
    ((lit "\x7d").foldl keyStep
      ((xmllintJsonIndent p 0).foldl keyStep (K 1 false ks))).keys = ks := by
  rw [scan_indent]
  simp [lit, keyStep]

theorem scan_htmlOptions (c : Prop) [Decidable c] (p : Int) (l : Nat) (k : CStr)
    (opts : Nat) (defs : List xmllintOptName) (ks : List (List Nat)) :
    (if c then xmllintJsonAddOptions p l k opts defs else []).foldl keyStep (K 1 false ks) =
      K 1 false (if c then ks ++ [k.flatMap xmllintJsonEscapeByte] else ks) := by
  split_ifs
  · exact scan_options p l k opts defs ks
  · rfl

theorem keys_writeJsonError (tabs : xmllintOptTables) (lint : xmllintState)
    (error : xmlError) (filename : Option CStr) (env : Env) :
    jsonTopLevelKeys (xmllintWriteJsonError tabs lint error filename env) =
      errorObjectKeys (decide (lint.appOptions &&& XML_LINT_HTML_ENABLED ≠ 0))
        (decide (xmllintJsonAddWindow lint.errorJsonPretty
          (if lint.errorJsonPretty ≠ 0 then 1 else 0) (lit "window") lint env ≠ []))
        env.tv.isSome := by
  unfold jsonTopLevelKeys xmllintWriteJsonError
  simp only [List.foldl_append]
  rw [scan_open]
  simp only [scan_key_top, scan_intValue, scan_comma, scan_value, scan_options,
    scan_htmlOptions, scan_window, scan_checksum, scan_fingerprint, scan_time, scan_close]
  by_cases h1 : lint.appOptions &&& XML_LINT_HTML_ENABLED ≠ 0 <;>
  by_cases h2 : xmllintJsonAddWindow lint.errorJsonPretty
      (if lint.errorJsonPretty ≠ 0 then 1 else 0) (lit "window") lint env = [] <;>
  cases env.tv <;>
  simp only [h1, h2, if_true, if_false, not_true_eq_false, not_false_eq_true,
    decide_True, decide_False, Option.isSome_none, Option.isSome_some,
    Bool.false_eq_true, ne_eq] <;>
  decide

theorem writeJsonError_split (tabs : xmllintOptTables) (lint : xmllintState)
    (error : xmlError) (filename : Option CStr) (env : Env) :
    xmllintWriteJsonError tabs lint error filename env =
      jsonErrorHead lint error filename ++
      xmllintJsonEscape (xmllintRedactValue lint XMLLINT_REDACT_MESSAGE error.message) ++
      jsonErrorTail tabs lint error env := by
  simp only [xmllintWriteJsonError, jsonErrorHead, jsonErrorTail, List.append_assoc]

theorem redactMessage_flag (lint : xmllintState) (flag : Nat)
    (h : XMLLINT_REDACT_MESSAGE &&& flag = 0) :
    (redactMessage lint).errorRedactFlags &&& flag = lint.errorRedactFlags &&& flag := by
  simp only [redactMessage, Nat.and_distrib_right, h, Nat.or_zero]

theorem redactMessage_value (lint : xmllintState) (flag : Nat)
    (h : XMLLINT_REDACT_MESSAGE &&& flag = 0) (v : Option CStr) :
    xmllintRedactValue (redactMessage lint) flag v = xmllintRedactValue lint flag v := by
  cases v with
  | none => rfl
  | some s => simp only [xmllintRedactValue, redactMessage_flag lint flag h]

theorem redactMessage_window (p : Int) (l : Nat) (k : CStr) (lint : xmllintState)
    (env : Env) :
    xmllintJsonAddWindow p l k (redactMessage lint) env =
      xmllintJsonAddWindow p l k lint env := by
  simp only [xmllintJsonAddWindow, redactMessage_flag lint XMLLINT_REDACT_WINDOW (by decide)]
  rfl

theorem redactMessage_head (lint : xmllintState) (error : xmlError)
    (filename : Option CStr) :
    jsonErrorHead (redactMessage lint) error filename = jsonErrorHead lint error filename := by
  simp only [jsonErrorHead, redactMessage_value lint XMLLINT_REDACT_FILE (by decide)]
  rfl

theorem redactMessage_tail (tabs : xmllintOptTables) (lint : xmllintState)
    (error : xmlError) (env : Env) :
    jsonErrorTail tabs (redactMessage lint) error env = jsonErrorTail tabs lint error env := by
  simp only [jsonErrorTail, redactMessage_value lint XMLLINT_REDACT_STR1 (by decide),
    redactMessage_value lint XMLLINT_REDACT_STR2 (by decide),
    redactMessage_value lint XMLLINT_REDACT_STR3 (by decide), redactMessage_window]
  rfl

theorem redactMessage_message (lint : xmllintState) (v : Option CStr) :
    xmllintRedactValue (redactMessage lint) XMLLINT_REDACT_MESSAGE v =
      v.map (fun _ => lit "[redacted]") := by
  cases v with
  | none => rfl
  | some s =>
    have h : (redactMessage lint).errorRedactFlags &&& XMLLINT_REDACT_MESSAGE ≠ 0 := by
      simp only [redactMessage, Nat.and_distrib_right, Nat.and_self]
      intro h0
      have h1 := congrArg (fun x => Nat.testBit x 1) h0
      have h2 : Nat.testBit XMLLINT_REDACT_MESSAGE 1 = true := by decide
      simp [Nat.testBit_or, h2] at h1
    simp only [xmllintRedactValue, h, if_false, Option.map_some']

theorem keys_jsonErrorHead (lint : xmllintState) (error : xmlError)
    (filename : Option CStr) :
    jsonTopLevelKeys (jsonErrorHead lint error filename) =
      [lit "schema_version", lit "file", lit "domain", lit "code", lit "level",
       lit "line", lit "column", lit "message"] := by
  unfold jsonTopLevelKeys jsonErrorHead
  simp only [List.foldl_append]
  rw [scan_open]
  simp only [scan_key_top, scan_intValue, scan_comma, scan_value]
  decide

/-- C7 (evaluation at the failing input): in array mode with the summary
enabled and no error event, `xmllintStartErrorArray` and
`xmllintFinishErrorArray` write the summary object directly after the
closing bracket of `errors`, without a comma and without the key `summary`:
the text is not well-formed JSON and the keys of its members are
`schema_version`, `file` and `errors` only.  In the line-delimited mode
`xmllintWriteSummaryLine` writes `,"summary":` before the same object and
the text is well formed. -/
theorem C7_array_summary_without_key :
    written (xmllintMainFile exampleOptTables arraySummaryState (lit "a.xml")
      (fun _ => none) ⟨100, 0⟩ []).2 (Sink.file 2) =
      lit "\x7b\"schema_version\":1,\"file\":\"a.xml\",\"errors\":[]\x7b\"by_level\":\x7b\"none\":0,\"warning\":0,\"error\":0,\"fatal\":0\x7d,\"by_domain\":\x7b\x7d,\"by_code\":\x7b\x7d,\"by_stage\":\x7b\x7d\x7d\x7d\n" ∧
    jsonWellFormed (written (xmllintMainFile exampleOptTables arraySummaryState
      (lit "a.xml") (fun _ => none) ⟨100, 0⟩ []).2 (Sink.file 2)) = false ∧
    jsonTopLevelKeys (written (xmllintMainFile exampleOptTables arraySummaryState
      (lit "a.xml") (fun _ => none) ⟨100, 0⟩ []).2 (Sink.file 2)) =
      [lit "schema_version", lit "file", lit "errors"] ∧
    written (xmllintMainFile exampleOptTables
      { arraySummaryState with errorJsonArray := 0 } (lit "a.xml")
      (fun _ => none) ⟨100, 0⟩ []).2 (Sink.file 2) =
      lit "\x7b\"schema_version\":1,\"file\":\"a.xml\",\"summary\":\x7b\"by_level\":\x7b\"none\":0,\"warning\":0,\"error\":0,\"fatal\":0\x7d,\"by_domain\":\x7b\x7d,\"by_code\":\x7b\x7d,\"by_stage\":\x7b\x7d\x7d\x7d\n" ∧
    jsonWellFormed (written (xmllintMainFile exampleOptTables
      { arraySummaryState with errorJsonArray := 0 } (lit "a.xml")
      (fun _ => none) ⟨100, 0⟩ []).2 (Sink.file 2)) = true := by
  have h1 : written (xmllintMainFile exampleOptTables arraySummaryState (lit "a.xml")
      (fun _ => none) ⟨100, 0⟩ []).2 (Sink.file 2) =
      lit "\x7b\"schema_version\":1,\"file\":\"a.xml\",\"errors\":[]\x7b\"by_level\":\x7b\"none\":0,\"warning\":0,\"error\":0,\"fatal\":0\x7d,\"by_domain\":\x7b\x7d,\"by_code\":\x7b\x7d,\"by_stage\":\x7b\x7d\x7d\x7d\n" := by
    decide!
  have h2 : written (xmllintMainFile exampleOptTables
      { arraySummaryState with errorJsonArray := 0 } (lit "a.xml")
      (fun _ => none) ⟨100, 0⟩ []).2 (Sink.file 2) =
      lit "\x7b\"schema_version\":1,\"file\":\"a.xml\",\"summary\":\x7b\"by_level\":\x7b\"none\":0,\"warning\":0,\"error\":0,\"fatal\":0\x7d,\"by_domain\":\x7b\x7d,\"by_code\":\x7b\x7d,\"by_stage\":\x7b\x7d\x7d\x7d\n" := by
    decide!
  refine ⟨h1, ?_, ?_, h2, ?_⟩
  · rw [h1]; decide!
  · rw [h1]; decide!
  · rw [h2]; decide!

/-- C8 (evaluation at the failing input): in array mode with a warnings
file, a warning followed by an error; the warning goes to the warnings
stream and counts as the first element, so the error object is written to
the stream that holds the array after a comma: the array starts with `[,`
and the text of that stream is not well-formed JSON. -/
theorem C8_array_leading_comma :
    written (xmllintMainFile exampleOptTables arrayWarnState (lit "a.xml")
      (fun _ => none) ⟨100, 0⟩
      [(mkError 1 100 1 "w" (some "parsing"), envAt ⟨100, 1000⟩),
       (mkError 1 201 2 "e" (some "parsing"), envAt ⟨100, 2000⟩)]).2 (Sink.file 2) =
      lit "\x7b\"schema_version\":1,\"file\":\"a.xml\",\"errors\":[,\x7b\"schema_version\":1,\"file\":\"a.xml\",\"domain\":1,\"code\":201,\"level\":2,\"line\":5,\"column\":3,\"message\":\"e\",\"str1\":null,\"str2\":null,\"str3\":\"parsing\",\"resource_type\":null,\"stage\":\"parsing\",\"parse_options\":[\"COMPACT\",\"BIG_LINES\"],\"checksum\":null,\"fingerprint\":\"80ecc06d882c23a4\",\"timestamp\":\x7b\"sec\":100,\"usec\":2000\x7d\x7d]\x7d\n" ∧
    jsonWellFormed (written (xmllintMainFile exampleOptTables arrayWarnState (lit "a.xml")
      (fun _ => none) ⟨100, 0⟩
      [(mkError 1 100 1 "w" (some "parsing"), envAt ⟨100, 1000⟩),
       (mkError 1 201 2 "e" (some "parsing"), envAt ⟨100, 2000⟩)]).2 (Sink.file 2)) =
      false ∧
    written (xmllintMainFile exampleOptTables arrayWarnState (lit "a.xml")
      (fun _ => none) ⟨100, 0⟩
      [(mkError 1 100 1 "w" (some "parsing"), envAt ⟨100, 1000⟩),
       (mkError 1 201 2 "e" (some "parsing"), envAt ⟨100, 2000⟩)]).2 (Sink.file 7) =
      lit "\x7b\"schema_version\":1,\"file\":\"a.xml\",\"domain\":1,\"code\":100,\"level\":1,\"line\":5,\"column\":3,\"message\":\"w\",\"str1\":null,\"str2\":null,\"str3\":\"parsing\",\"resource_type\":null,\"stage\":\"parsing\",\"parse_options\":[\"COMPACT\",\"BIG_LINES\"],\"checksum\":null,\"fingerprint\":\"96b6615cf3598218\",\"timestamp\":\x7b\"sec\":100,\"usec\":1000\x7d\x7d" := by
  have h1 : written (xmllintMainFile exampleOptTables arrayWarnState (lit "a.xml")
      (fun _ => none) ⟨100, 0⟩
      [(mkError 1 100 1 "w" (some "parsing"), envAt ⟨100, 1000⟩),
       (mkError 1 201 2 "e" (some "parsing"), envAt ⟨100, 2000⟩)]).2 (Sink.file 2) =
      lit "\x7b\"schema_version\":1,\"file\":\"a.xml\",\"errors\":[,\x7b\"schema_version\":1,\"file\":\"a.xml\",\"domain\":1,\"code\":201,\"level\":2,\"line\":5,\"column\":3,\"message\":\"e\",\"str1\":null,\"str2\":null,\"str3\":\"parsing\",\"resource_type\":null,\"stage\":\"parsing\",\"parse_options\":[\"COMPACT\",\"BIG_LINES\"],\"checksum\":null,\"fingerprint\":\"80ecc06d882c23a4\",\"timestamp\":\x7b\"sec\":100,\"usec\":2000\x7d\x7d]\x7d\n" := by
    decide!
  refine ⟨h1, ?_, ?_⟩
  · rw [h1]; decide!
  · decide!

theorem errorObjectKeys_spec (a b : Prop) [Decidable a] [Decidable b] (t : Bool) :
    errorObjectKeys (decide a) (decide b) t =
      [lit "schema_version", lit "file", lit "domain", lit "code", lit "level",
       lit "line", lit "column", lit "message", lit "str1", lit "str2", lit "str3",
       lit "resource_type", lit "stage", lit "parse_options"] ++
      (if a then [lit "html_options"] else []) ++
      (if b then [lit "window"] else []) ++
      [lit "checksum", lit "fingerprint"] ++
      (if t = true then [lit "timestamp"] else []) ∧
    (errorObjectKeys (decide a) (decide b) t).Nodup := by
  by_cases ha : a <;> by_cases hb : b <;> cases t <;>
  simp only [ha, hb, decide_True, decide_False, if_true, if_false,
    Bool.false_eq_true] <;>
  decide

/-- The keys of the object written by `xmllintWriteJsonError`, whatever
`gettimeofday` answers: the member `timestamp` is written when the call
succeeds (the guard of `xmllintJsonAddTime`). -/
theorem writeJsonError_keys (tabs : xmllintOptTables) (lint : xmllintState)
    (error : xmlError) (filename : Option CStr) (env : Env) :
    jsonTopLevelKeys (xmllintWriteJsonError tabs lint error filename env) =
      [lit "schema_version", lit "file", lit "domain", lit "code", lit "level",
       lit "line", lit "column", lit "message", lit "str1", lit "str2", lit "str3",
       lit "resource_type", lit "stage", lit "parse_options"] ++
      (if lint.appOptions &&& XML_LINT_HTML_ENABLED ≠ 0 then [lit "html_options"]
       else []) ++
      (if xmllintJsonAddWindow lint.errorJsonPretty
            (if lint.errorJsonPretty ≠ 0 then 1 else 0) (lit "window") lint env ≠ []
       then [lit "window"] else []) ++
      [lit "checksum", lit "fingerprint"] ++
      (if env.tv.isSome then [lit "timestamp"] else []) ∧
    (jsonTopLevelKeys (xmllintWriteJsonError tabs lint error filename env)).Nodup := by
  rw [keys_writeJsonError]
  exact errorObjectKeys_spec _ _ _

/-- C9: for every state, error record and file name, in an environment
where `gettimeofday` succeeds, as it does for the local `tv` and the null
time zone that `xmllintJsonAddTime` passes, the members of the JSON object
written by `xmllintWriteJsonError` are, in this order, schema_version,
file, domain, code, level, line, column, message, str1, str2, str3,
resource_type, stage, parse_options, html_options (only in HTML mode),
window (only when `xmllintJsonAddWindow` writes it), checksum, fingerprint,
timestamp, and no key occurs twice. -/
theorem C9_json_error_key_order (tabs : xmllintOptTables) (lint : xmllintState)
    (error : xmlError) (filename : Option CStr) (env : Env)
    (htv : env.tv.isSome = true) :
    jsonTopLevelKeys (xmllintWriteJsonError tabs lint error filename env) =
      [lit "schema_version", lit "file", lit "domain", lit "code", lit "level",
       lit "line", lit "column", lit "message", lit "str1", lit "str2", lit "str3",
       lit "resource_type", lit "stage", lit "parse_options"] ++
      (if lint.appOptions &&& XML_LINT_HTML_ENABLED ≠ 0 then [lit "html_options"]
       else []) ++
      (if xmllintJsonAddWindow lint.errorJsonPretty
            (if lint.errorJsonPretty ≠ 0 then 1 else 0) (lit "window") lint env ≠ []
       then [lit "window"] else []) ++
      [lit "checksum", lit "fingerprint", lit "timestamp"] ∧
    (jsonTopLevelKeys (xmllintWriteJsonError tabs lint error filename env)).Nodup := by
  obtain ⟨h1, h2⟩ := writeJsonError_keys tabs lint error filename env
  refine ⟨?_, h2⟩
  rw [h1, if_pos htv]
  simp only [List.append_assoc, List.cons_append, List.nil_append]

/-- Witness for C9: an error of the stage `parsing` with `--error-json`,
the clock reading (100, 0): the object has the seventeen members of the
line-delimited XML mode, `timestamp` last. -/
theorem C9_json_error_key_order_witness :
    (envAt ⟨100, 0⟩).tv.isSome = true ∧
    (jsonTopLevelKeys (xmllintWriteJsonError exampleOptTables jsonState
        (mkError 1 201 2 "e" (some "parsing")) (some (lit "a.xml")) (envAt ⟨100, 0⟩)) =
      [lit "schema_version", lit "file", lit "domain", lit "code", lit "level",
       lit "line", lit "column", lit "message", lit "str1", lit "str2", lit "str3",
       lit "resource_type", lit "stage", lit "parse_options"] ++
      (if jsonState.appOptions &&& XML_LINT_HTML_ENABLED ≠ 0 then [lit "html_options"]
       else []) ++
      (if xmllintJsonAddWindow jsonState.errorJsonPretty
            (if jsonState.errorJsonPretty ≠ 0 then 1 else 0) (lit "window") jsonState
            (envAt ⟨100, 0⟩) ≠ []
       then [lit "window"] else []) ++
      [lit "checksum", lit "fingerprint", lit "timestamp"] ∧
    (jsonTopLevelKeys (xmllintWriteJsonError exampleOptTables jsonState
        (mkError 1 201 2 "e" (some "parsing")) (some (lit "a.xml"))
        (envAt ⟨100, 0⟩))).Nodup) ∧
    xmllintWriteJsonError exampleOptTables jsonState
      (mkError 1 201 2 "e" (some "parsing")) (some (lit "a.xml")) (envAt ⟨100, 0⟩) =
      lit "\x7b\"schema_version\":1,\"file\":\"a.xml\",\"domain\":1,\"code\":201,\"level\":2,\"line\":5,\"column\":3,\"message\":\"e\",\"str1\":null,\"str2\":null,\"str3\":\"parsing\",\"resource_type\":null,\"stage\":\"parsing\",\"parse_options\":[\"COMPACT\",\"BIG_LINES\"],\"checksum\":null,\"fingerprint\":\"80ecc06d882c23a4\",\"timestamp\":\x7b\"sec\":100,\"usec\":0\x7d\x7d" ∧
    jsonTopLevelKeys (xmllintWriteJsonError exampleOptTables jsonState
        (mkError 1 201 2 "e" (some "parsing")) (some (lit "a.xml")) (envAt ⟨100, 0⟩)) =
      [lit "schema_version", lit "file", lit "domain", lit "code", lit "level",
       lit "line", lit "column", lit "message", lit "str1", lit "str2", lit "str3",
       lit "resource_type", lit "stage", lit "parse_options", lit "checksum",
       lit "fingerprint", lit "timestamp"] :=
  ⟨rfl,
   C9_json_error_key_order exampleOptTables jsonState
     (mkError 1 201 2 "e" (some "parsing")) (some (lit "a.xml")) (envAt ⟨100, 0⟩) rfl,
   by decide!, by decide!⟩

/-- C10 (counterexample): a record without a message (`message` is `NULL`)
serialised with the MESSAGE redaction bit set: the value of the member
`message` is `null`, not the marker, and the output is the one written with
the bit clear. -/
theorem C10_null_message_counterexample :
    xmllintWriteJsonError exampleOptTables (redactMessage jsonState)
      { mkError 1 201 2 "e" (some "parsing") with message := none }
      (some (lit "a.xml")) (envAt ⟨100, 0⟩) =
      lit "\x7b\"schema_version\":1,\"file\":\"a.xml\",\"domain\":1,\"code\":201,\"level\":2,\"line\":5,\"column\":3,\"message\":null,\"str1\":null,\"str2\":null,\"str3\":\"parsing\",\"resource_type\":null,\"stage\":\"parsing\",\"parse_options\":[\"COMPACT\",\"BIG_LINES\"],\"checksum\":null,\"fingerprint\":\"63cd6b14ca99519b\",\"timestamp\":\x7b\"sec\":100,\"usec\":0\x7d\x7d" ∧
    xmllintWriteJsonError exampleOptTables (redactMessage jsonState)
      { mkError 1 201 2 "e" (some "parsing") with message := none }
      (some (lit "a.xml")) (envAt ⟨100, 0⟩) =
    xmllintWriteJsonError exampleOptTables jsonState
      { mkError 1 201 2 "e" (some "parsing") with message := none }
      (some (lit "a.xml")) (envAt ⟨100, 0⟩) := by
  constructor <;> decide!

/-- C10 (amended): for every error record and configuration whose MESSAGE
redaction bit is clear, the text written with the bit set and the text
written with the bit clear have the same bytes before and after the value of
the member `message`; that value is the escaped message with the bit clear
and, with the bit set, the marker `[redacted]` when the record has a message
and `null` when it has none; the common text after the value holds the
member `fingerprint`, computed from the unredacted record. -/
theorem C10_message_redaction (tabs : xmllintOptTables) (lint : xmllintState)
    (error : xmlError) (filename : Option CStr) (env : Env)
    (hclear : lint.errorRedactFlags &&& XMLLINT_REDACT_MESSAGE = 0) :
    ∃ pre post : List Nat,
      xmllintWriteJsonError tabs lint error filename env =
        pre ++ xmllintJsonEscape error.message ++ post ∧
      xmllintWriteJsonError tabs (redactMessage lint) error filename env =
        pre ++ xmllintJsonEscape (error.message.map (fun _ => lit "[redacted]")) ++ post ∧
      jsonTopLevelKeys pre =
        [lit "schema_version", lit "file", lit "domain", lit "code", lit "level",
         lit "line", lit "column", lit "message"] ∧
      xmllintJsonKey lint.errorJsonPretty (if lint.errorJsonPretty ≠ 0 then 1 else 0)
        (lit "message") <:+ pre ∧
      post.head? = some 44 ∧
      xmllintJsonAddFingerprint lint.errorJsonPretty
        (if lint.errorJsonPretty ≠ 0 then 1 else 0) (lit "fingerprint") error <:+: post := by
  refine ⟨jsonErrorHead lint error filename, jsonErrorTail tabs lint error env,
    ?_, ?_, keys_jsonErrorHead lint error filename, ?_, rfl, ?_⟩
  · rw [writeJsonError_split]
    have : xmllintRedactValue lint XMLLINT_REDACT_MESSAGE error.message = error.message := by
      cases error.message with
      | none => rfl
      | some m => simp only [xmllintRedactValue, hclear, if_true]
    rw [this]
  · rw [writeJsonError_split, redactMessage_head, redactMessage_tail,
      redactMessage_message]
  · exact ⟨_, rfl⟩
  · dsimp only [jsonErrorTail]
    exact (List.infix_append _ _ _).trans (List.suffix_append _ _).isInfix

/-- Witness for C10: a record with the message `mismatched tag`, pretty
printing off, no redaction bit set before. -/
theorem C10_message_redaction_witness :
    jsonState.errorRedactFlags &&& XMLLINT_REDACT_MESSAGE = 0 ∧
    ∃ pre post : List Nat,
      xmllintWriteJsonError exampleOptTables jsonState
          (mkError 1 201 2 "mismatched tag" (some "parsing")) (some (lit "a.xml"))
          (envAt ⟨100, 0⟩) =
        pre ++ xmllintJsonEscape (some (lit "mismatched tag")) ++ post ∧
      xmllintWriteJsonError exampleOptTables (redactMessage jsonState)
          (mkError 1 201 2 "mismatched tag" (some "parsing")) (some (lit "a.xml"))
          (envAt ⟨100, 0⟩) =
        pre ++ xmllintJsonEscape (some (lit "[redacted]")) ++ post ∧
      jsonTopLevelKeys pre =
        [lit "schema_version", lit "file", lit "domain", lit "code", lit "level",
         lit "line", lit "column", lit "message"] ∧
      xmllintJsonKey 0 0 (lit "message") <:+ pre ∧
      post.head? = some 44 ∧
      xmllintJsonAddFingerprint 0 0 (lit "fingerprint")
        (mkError 1 201 2 "mismatched tag" (some "parsing")) <:+: post :=
  ⟨by decide,
   C10_message_redaction exampleOptTables jsonState
     (mkError 1 201 2 "mismatched tag" (some "parsing")) (some (lit "a.xml"))
     (envAt ⟨100, 0⟩) (by decide)⟩

theorem withRedact_statsAddDomain (f : Nat) (lint : xmllintState) (error : xmlError) :
    statsAddDomain (withRedact f lint) error = withRedact f (statsAddDomain lint error) := by
  unfold statsAddDomain withRedact; split <;> rfl

theorem withRedact_statsAddLevel (f : Nat) (lint : xmllintState) (error : xmlError) :
    statsAddLevel (withRedact f lint) error = withRedact f (statsAddLevel lint error) := by
  unfold statsAddLevel withRedact; split <;> rfl

theorem withRedact_growCodeCounts (f : Nat) (lint : xmllintState) :
    growCodeCounts (withRedact f lint) = withRedact f (growCodeCounts lint) := by
  unfold growCodeCounts withRedact; split <;> rfl

theorem withRedact_growStageCounts (f : Nat) (lint : xmllintState) :
    growStageCounts (withRedact f lint) = withRedact f (growStageCounts lint) := by
  unfold growStageCounts withRedact; split <;> rfl

theorem withRedact_stageAdd (f : Nat) (lint : xmllintState) (error : xmlError) (env : Env) :
    xmllintErrorStageAdd (withRedact f lint) error env =
      withRedact f (xmllintErrorStageAdd lint error env) := by
  unfold xmllintErrorStageAdd
  simp only [withRedact_growStageCounts]
  have h1 : (withRedact f lint).errorStageCounts = lint.errorStageCounts := rfl
  have h2 : (withRedact f lint).errorStageCountsSize = lint.errorStageCountsSize := rfl
  have h3 : (withRedact f lint).errorStatsStart = lint.errorStatsStart := rfl
  simp only [h1, h2, h3]
  cases stageLoop (match error.str3 with
      | some s => s
      | none => lit "unknown")
      (xmllintTimeDiffMs lint.errorStatsStart env.now) lint.errorStageCounts with
  | some t => rfl
  | none =>
    dsimp only
    by_cases hfull : lint.errorStageCounts.length = lint.errorStageCountsSize ∧
        env.stageRealloc = false
    · rw [if_pos hfull, if_pos hfull]
    · rw [if_neg hfull, if_neg hfull]
      by_cases hd : env.stageStrdup = false
      · rw [if_pos hd, if_pos hd]
      · rw [if_neg hd, if_neg hd]; rfl

theorem withRedact_statsAdd (f : Nat) (lint : xmllintState) (error : xmlError) (env : Env) :
    xmllintErrorStatsAdd (withRedact f lint) error env =
      withRedact f (xmllintErrorStatsAdd lint error env) := by
  unfold xmllintErrorStatsAdd
  simp only [withRedact_statsAddDomain, withRedact_statsAddLevel, withRedact_growCodeCounts]
  generalize statsAddLevel (statsAddDomain lint error) error = l1
  have h1 : (withRedact f l1).errorCodeCounts = l1.errorCodeCounts := rfl
  have h2 : (withRedact f l1).errorCodeCountsSize = l1.errorCodeCountsSize := rfl
  simp only [h1, h2]
  cases codeLoop error.code l1.errorCodeCounts with
  | some t => rfl
  | none =>
    dsimp only
    by_cases hfull : l1.errorCodeCounts.length = l1.errorCodeCountsSize ∧
        env.codeRealloc = false
    · rw [if_pos hfull, if_pos hfull]
    · rw [if_neg hfull, if_neg hfull, ← withRedact_stageAdd]
      rfl

theorem withRedact_statsRun (f : Nat) (events : List (xmlError × Env)) (lint : xmllintState) :
    statsRun (withRedact f lint) events = withRedact f (statsRun lint events) := by
  induction events generalizing lint with
  | nil => rfl
  | cons ev rest ih =>
    simp only [statsRun, List.foldl_cons] at ih ⊢
    rw [withRedact_statsAdd, ih]

theorem structuredError_eq (tabs : xmllintOptTables) (lint : xmllintState)
    (error : xmlError) (env : Env) :
    xmllintStructuredError tabs lint (some error) env =
      handlerBlocks tabs (xmllintErrorStatsAdd lint error env) error env := by
  unfold xmllintStructuredError handlerBlocks handlerJson handlerXml
  dsimp only
  generalize xmllintErrorStatsAdd lint error env = l
  have hlim : (decide (l.errorJsonLimit > 0 ∧ l.errorJsonCount ≥ l.errorJsonLimit)) =
      emissionLimited l := rfl
  rw [hlim]
  cases hL : emissionLimited l
  · simp only [Bool.false_eq_true, if_false, true_and]
    by_cases hj : l.errorJson = 0
    · by_cases hs : l.errorSyslog = 0
      · by_cases hx : l.errorXml = 0
        · simp only [hj, hs, hx, and_self, if_true, ne_eq, not_true_eq_false, if_false,
            List.append_nil]
        · simp only [hj, hs, hx, and_false, and_self, if_false, ne_eq, not_true_eq_false,
            not_false_eq_true, if_true, List.nil_append, List.append_nil]
      · simp only [hj, hs, and_false, false_and, if_false, ne_eq, not_true_eq_false,
          not_false_eq_true, if_true, List.nil_append]
    · simp only [hj, false_and, if_false, ne_eq, not_false_eq_true, if_true]
  · simp only [if_true, true_and, Bool.true_eq_false, false_and, if_false, ne_eq,
      not_true_eq_false, List.append_nil, List.nil_append]
    by_cases hx : l.errorXml = 0
    · simp only [hx, if_true, not_true_eq_false, if_false]
    · simp only [hx, if_false, not_false_eq_true, if_true, List.nil_append, List.append_nil]

theorem handlerJson_withRedact (tabs : xmllintOptTables) (f : Nat) (l : xmllintState)
    (e : xmlError) (env : Env) :
    (handlerJson tabs (withRedact f l) e env).1 =
      withRedact f (handlerJson tabs l e env).1 := by
  unfold handlerJson
  dsimp only
  have h : (withRedact f l).errorJsonArray = l.errorJsonArray := rfl
  rw [h]
  by_cases ha : l.errorJsonArray = 0
  · rw [if_neg (not_not.mpr ha), if_neg (not_not.mpr ha)]; rfl
  · rw [if_pos ha, if_pos ha]; rfl

theorem handlerBlocks_withRedact (tabs : xmllintOptTables) (f : Nat) (l : xmllintState)
    (e : xmlError) (env : Env) :
    (handlerBlocks tabs (withRedact f l) e env).1 =
      withRedact f (handlerBlocks tabs l e env).1 := by
  unfold handlerBlocks
  dsimp only
  have h1 : emissionLimited (withRedact f l) = emissionLimited l := rfl
  have h2 : (withRedact f l).errorJson = l.errorJson := rfl
  rw [h1, h2]
  by_cases hc : emissionLimited l = false ∧ l.errorJson ≠ 0
  · rw [if_pos hc, if_pos hc]; exact handlerJson_withRedact tabs f l e env
  · rw [if_neg hc, if_neg hc]

theorem withRedact_parseEvents (tabs : xmllintOptTables) (f : Nat)
    (events : List (xmlError × Env)) (lint : xmllintState) :
    (xmllintParseEvents tabs events (withRedact f lint)).1 =
      withRedact f (xmllintParseEvents tabs events lint).1 := by
  induction events generalizing lint with
  | nil => rfl
  | cons ev rest ih =>
    obtain ⟨e, env⟩ := ev
    simp only [xmllintParseEvents]
    rw [structuredError_eq, structuredError_eq, withRedact_statsAdd,
      handlerBlocks_withRedact, ih]

theorem stageLoop_names (stage : CStr) (msec : Int) (t t2 : List xmllintStageCount)
    (h : stageLoop stage msec t = some t2) :
    t2.map (fun s => s.name) = t.map (fun s => s.name) := by
  induction t generalizing t2 with
  | nil => simp [stageLoop] at h
  | cons s rest ih =>
    unfold stageLoop at h
    by_cases hs : s.name = stage
    · rw [if_pos hs] at h
      cases h
      rfl
    · rw [if_neg hs] at h
      cases hr : stageLoop stage msec rest with
      | none => rw [hr] at h; cases h
      | some t3 =>
        rw [hr] at h
        cases h
        simp only [List.map_cons, ih t3 hr]

theorem growStageCounts_stageCounts (l : xmllintState) :
    (growStageCounts l).errorStageCounts = l.errorStageCounts := by
  unfold growStageCounts; split <;> rfl

theorem stageAdd_names (l : xmllintState) (e : xmlError) (env : Env) (s : CStr)
    (hs : s ∈ (xmllintErrorStageAdd l e env).errorStageCounts.map (fun c => c.name)) :
    s ∈ l.errorStageCounts.map (fun c => c.name) ∨ s = errorStage e := by
  unfold xmllintErrorStageAdd at hs
  dsimp only at hs
  have hst : (match e.str3 with
      | some s => s
      | none => lit "unknown") = errorStage e := rfl
  rw [hst] at hs
  cases hl : stageLoop (errorStage e) (xmllintTimeDiffMs l.errorStatsStart env.now)
      l.errorStageCounts with
  | some t =>
    rw [hl] at hs
    dsimp only at hs
    rw [stageLoop_names _ _ _ _ hl] at hs
    exact Or.inl hs
  | none =>
    rw [hl] at hs
    dsimp only at hs
    by_cases hfull : l.errorStageCounts.length = l.errorStageCountsSize ∧
        env.stageRealloc = false
    · rw [if_pos hfull] at hs; exact Or.inl hs
    · rw [if_neg hfull] at hs
      by_cases hd : env.stageStrdup = false
      · rw [if_pos hd, growStageCounts_stageCounts] at hs; exact Or.inl hs
      · rw [if_neg hd] at hs
        dsimp only at hs
        rw [growStageCounts_stageCounts, List.map_append, List.mem_append] at hs
        rcases hs with h | h
        · exact Or.inl h
        · right; simpa using h

theorem statsAddDomain_stageCounts (l : xmllintState) (e : xmlError) :
    (statsAddDomain l e).errorStageCounts = l.errorStageCounts := by
  unfold statsAddDomain; split <;> rfl

theorem statsAddLevel_stageCounts (l : xmllintState) (e : xmlError) :
    (statsAddLevel l e).errorStageCounts = l.errorStageCounts := by
  unfold statsAddLevel; split <;> rfl

theorem growCodeCounts_stageCounts (l : xmllintState) :
    (growCodeCounts l).errorStageCounts = l.errorStageCounts := by
  unfold growCodeCounts; split <;> rfl

theorem statsAdd_names (l : xmllintState) (e : xmlError) (env : Env) (s : CStr)
    (hs : s ∈ (xmllintErrorStatsAdd l e env).errorStageCounts.map (fun c => c.name)) :
    s ∈ l.errorStageCounts.map (fun c => c.name) ∨ s = errorStage e := by
  have h0 : (statsAddLevel (statsAddDomain l e) e).errorStageCounts = l.errorStageCounts := by
    rw [statsAddLevel_stageCounts, statsAddDomain_stageCounts]
  unfold xmllintErrorStatsAdd at hs
  dsimp only at hs
  generalize statsAddLevel (statsAddDomain l e) e = l1 at h0 hs
  cases hl : codeLoop e.code l1.errorCodeCounts with
  | some t =>
    rw [hl] at hs
    dsimp only at hs
    rw [h0] at hs
    exact Or.inl hs
  | none =>
    rw [hl] at hs
    dsimp only at hs
    by_cases hfull : l1.errorCodeCounts.length = l1.errorCodeCountsSize ∧
        env.codeRealloc = false
    · rw [if_pos hfull, h0] at hs; exact Or.inl hs
    · rw [if_neg hfull] at hs
      have := stageAdd_names _ e env s hs
      dsimp only at this
      rw [growCodeCounts_stageCounts, h0] at this
      exact this

theorem statsRun_names (events : List (xmlError × Env)) (l : xmllintState) (s : CStr)
    (hs : s ∈ (statsRun l events).errorStageCounts.map (fun c => c.name)) :
    s ∈ l.errorStageCounts.map (fun c => c.name) ∨ ∃ ev ∈ events, s = errorStage ev.1 := by
  induction events generalizing l with
  | nil => exact Or.inl hs
  | cons ev rest ih =>
    simp only [statsRun, List.foldl_cons] at hs ih
    rcases ih _ hs with h | ⟨ev2, hm, h⟩
    · rcases statsAdd_names l ev.1 ev.2 s h with h2 | h2
      · exact Or.inl h2
      · exact Or.inr ⟨ev, List.mem_cons_self _ _, h2⟩
    · exact Or.inr ⟨ev2, List.mem_cons_of_mem _ hm, h⟩

/-- C11: the statistics recorded by the handler do not depend on the
redaction flags.  For every sequence of events and any two values `f1`,
`f2` of the flag set, the level, domain, code and stage tables after the
statistics of the sequence are the same, as they are after the whole
handler has run on the sequence; the names of the stage table are those of
the initial table and the unredacted `str3` of the events (`unknown` when
it is absent); and whatever the flags, the fingerprint member written in
the JSON object is the one computed from the record as reported, the
fingerprint function having no access to the flags. -/
theorem C11_redaction_output_only (tabs : xmllintOptTables) (lint : xmllintState)
    (events : List (xmlError × Env)) (f1 f2 : Nat) :
    ((statsRun (withRedact f1 lint) events).errorLevelCounts =
        (statsRun (withRedact f2 lint) events).errorLevelCounts ∧
      (statsRun (withRedact f1 lint) events).errorDomainCounts =
        (statsRun (withRedact f2 lint) events).errorDomainCounts ∧
      (statsRun (withRedact f1 lint) events).errorCodeCounts =
        (statsRun (withRedact f2 lint) events).errorCodeCounts ∧
      (statsRun (withRedact f1 lint) events).errorStageCounts =
        (statsRun (withRedact f2 lint) events).errorStageCounts) ∧
    ((xmllintParseEvents tabs events (withRedact f1 lint)).1.errorLevelCounts =
        (xmllintParseEvents tabs events (withRedact f2 lint)).1.errorLevelCounts ∧
      (xmllintParseEvents tabs events (withRedact f1 lint)).1.errorDomainCounts =
        (xmllintParseEvents tabs events (withRedact f2 lint)).1.errorDomainCounts ∧
      (xmllintParseEvents tabs events (withRedact f1 lint)).1.errorCodeCounts =
        (xmllintParseEvents tabs events (withRedact f2 lint)).1.errorCodeCounts ∧
      (xmllintParseEvents tabs events (withRedact f1 lint)).1.errorStageCounts =
        (xmllintParseEvents tabs events (withRedact f2 lint)).1.errorStageCounts) ∧
    (∀ s ∈ (statsRun (withRedact f1 lint) events).errorStageCounts.map (fun c => c.name),
      s ∈ lint.errorStageCounts.map (fun c => c.name) ∨
        ∃ ev ∈ events, s = errorStage ev.1) ∧
    (∀ (error : xmlError) (filename : Option CStr) (env : Env),
      xmllintJsonAddFingerprint lint.errorJsonPretty
          (if lint.errorJsonPretty ≠ 0 then 1 else 0) (lit "fingerprint") error <:+:
        xmllintWriteJsonError tabs (withRedact f1 lint) error filename env ∧
      xmllintJsonAddFingerprint lint.errorJsonPretty
          (if lint.errorJsonPretty ≠ 0 then 1 else 0) (lit "fingerprint") error <:+:
        xmllintWriteJsonError tabs (withRedact f2 lint) error filename env) := by
  have hfp : ∀ (f : Nat) (error : xmlError) (filename : Option CStr) (env : Env),
      xmllintJsonAddFingerprint lint.errorJsonPretty
          (if lint.errorJsonPretty ≠ 0 then 1 else 0) (lit "fingerprint") error <:+:
        xmllintWriteJsonError tabs (withRedact f lint) error filename env := by
    intro f error filename env
    rw [writeJsonError_split]
    have : xmllintJsonAddFingerprint lint.errorJsonPretty
          (if lint.errorJsonPretty ≠ 0 then 1 else 0) (lit "fingerprint") error <:+:
        jsonErrorTail tabs (withRedact f lint) error env := by
      dsimp only [jsonErrorTail]
      exact (List.infix_append _ _ _).trans (List.suffix_append _ _).isInfix
    exact this.trans (List.suffix_append _ _).isInfix
  refine ⟨?_, ?_, ?_, fun error filename env =>
    ⟨hfp f1 error filename env, hfp f2 error filename env⟩⟩
  · rw [withRedact_statsRun f1, withRedact_statsRun f2]
    exact ⟨rfl, rfl, rfl, rfl⟩
  · rw [withRedact_parseEvents tabs f1, withRedact_parseEvents tabs f2]
    exact ⟨rfl, rfl, rfl, rfl⟩
  · intro s hs
    exact statsRun_names events (withRedact f1 lint) s hs

theorem mainFile_eq_repeat (tabs : xmllintOptTables) (lint : xmllintState)
    (filename : CStr) (fopen : CStr → Option (List Nat)) (now : xmlTime)
    (events : List (xmlError × Env)) :
    xmllintMainFile tabs lint filename fopen now events =
      xmllintMainRepeat tabs lint filename fopen [(now, events)] := by
  simp only [xmllintMainFile, xmllintMainRepeat, xmllintRepeatLoop, xmllintRepeatPass,
    xmllintRepeatStart, List.append_nil]

theorem foldl_fnvStep_mod (b : List Nat) (hb : ∀ c ∈ b, c < 256) (h : Nat) :
    b.foldl (fun h c => fnvStep h (c % 256)) h = b.foldl fnvStep h := by
  induction b generalizing h with
  | nil => simp only [List.foldl_nil]
  | cons c rest ih =>
    simp only [List.foldl_cons]
    rw [Nat.mod_eq_of_lt (hb c (List.mem_cons_self _ _))]
    exact ih (fun x hx => hb x (List.mem_cons_of_mem _ hx)) _

/-- C17: for a path other than the sentinel `-` that names a file which
can be opened, with content `b` (bytes below 256), `xmllintChecksumFile`
stores 1 in `*ok` and returns the 64-bit FNV-1a hash of `b`; so any other
path and file system state with the same content gives the same result,
and the empty file gives the offset basis. -/
theorem C17_checksum_is_fnv1a (fopen : CStr → Option (List Nat)) (name : CStr)
    (b : List Nat) (hname : name ≠ lit "-") (hopen : fopen name = some b)
    (hbytes : ∀ c ∈ b, c < 256) :
    xmllintChecksumFile fopen (some name) = (fnv1a64 b, 1) ∧
    (∀ (fopen2 : CStr → Option (List Nat)) (name2 : CStr), name2 ≠ lit "-" →
      fopen2 name2 = some b →
      xmllintChecksumFile fopen2 (some name2) = xmllintChecksumFile fopen (some name)) ∧
    (b = [] → xmllintChecksumFile fopen (some name) = (1469598103934665603, 1)) := by
  have key : ∀ (fo : CStr → Option (List Nat)) (n : CStr), n ≠ lit "-" →
      fo n = some b → xmllintChecksumFile fo (some n) = (fnv1a64 b, 1) := by
    intro fo n hn ho
    unfold xmllintChecksumFile
    simp only [hn, if_false, ho]
    rw [foldl_fnvStep_mod b hbytes, fnv1a64_eq_foldl]
  refine ⟨key fopen name hname hopen, ?_, ?_⟩
  · intro fopen2 name2 hn2 ho2
    rw [key fopen2 name2 hn2 ho2, key fopen name hname hopen]
  · intro hb
    rw [key fopen name hname hopen, hb]
    rfl

/-- Witness for C17: the file `a.xml` with the content `<a/>`. -/
theorem C17_checksum_is_fnv1a_witness :
    lit "a.xml" ≠ lit "-" ∧
    xmllintChecksumFile (fun n => if n = lit "a.xml" then some (lit "<a/>") else none)
      (some (lit "a.xml")) = (fnv1a64 (lit "<a/>"), 1) :=
  ⟨by decide,
   (C17_checksum_is_fnv1a (fun n => if n = lit "a.xml" then some (lit "<a/>") else none)
     (lit "a.xml") (lit "<a/>") (by decide) (by decide) (by decide)).1⟩

/-- C18: `xmllintChecksumFile` returns 0 and stores 0 in `*ok` exactly when
the path is `NULL`, is the string `-`, or names a file that cannot be
opened; in every other case it stores 1 in `*ok`.  With the flag clear the
checksum member is written as `null`, whatever the checksum value, to a
stream and to a buffer. -/
theorem C18_checksum_invalid_cases (fopen : CStr → Option (List Nat))
    (filename : Option CStr) :
    (xmllintChecksumFile fopen filename = (0, 0) ↔
      (filename = none ∨ filename = some (lit "-") ∨
        ∃ name, filename = some name ∧ fopen name = none)) ∧
    ((xmllintChecksumFile fopen filename).2 = 0 ↔
      (filename = none ∨ filename = some (lit "-") ∨
        ∃ name, filename = some name ∧ fopen name = none)) ∧
    (¬ (filename = none ∨ filename = some (lit "-") ∨
        ∃ name, filename = some name ∧ fopen name = none) →
      (xmllintChecksumFile fopen filename).2 = 1) ∧
    ((xmllintChecksumFile fopen filename).2 = 0 →
      (∀ (pretty : Int) (level : Nat) (key : CStr),
        xmllintJsonAddChecksum pretty level key (xmllintChecksumFile fopen filename).2
            (xmllintChecksumFile fopen filename).1 =
          [44] ++ xmllintJsonKey pretty level key ++ lit "null") ∧
      (∀ (env : Env) (buf : List Nat) (key : CStr), BufferAddOk env →
        xmllintBufAddChecksum env buf key (xmllintChecksumFile fopen filename).2
            (xmllintChecksumFile fopen filename).1 =
          (true, buf ++ lit "," ++ xmllintJsonEscape (some key) ++ lit ":" ++ lit "null"))) := by
  have hcases : (xmllintChecksumFile fopen filename = (0, 0) ∧
        (filename = none ∨ filename = some (lit "-") ∨
          ∃ name, filename = some name ∧ fopen name = none)) ∨
      ((xmllintChecksumFile fopen filename).2 = 1 ∧
        ¬ (filename = none ∨ filename = some (lit "-") ∨
          ∃ name, filename = some name ∧ fopen name = none)) := by
    unfold xmllintChecksumFile
    cases filename with
    | none => exact Or.inl ⟨rfl, Or.inl rfl⟩
    | some name =>
      dsimp only
      by_cases hn : name = lit "-"
      · rw [if_pos hn]
        exact Or.inl ⟨rfl, Or.inr (Or.inl (by rw [hn]))⟩
      · rw [if_neg hn]
        cases ho : fopen name with
        | none => exact Or.inl ⟨rfl, Or.inr (Or.inr ⟨name, rfl, ho⟩)⟩
        | some bytes =>
          refine Or.inr ⟨rfl, ?_⟩
          rintro (h | h | ⟨n2, h, h2⟩)
          · cases h
          · cases h; exact hn rfl
          · cases h; rw [ho] at h2; cases h2
  refine ⟨?_, ?_, ?_, ?_⟩
  · rcases hcases with ⟨h1, h2⟩ | ⟨h1, h2⟩
    · exact ⟨fun _ => h2, fun _ => h1⟩
    · constructor
      · intro h; rw [h] at h1; exact absurd h1 (by decide)
      · intro h; exact absurd h h2
  · rcases hcases with ⟨h1, h2⟩ | ⟨h1, h2⟩
    · exact ⟨fun _ => h2, fun _ => by rw [h1]⟩
    · constructor
      · intro h; rw [h] at h1; exact absurd h1 (by decide)
      · intro h; exact absurd h h2
  · intro hne
    rcases hcases with ⟨_, h2⟩ | ⟨h1, _⟩
    · exact absurd h2 hne
    · exact h1
  · intro hz
    rw [hz]
    refine ⟨fun pretty level key => rfl, fun env buf key hok => ?_⟩
    unfold xmllintBufAddChecksum xmllintBufAddKey
    simp only [bufAdd_ok env hok, bufSeq, if_true, bufEscape_ok env hok]
    rfl

/-- Witness for C18: the sentinel `-` gives 0 with the flag clear even when
a file of that name can be opened, and a file that can be opened under
another name gives the flag set. -/
theorem C18_checksum_invalid_cases_witness :
    xmllintChecksumFile (fun _ => some (lit "<a/>")) (some (lit "-")) = (0, 0) ∧
    (xmllintChecksumFile (fun _ => some (lit "<a/>")) (some (lit "a.xml"))).2 = 1 :=
  ⟨(C18_checksum_invalid_cases (fun _ => some (lit "<a/>")) (some (lit "-"))).1.mpr
     (Or.inr (Or.inl rfl)),
   (C18_checksum_invalid_cases (fun _ => some (lit "<a/>")) (some (lit "a.xml"))).2.2.1
     (by
       rintro (h | h | ⟨n, _, h⟩)
       · cases h
       · exact absurd h (by decide)
       · cases h)⟩

theorem statsRun_distinct_codes (lint : xmllintState) (events : List (xmlError × Env))
    (h0 : lint.errorCodeCounts = [])
    (halloc : ∀ ev ∈ events, ev.2.codeRealloc = true)
    (hdist : (events.map (fun ev => ev.1.code)).Nodup) :
    (statsRun lint events).errorCodeCounts =
      events.map (fun ev => (⟨ev.1.code, 1⟩ : xmllintCodeCount)) := by
  induction events using List.reverseRecOn with
  | nil => simp only [statsRun, List.foldl_nil, h0, List.map_nil]
  | append_singleton evs ev ih =>
    have hall : ∀ e ∈ evs, e.2.codeRealloc = true :=
      fun e he => halloc e (List.mem_append_left _ he)
    rw [List.map_append, List.nodup_append] at hdist
    obtain ⟨hd1, -, hd3⟩ := hdist
    have ih1 := ih hall hd1
    rw [statsRun_append]
    simp only [statsRun, List.foldl_cons, List.foldl_nil] at ih1 ⊢
    rw [statsAdd_codeCounts _ _ _ (halloc ev (List.mem_append_right _ (List.mem_singleton_self _))),
      ih1]
    have hnot : ev.1.code ∉ (evs.map (fun ev => (⟨ev.1.code, 1⟩ : xmllintCodeCount))).map
        (fun e => e.code) := by
      rw [List.map_map]
      intro hmem
      exact hd3 hmem (List.mem_singleton_self _)
    unfold addCode
    rw [codeLoop_eq_none _ _ hnot]
    simp only [List.map_append, List.map_cons, List.map_nil]

/-- C19: from any state, after `xmllintErrorStatsReset` and the recording
of `k` records whose codes are pairwise distinct, the reallocation of the
code table succeeding whenever it is asked, the code table has exactly `k`
entries, one per record in order of arrival, each with the count 1; a
further `xmllintErrorStatsReset` leaves the four level counts and the
`XML_FROM_URI + 1` domain counts at 0 and the code and stage tables with
no entry. -/
theorem C19_reset_then_distinct_codes (lint : xmllintState) (now now2 : xmlTime)
    (events : List (xmlError × Env))
    (halloc : ∀ ev ∈ events, ev.2.codeRealloc = true)
    (hdist : (events.map (fun ev => ev.1.code)).Nodup) :
    (statsRun (xmllintErrorStatsReset lint now) events).errorCodeCounts.length =
      events.length ∧
    (∀ e ∈ (statsRun (xmllintErrorStatsReset lint now) events).errorCodeCounts,
      e.count = 1) ∧
    (statsRun (xmllintErrorStatsReset lint now) events).errorCodeCounts.map
      (fun e => e.code) = events.map (fun ev => ev.1.code) ∧
    (xmllintErrorStatsReset
      (statsRun (xmllintErrorStatsReset lint now) events) now2).errorLevelCounts =
        [0, 0, 0, 0] ∧
    (∀ c ∈ (xmllintErrorStatsReset
      (statsRun (xmllintErrorStatsReset lint now) events) now2).errorDomainCounts, c = 0) ∧
    (xmllintErrorStatsReset
      (statsRun (xmllintErrorStatsReset lint now) events) now2).errorDomainCounts.length =
        (XML_FROM_URI + 1).toNat ∧
    (xmllintErrorStatsReset
      (statsRun (xmllintErrorStatsReset lint now) events) now2).errorCodeCounts = [] ∧
    (xmllintErrorStatsReset
      (statsRun (xmllintErrorStatsReset lint now) events) now2).errorStageCounts = [] := by
  have h := statsRun_distinct_codes (xmllintErrorStatsReset lint now) events rfl halloc hdist
  refine ⟨?_, ?_, ?_, rfl, ?_, ?_, rfl, rfl⟩
  · rw [h, List.length_map]
  · intro e he
    rw [h, List.mem_map] at he
    obtain ⟨ev, -, rfl⟩ := he
    rfl
  · rw [h, List.map_map]
    rfl
  · intro c hc
    exact List.eq_of_mem_replicate hc
  · exact List.length_replicate _ _

/-- Witness for C19: three records with the codes 5, 7 and 9. -/
theorem C19_reset_then_distinct_codes_witness :
    (statsRun (xmllintErrorStatsReset arraySummaryState ⟨100, 0⟩)
      [(mkError 1 5 2 "a" none, envAt ⟨100, 1000⟩),
       (mkError 1 7 2 "b" none, envAt ⟨100, 2000⟩),
       (mkError 1 9 2 "c" none, envAt ⟨100, 3000⟩)]).errorCodeCounts.length = 3 ∧
    (statsRun (xmllintErrorStatsReset arraySummaryState ⟨100, 0⟩)
      [(mkError 1 5 2 "a" none, envAt ⟨100, 1000⟩),
       (mkError 1 7 2 "b" none, envAt ⟨100, 2000⟩),
       (mkError 1 9 2 "c" none, envAt ⟨100, 3000⟩)]).errorCodeCounts =
      [⟨5, 1⟩, ⟨7, 1⟩, ⟨9, 1⟩] :=
  ⟨(C19_reset_then_distinct_codes arraySummaryState ⟨100, 0⟩ ⟨200, 0⟩
      [(mkError 1 5 2 "a" none, envAt ⟨100, 1000⟩),
       (mkError 1 7 2 "b" none, envAt ⟨100, 2000⟩),
       (mkError 1 9 2 "c" none, envAt ⟨100, 3000⟩)] (by decide) (by decide)).1,
   by decide⟩

theorem growCodeCounts_levelDomain (l : xmllintState) :
    levelDomain (growCodeCounts l) = levelDomain l := by
  unfold growCodeCounts; split <;> rfl

theorem growStageCounts_levelDomain (l : xmllintState) :
    levelDomain (growStageCounts l) = levelDomain l := by
  unfold growStageCounts; split <;> rfl

theorem stageAdd_levelDomain (l : xmllintState) (e : xmlError) (env : Env) :
    levelDomain (xmllintErrorStageAdd l e env) = levelDomain l := by
  unfold xmllintErrorStageAdd
  dsimp only
  split
  · rfl
  · split
    · rfl
    · split
      · exact growStageCounts_levelDomain l
      · exact growStageCounts_levelDomain l

theorem statsAdd_levelDomain (l : xmllintState) (e : xmlError) (env : Env) :
    levelDomain (xmllintErrorStatsAdd l e env) =
      levelDomain (statsAddLevel (statsAddDomain l e) e) := by
  unfold xmllintErrorStatsAdd
  dsimp only
  generalize statsAddLevel (statsAddDomain l e) e = l1
  split
  · rfl
  · split
    · rfl
    · exact (stageAdd_levelDomain _ e env).trans (growCodeCounts_levelDomain l1)

theorem statsAdd_levelCounts (l : xmllintState) (e : xmlError) (env : Env) :
    (xmllintErrorStatsAdd l e env).errorLevelCounts =
      if 0 ≤ e.level ∧ e.level ≤ XML_ERR_FATAL then
        incrCount l.errorLevelCounts e.level.toNat
      else l.errorLevelCounts := by
  have h := congrArg Prod.fst (statsAdd_levelDomain l e env)
  simp only [levelDomain] at h
  rw [h]
  unfold statsAddLevel statsAddDomain
  split <;> split <;> rfl

theorem statsAdd_domainCounts (l : xmllintState) (e : xmlError) (env : Env) :
    (xmllintErrorStatsAdd l e env).errorDomainCounts =
      if 0 ≤ e.domain ∧ e.domain ≤ XML_FROM_URI then
        incrCount l.errorDomainCounts e.domain.toNat
      else l.errorDomainCounts := by
  have h := congrArg Prod.snd (statsAdd_levelDomain l e env)
  simp only [levelDomain] at h
  rw [h]
  unfold statsAddLevel statsAddDomain
  split <;> split <;> rfl

theorem incrCount_getD (counts : List Nat) (i j : Nat) (hi : i < counts.length) :
    (incrCount counts i).getD j 0 =
      if j = i then (counts.getD i 0 + 1) % 4294967296 else counts.getD j 0 := by
  unfold incrCount
  simp only [List.getD_eq_getElem?_getD, List.getElem?_set]
  by_cases hji : i = j
  · subst hji
    simp [hi]
  · rw [if_neg hji, if_neg (fun h => hji h.symm)]

theorem incrCount_length (counts : List Nat) (i : Nat) :
    (incrCount counts i).length = counts.length := by
  unfold incrCount; exact List.length_set _ _ _

/-- C20: on the arrays of the state, of 4 level counts and
`XML_FROM_URI + 1` domain counts, `xmllintErrorStatsAdd` adds 1 (modulo
`2 ^ 32`, the type being `unsigned`; exactly 1 below `UINT_MAX`) to the
level count at index `level` when `0 <= level <= 3`, an index inside the
array, and changes no other level count; it leaves the level table as it
is for any other `level`.  The same holds of the domain table with the
bound `XML_FROM_URI`.  The lengths of both tables are unchanged. -/
theorem C20_level_domain_counts (lint : xmllintState) (error : xmlError) (env : Env)
    (hl : lint.errorLevelCounts.length = 4)
    (hd : lint.errorDomainCounts.length = (XML_FROM_URI + 1).toNat) :
    ((0 ≤ error.level ∧ error.level ≤ 3) →
      error.level.toNat < lint.errorLevelCounts.length ∧
      (∀ j, (xmllintErrorStatsAdd lint error env).errorLevelCounts.getD j 0 =
        if j = error.level.toNat then
          (lint.errorLevelCounts.getD j 0 + 1) % 4294967296
        else lint.errorLevelCounts.getD j 0) ∧
      (lint.errorLevelCounts.getD error.level.toNat 0 < 4294967295 →
        (xmllintErrorStatsAdd lint error env).errorLevelCounts.getD error.level.toNat 0 =
          lint.errorLevelCounts.getD error.level.toNat 0 + 1)) ∧
    (¬ (0 ≤ error.level ∧ error.level ≤ 3) →
      (xmllintErrorStatsAdd lint error env).errorLevelCounts = lint.errorLevelCounts) ∧
    (xmllintErrorStatsAdd lint error env).errorLevelCounts.length = 4 ∧
    ((0 ≤ error.domain ∧ error.domain ≤ XML_FROM_URI) →
      error.domain.toNat < lint.errorDomainCounts.length ∧
      (∀ j, (xmllintErrorStatsAdd lint error env).errorDomainCounts.getD j 0 =
        if j = error.domain.toNat then
          (lint.errorDomainCounts.getD j 0 + 1) % 4294967296
        else lint.errorDomainCounts.getD j 0) ∧
      (lint.errorDomainCounts.getD error.domain.toNat 0 < 4294967295 →
        (xmllintErrorStatsAdd lint error env).errorDomainCounts.getD error.domain.toNat 0 =
          lint.errorDomainCounts.getD error.domain.toNat 0 + 1)) ∧
    (¬ (0 ≤ error.domain ∧ error.domain ≤ XML_FROM_URI) →
      (xmllintErrorStatsAdd lint error env).errorDomainCounts = lint.errorDomainCounts) ∧
    (xmllintErrorStatsAdd lint error env).errorDomainCounts.length =
      (XML_FROM_URI + 1).toNat := by
  have hL := statsAdd_levelCounts lint error env
  have hD := statsAdd_domainCounts lint error env
  have hf : XML_ERR_FATAL = 3 := rfl
  have hu : XML_FROM_URI = 30 := rfl
  rw [hf] at hL
  refine ⟨?_, ?_, ?_, ?_, ?_, ?_⟩
  · intro hr
    rw [if_pos hr] at hL
    have hlt : error.level.toNat < lint.errorLevelCounts.length := by rw [hl]; omega
    refine ⟨hlt, ?_, ?_⟩
    · intro j
      rw [hL, incrCount_getD _ _ _ hlt]
      by_cases hj : j = error.level.toNat
      · rw [if_pos hj, if_pos hj, hj]
      · rw [if_neg hj, if_neg hj]
    · intro hlt2
      rw [hL, incrCount_getD _ _ _ hlt, if_pos rfl]
      exact Nat.mod_eq_of_lt (by omega)
  · intro hr
    rw [if_neg hr] at hL
    exact hL
  · rw [hL]
    split
    · rw [incrCount_length, hl]
    · exact hl
  · intro hr
    rw [if_pos hr] at hD
    have hlt : error.domain.toNat < lint.errorDomainCounts.length := by
      rw [hd, hu]; rw [hu] at hr; omega
    refine ⟨hlt, ?_, ?_⟩
    · intro j
      rw [hD, incrCount_getD _ _ _ hlt]
      by_cases hj : j = error.domain.toNat
      · rw [if_pos hj, if_pos hj, hj]
      · rw [if_neg hj, if_neg hj]
    · intro hlt2
      rw [hD, incrCount_getD _ _ _ hlt, if_pos rfl]
      exact Nat.mod_eq_of_lt (by omega)
  · intro hr
    rw [if_neg hr] at hD
    exact hD
  · rw [hD]
    split
    · rw [incrCount_length, hd]
    · exact hd

/-- Witness for C20: a warning of domain 1 recorded in the initial state,
and a record whose level and domain are out of range. -/
theorem C20_level_domain_counts_witness :
    jsonState.errorLevelCounts.length = 4 ∧
    jsonState.errorDomainCounts.length = (XML_FROM_URI + 1).toNat ∧
    (xmllintErrorStatsAdd jsonState (mkError 1 5 1 "a" none)
      (envAt ⟨100, 0⟩)).errorLevelCounts.getD 1 0 = 1 ∧
    (xmllintErrorStatsAdd jsonState (mkError 31 5 4 "a" none)
      (envAt ⟨100, 0⟩)).errorLevelCounts = jsonState.errorLevelCounts ∧
    (xmllintErrorStatsAdd jsonState (mkError 31 5 4 "a" none)
      (envAt ⟨100, 0⟩)).errorDomainCounts = jsonState.errorDomainCounts ∧
    (xmllintErrorStatsAdd jsonState (mkError (-1) 5 (-1) "a" none)
      (envAt ⟨100, 0⟩)).errorDomainCounts = jsonState.errorDomainCounts :=
  ⟨by decide, by decide,
   ((C20_level_domain_counts jsonState (mkError 1 5 1 "a" none) (envAt ⟨100, 0⟩)
      (by decide) (by decide)).1 (by decide)).2.2 (by decide),
   (C20_level_domain_counts jsonState (mkError 31 5 4 "a" none) (envAt ⟨100, 0⟩)
      (by decide) (by decide)).2.1 (by decide),
   (C20_level_domain_counts jsonState (mkError 31 5 4 "a" none) (envAt ⟨100, 0⟩)
      (by decide) (by decide)).2.2.2.2.1 (by decide),
   (C20_level_domain_counts jsonState (mkError (-1) 5 (-1) "a" none) (envAt ⟨100, 0⟩)
      (by decide) (by decide)).2.2.2.2.1 (by decide)⟩

theorem mask_byte (x : Nat) : x &&& 0xFF = x % 256 :=
  Nat.and_pow_two_sub_one_eq_mod x 8

theorem cbor_initial_byte : ∀ m < 8, ∀ v < 32,
    fputc ((m <<< 5) % 4294967296 ||| v) = m * 32 + v := by
  decide

theorem bigEndianValue_append (a b : List Nat) :
    bigEndianValue (a ++ b) = bigEndianValue a * 256 ^ b.length + bigEndianValue b := by
  unfold bigEndianValue
  induction b using List.reverseRecOn with
  | nil => simp
  | append_singleton bs x ih =>
    rw [← List.append_assoc, List.foldl_append, List.foldl_cons, List.foldl_nil, ih,
      List.foldl_append, List.foldl_cons, List.foldl_nil, List.length_append,
      List.length_singleton, pow_succ]
    ring

theorem bigEndianBytes_length (n v : Nat) : (bigEndianBytes n v).length = n := by
  induction n generalizing v with
  | zero => rfl
  | succ n ih => simp [bigEndianBytes, ih]

theorem bigEndianBytes_lt (n v : Nat) : ∀ b ∈ bigEndianBytes n v, b < 256 := by
  induction n generalizing v with
  | zero => intro b hb; cases hb
  | succ n ih =>
    intro b hb
    simp only [bigEndianBytes, List.mem_append, List.mem_singleton] at hb
    rcases hb with hb | hb
    · exact ih _ b hb
    · rw [hb]; exact Nat.mod_lt _ (by decide)

theorem bigEndianValue_bytes (n v : Nat) (h : v < 256 ^ n) :
    bigEndianValue (bigEndianBytes n v) = v := by
  induction n generalizing v with
  | zero =>
    simp only [pow_zero, Nat.lt_one_iff] at h
    rw [h]; rfl
  | succ n ih =>
    simp only [bigEndianBytes]
    rw [bigEndianValue_append, ih (v / 256) (by
      rw [pow_succ] at h
      exact Nat.div_lt_of_lt_mul (by rw [Nat.mul_comm]; exact h))]
    simp only [List.length_singleton, pow_one, bigEndianValue, List.foldl_cons,
      List.foldl_nil, zero_mul, zero_add]
    exact Nat.div_add_mod' v 256

theorem bigEndianValue_lt (l : List Nat) (h : ∀ b ∈ l, b < 256) :
    bigEndianValue l < 256 ^ l.length := by
  induction l using List.reverseRecOn with
  | nil => simp [bigEndianValue]
  | append_singleton bs x ih =>
    rw [bigEndianValue_append, List.length_append, List.length_singleton, pow_one, pow_succ]
    have h1 := ih (fun b hb => h b (List.mem_append_left _ hb))
    have h2 := h x (List.mem_append_right _ (List.mem_singleton_self _))
    have e1 : bigEndianValue [x] = x := by simp [bigEndianValue]
    rw [e1]
    generalize 256 ^ bs.length = P at h1 ⊢
    omega

theorem bigEndianBytes_one (v : Nat) : bigEndianBytes 1 v = [v % 256] := rfl

theorem bigEndianBytes_two (v : Nat) : bigEndianBytes 2 v = [v / 256 % 256, v % 256] := rfl

theorem bigEndianBytes_four (v : Nat) :
    bigEndianBytes 4 v =
      [v / 16777216 % 256, v / 65536 % 256, v / 256 % 256, v % 256] := by
  simp [bigEndianBytes, Nat.div_div_eq_div_mul]

theorem bigEndianBytes_eight (v : Nat) :
    bigEndianBytes 8 v =
      [v / 72057594037927936 % 256, v / 281474976710656 % 256, v / 1099511627776 % 256,
       v / 4294967296 % 256, v / 16777216 % 256, v / 65536 % 256, v / 256 % 256,
       v % 256] := by
  simp [bigEndianBytes, Nat.div_div_eq_div_mul]

theorem fputc_shift (v k : Nat) : fputc ((v >>> k) &&& 0xFF) = v / 2 ^ k % 256 := by
  rw [mask_byte, Nat.shiftRight_eq_div_pow, fputc, Nat.mod_mod]

theorem fputc_mask (v : Nat) : fputc (v &&& 0xFF) = v % 256 := by
  rw [mask_byte, fputc, Nat.mod_mod]

theorem cborWriteType_eq_spec (m v : Nat) (hm : m < 8) :
    xmllintCborWriteType m v = cborHeadSpec m v := by
  unfold xmllintCborWriteType cborHeadSpec
  dsimp only
  by_cases h1 : v < 24
  · rw [if_pos h1, if_pos h1, cbor_initial_byte m hm v (by omega)]
  · rw [if_neg h1, if_neg h1]
    by_cases h2 : v ≤ 0xFF
    · rw [if_pos h2, if_pos h2, cbor_initial_byte m hm 24 (by decide), bigEndianBytes_one]
      rfl
    · rw [if_neg h2, if_neg h2]
      by_cases h3 : v ≤ 0xFFFF
      · rw [if_pos h3, if_pos h3, cbor_initial_byte m hm 25 (by decide), bigEndianBytes_two,
          fputc_shift, fputc_mask]
        rfl
      · rw [if_neg h3, if_neg h3]
        by_cases h4 : v ≤ 0xFFFFFFFF
        · rw [if_pos h4, if_pos h4, cbor_initial_byte m hm 26 (by decide),
            bigEndianBytes_four]
          simp only [fputc_mask, Nat.shiftRight_eq_div_pow]
        · rw [if_neg h4, if_neg h4, cbor_initial_byte m hm 27 (by decide),
            bigEndianBytes_eight]
          simp only [fputc_mask, Nat.shiftRight_eq_div_pow]

theorem cborDecodeHead_small (m v : Nat) (hv : v < 24) (rest : List Nat) :
    cborDecodeHead ((m * 32 + v) :: rest) = some (m, v, rest) := by
  unfold cborDecodeHead
  dsimp only
  have h1 : (m * 32 + v) % 32 = v := by omega
  have h2 : (m * 32 + v) / 32 = m := by omega
  rw [h1, h2, if_pos hv]

theorem cborDecodeHead_long (m ai n v : Nat) (rest : List Nat)
    (hai : (ai = 24 ∧ n = 1) ∨ (ai = 25 ∧ n = 2) ∨ (ai = 26 ∧ n = 4) ∨ (ai = 27 ∧ n = 8))
    (hv : v < 256 ^ n) :
    cborDecodeHead ((m * 32 + ai) :: (bigEndianBytes n v ++ rest)) = some (m, v, rest) := by
  unfold cborDecodeHead
  dsimp only
  have h1 : (m * 32 + ai) % 32 = ai := by omega
  have h2 : (m * 32 + ai) / 32 = m := by omega
  have hn : (if ai < 24 then 0 else if ai = 24 then 1 else if ai = 25 then 2
      else if ai = 26 then 4 else 8) = n := by
    rcases hai with ⟨a, b⟩ | ⟨a, b⟩ | ⟨a, b⟩ | ⟨a, b⟩ <;> subst a <;> subst b <;> rfl
  rw [h1, h2, hn, if_neg (by omega), if_neg (by omega),
    if_neg (by rw [List.length_append, bigEndianBytes_length]; omega)]
  have hl := bigEndianBytes_length n v
  rw [List.take_left' hl, List.drop_left' hl, bigEndianValue_bytes n v hv]

theorem cborDecodeHead_spec (m v : Nat) (hv : v < 2 ^ 64) (rest : List Nat) :
    cborDecodeHead (cborHeadSpec m v ++ rest) = some (m, v, rest) := by
  unfold cborHeadSpec
  by_cases h1 : v < 24
  · rw [if_pos h1]; exact cborDecodeHead_small m v h1 rest
  · rw [if_neg h1]
    by_cases h2 : v ≤ 0xFF
    · rw [if_pos h2]
      exact cborDecodeHead_long m 24 1 v rest (Or.inl ⟨rfl, rfl⟩) (by norm_num; omega)
    · rw [if_neg h2]
      by_cases h3 : v ≤ 0xFFFF
      · rw [if_pos h3]
        exact cborDecodeHead_long m 25 2 v rest (Or.inr (Or.inl ⟨rfl, rfl⟩))
          (by norm_num; omega)
      · rw [if_neg h3]
        by_cases h4 : v ≤ 0xFFFFFFFF
        · rw [if_pos h4]
          exact cborDecodeHead_long m 26 4 v rest (Or.inr (Or.inr (Or.inl ⟨rfl, rfl⟩)))
            (by norm_num; omega)
        · rw [if_neg h4]
          exact cborDecodeHead_long m 27 8 v rest (Or.inr (Or.inr (Or.inr ⟨rfl, rfl⟩)))
            (by norm_num at hv ⊢; omega)

theorem cborHeadSpec_length (m v : Nat) :
    (cborHeadSpec m v).length =
      if v < 24 then 1 else if v ≤ 0xFF then 2 else if v ≤ 0xFFFF then 3
      else if v ≤ 0xFFFFFFFF then 5 else 9 := by
  unfold cborHeadSpec
  split_ifs <;> simp [bigEndianBytes_length]

theorem cborDecodeHead_length (bs : List Nat) (hb : ∀ b ∈ bs, b < 256) (m v : Nat)
    (h : cborDecodeHead bs = some (m, v, [])) :
    (cborHeadSpec m v).length ≤ bs.length := by
  cases bs with
  | nil => simp [cborDecodeHead] at h
  | cons b rest =>
    unfold cborDecodeHead at h
    dsimp only at h
    rw [cborHeadSpec_length]
    by_cases h1 : b % 32 < 24
    · rw [if_pos h1] at h
      simp only [Option.some.injEq, Prod.mk.injEq] at h
      obtain ⟨-, hv, -⟩ := h
      rw [← hv, if_pos h1]
      simp
    · rw [if_neg h1] at h
      by_cases h2 : 28 ≤ b % 32
      · rw [if_pos h2] at h; cases h
      · rw [if_neg h2] at h
        generalize hn : (if b % 32 < 24 then 0 else if b % 32 = 24 then 1
          else if b % 32 = 25 then 2 else if b % 32 = 26 then 4 else 8) = n at h
        by_cases h3 : rest.length < n
        · rw [if_pos h3] at h; cases h
        · rw [if_neg h3] at h
          simp only [Option.some.injEq, Prod.mk.injEq] at h
          obtain ⟨-, hv, hd⟩ := h
          have hlen : rest.length = n := by
            have := List.length_drop n rest
            rw [hd] at this
            simp only [List.length_nil] at this
            omega
          have hlt := bigEndianValue_lt (rest.take n)
            (fun x hx => hb x (List.mem_cons_of_mem _ (List.mem_of_mem_take hx)))
          rw [hv, List.length_take, hlen, Nat.min_self] at hlt
          rw [List.length_cons, hlen]
          rw [if_neg h1] at hn
          have hcases : b % 32 = 24 ∨ b % 32 = 25 ∨ b % 32 = 26 ∨ b % 32 = 27 := by omega
          rcases hcases with hc | hc | hc | hc <;> rw [hc] at hn <;>
            simp only [Nat.reduceEqDiff, if_true, if_false] at hn <;> subst hn <;>
            norm_num at hlt <;> split_ifs <;> omega

/-- C13: for a major type `m` in 0..7 and an unsigned 64-bit value `v`,
`xmllintCborWriteType` writes the shortest CBOR head of RFC 8949: the
byte `m * 32 + v` alone below 24, else `m * 32 + 24`, `25`, `26`, `27`
followed by `v` in 1, 2, 4, 8 big-endian bytes for `v` up to `0xFF`,
`0xFFFF`, `0xFFFFFFFF` and beyond.  Every byte written is below 256, the
decoder of CBOR heads gives back `(m, v)` and the bytes that follow, and no
sequence of bytes that decodes to `(m, v)` is shorter. -/
theorem C13_cbor_head (m v : Nat) (hm : m < 8) (hv : v < 2 ^ 64) :
    xmllintCborWriteType m v = cborHeadSpec m v ∧
    (xmllintCborWriteType m v).length =
      (if v < 24 then 1 else if v ≤ 0xFF then 2 else if v ≤ 0xFFFF then 3
       else if v ≤ 0xFFFFFFFF then 5 else 9) ∧
    (xmllintCborWriteType m v).head? = some ((m <<< 5) |||
      (if v < 24 then v else if v ≤ 0xFF then 24 else if v ≤ 0xFFFF then 25
       else if v ≤ 0xFFFFFFFF then 26 else 27)) ∧
    (v ≥ 24 → bigEndianValue ((xmllintCborWriteType m v).drop 1) = v) ∧
    (∀ b ∈ xmllintCborWriteType m v, b < 256) ∧
    (∀ rest : List Nat,
      cborDecodeHead (xmllintCborWriteType m v ++ rest) = some (m, v, rest)) ∧
    (∀ bs : List Nat, (∀ b ∈ bs, b < 256) → cborDecodeHead bs = some (m, v, []) →
      (xmllintCborWriteType m v).length ≤ bs.length) := by
  have hor : ∀ a < 32, (m <<< 5) ||| a = m * 32 + a := by
    intro a ha
    have h := cbor_initial_byte m hm a ha
    rw [fputc] at h
    have hm5 : m <<< 5 = m * 32 := by rw [Nat.shiftLeft_eq]
    have hlt : m <<< 5 < 4294967296 := by rw [hm5]; omega
    rw [Nat.mod_eq_of_lt hlt] at h
    have hlt2 : (m <<< 5) ||| a < 2 ^ 8 := Nat.or_lt_two_pow (by rw [hm5]; omega) (by omega)
    have hlt3 : (m <<< 5) ||| a < 256 := hlt2
    rw [Nat.mod_eq_of_lt hlt3] at h
    exact h
  have heq := cborWriteType_eq_spec m v hm
  rw [heq]
  refine ⟨rfl, cborHeadSpec_length m v, ?_, ?_, ?_, fun rest => cborDecodeHead_spec m v hv rest,
    fun bs hb h => cborDecodeHead_length bs hb m v h⟩
  · unfold cborHeadSpec
    split_ifs with h1 h2 h3 h4
    · rw [hor v (by omega)]; rfl
    · rw [hor 24 (by decide)]; rfl
    · rw [hor 25 (by decide)]; rfl
    · rw [hor 26 (by decide)]; rfl
    · rw [hor 27 (by decide)]; rfl
  · intro hge
    unfold cborHeadSpec
    rw [if_neg (by omega)]
    split_ifs with h2 h3 h4
    · exact bigEndianValue_bytes 1 v (by norm_num; omega)
    · exact bigEndianValue_bytes 2 v (by norm_num; omega)
    · exact bigEndianValue_bytes 4 v (by norm_num; omega)
    · exact bigEndianValue_bytes 8 v (by norm_num at hv ⊢; omega)
  · intro b hb
    unfold cborHeadSpec at hb
    split_ifs at hb with h1 h2 h3 h4
    · simp only [List.mem_singleton] at hb; omega
    · rcases List.mem_cons.mp hb with h | h
      · omega
      · exact bigEndianBytes_lt _ _ b h
    · rcases List.mem_cons.mp hb with h | h
      · omega
      · exact bigEndianBytes_lt _ _ b h
    · rcases List.mem_cons.mp hb with h | h
      · omega
      · exact bigEndianBytes_lt _ _ b h
    · rcases List.mem_cons.mp hb with h | h
      · omega
      · exact bigEndianBytes_lt _ _ b h

/-- Witness for C13: a text string of 300 bytes has the head 0x79 0x01
0x2c. -/
theorem C13_cbor_head_witness :
    (3 : Nat) < 8 ∧ (300 : Nat) < 2 ^ 64 ∧
    xmllintCborWriteType 3 300 = [121, 1, 44] ∧
    cborDecodeHead (xmllintCborWriteType 3 300 ++ []) = some (3, 300, []) :=
  ⟨by decide, by decide, by decide,
   (C13_cbor_head 3 300 (by decide) (by decide)).2.2.2.2.2.1 []⟩

theorem writeBinRecord_eq (data : List Nat) (len : Nat) (hlen : data.length = len) :
    xmllintWriteBinRecord data len = bigEndianBytes 4 len ++ data := by
  unfold xmllintWriteBinRecord
  dsimp only
  rw [bigEndianBytes_four]
  simp only [mask_byte, Nat.shiftRight_eq_div_pow, Nat.mod_mod]
  by_cases h0 : len > 0
  · rw [if_pos h0, ← hlen, List.take_length]
  · rw [if_neg h0]
    have : data = [] := List.eq_nil_of_length_eq_zero (by omega)
    rw [this]

/-- C15: for a payload of `len` bytes, `len < 2 ^ 32`,
`xmllintWriteBinRecord` writes `4 + len` bytes when its writes succeed:
`len` in 4 big-endian bytes, then the payload unchanged.  The first four
bytes read as a big-endian integer give `len`, the `len` bytes after them
are the payload, and the reader of a length-prefixed record gives back
the payload and what follows the record. -/
theorem C15_bin_record (data : List Nat) (len : Nat) (hlen : data.length = len)
    (h32 : len < 2 ^ 32) :
    (xmllintWriteBinRecord data len).length = 4 + len ∧
    (xmllintWriteBinRecord data len).take 4 =
      [len / 16777216 % 256, len / 65536 % 256, len / 256 % 256, len % 256] ∧
    (xmllintWriteBinRecord data len).drop 4 = data ∧
    bigEndianValue ((xmllintWriteBinRecord data len).take 4) = len ∧
    ((xmllintWriteBinRecord data len).drop 4).take len = data ∧
    (∀ rest : List Nat,
      readBinRecord (xmllintWriteBinRecord data len ++ rest) = some (data, rest)) := by
  have heq := writeBinRecord_eq data len hlen
  have hl4 := bigEndianBytes_length 4 len
  have hval := bigEndianValue_bytes 4 len (by norm_num at h32 ⊢; omega)
  rw [heq]
  refine ⟨?_, ?_, ?_, ?_, ?_, ?_⟩
  · rw [List.length_append, hl4, hlen]
  · rw [List.take_left' hl4, bigEndianBytes_four]
  · rw [List.drop_left' hl4]
  · rw [List.take_left' hl4, hval]
  · rw [List.drop_left' hl4, ← hlen, List.take_length]
  · intro rest
    unfold readBinRecord
    dsimp only
    rw [List.append_assoc, List.take_left' hl4, List.drop_left' hl4, hval,
      if_neg (by rw [List.length_append, List.length_append, hl4]; omega),
      if_neg (by rw [List.length_append, hlen]; omega),
      List.take_left' hlen, List.drop_left' hlen]

/-- Witness for C15: the payload `[]` of two bytes. -/
theorem C15_bin_record_witness :
    (lit "[]").length = 2 ∧ (2 : Nat) < 2 ^ 32 ∧
    xmllintWriteBinRecord (lit "[]") 2 = [0, 0, 0, 2, 91, 93] ∧
    readBinRecord (xmllintWriteBinRecord (lit "[]") 2 ++ [7]) = some (lit "[]", [7]) :=
  ⟨by decide, by decide, by decide,
   (C15_bin_record (lit "[]") 2 (by decide) (by decide)).2.2.2.2.2 [7]⟩

/-- C14 (evaluation at the failing input): the CBOR dump of a ring that
holds one record.  The bytes written for the record begin with the head
of a map of 8 pairs, `0xa8`, and continue with 18 well-formed items, which
are 9 keys and 9 values; after the 16 items that the head announces, the
text `str3` and its value are left over.  So the dump is one well-formed
item, the outer map, followed by these bytes, and not one well-formed CBOR
item. -/
theorem C14_cbor_record_pair_count :
    cborDecodeHead (cborErrorRecord ringDumpState
        (mkError 1 201 2 "mismatched tag" (some "parsing"))) =
      some (5, 8, (cborErrorRecord ringDumpState
        (mkError 1 201 2 "mismatched tag" (some "parsing"))).drop 1) ∧
    cborSkipItems 18 18 ((cborErrorRecord ringDumpState
        (mkError 1 201 2 "mismatched tag" (some "parsing"))).drop 1) = some [] ∧
    cborSkipItems 16 16 ((cborErrorRecord ringDumpState
        (mkError 1 201 2 "mismatched tag" (some "parsing"))).drop 1) =
      some (xmllintCborWriteText (some (lit "str3")) ++
        xmllintCborWriteText (some (lit "parsing"))) ∧
    cborSkipItems 200 1 (xmllintDumpErrorRingCbor (envAt ⟨100, 0⟩) ringDumpState
        (some { inputWindow := none,
                errorRing := some [mkError 1 201 2 "mismatched tag" (some "parsing")] })
        (some (lit "a.xml"))) =
      some (xmllintCborWriteText (some (lit "str3")) ++
        xmllintCborWriteText (some (lit "parsing"))) ∧
    cborWellFormed (xmllintDumpErrorRingCbor (envAt ⟨100, 0⟩) ringDumpState
        (some { inputWindow := none,
                errorRing := some [mkError 1 201 2 "mismatched tag" (some "parsing")] })
        (some (lit "a.xml"))) = false ∧
    cborWellFormed (xmllintDumpErrorRingCbor (envAt ⟨100, 0⟩) ringDumpState
        (some { inputWindow := none, errorRing := some [] })
        (some (lit "a.xml"))) = true := by
  decide!

theorem foldl_append_eq {α : Type} (f : α → List Nat) (l : List α) (init : List Nat) :
    l.foldl (fun c x => c ++ f x) init = init ++ l.flatMap f := by
  induction l generalizing init with
  | nil => simp
  | cons x rest ih => simp only [List.foldl_cons, ih, List.flatMap_cons, List.append_assoc]

theorem binDumpBuffer_none_of_stream (tabs : xmllintOptTables) (call : DumpCall)
    (h : call.lint.errorRingDumpBinStream = none) :
    binDumpBuffer tabs call.env call.lint call.ctxt call.filename = none := by
  unfold binDumpBuffer
  cases call.ctxt with
  | none => rfl
  | some c => simp only [h, if_true]

theorem binCall_eq (tabs : xmllintOptTables) (call : DumpCall) :
    (if call.lint.errorRingDumpBinStream ≠ none then
        xmllintDumpErrorRingBinary tabs call.env call.lint call.ctxt call.filename
      else []) =
      ((binDumpBuffer tabs call.env call.lint call.ctxt call.filename).map binRecordOf).getD
        [] := by
  by_cases h : call.lint.errorRingDumpBinStream = none
  · rw [if_neg (not_not.mpr h), binDumpBuffer_none_of_stream tabs call h]
    rfl
  · rw [if_pos h]
    unfold xmllintDumpErrorRingBinary
    cases binDumpBuffer tabs call.env call.lint call.ctxt call.filename <;> rfl

theorem flatMap_binCall (tabs : xmllintOptTables) (calls : List DumpCall) :
    calls.flatMap (fun call =>
      if call.lint.errorRingDumpBinStream ≠ none then
        xmllintDumpErrorRingBinary tabs call.env call.lint call.ctxt call.filename
      else []) = (binPayloads tabs calls).flatMap binRecordOf := by
  induction calls with
  | nil => rfl
  | cons call rest ih =>
    rw [List.flatMap_cons, ih, binCall_eq]
    unfold binPayloads
    rw [List.filterMap_cons]
    cases binDumpBuffer tabs call.env call.lint call.ctxt call.filename <;> rfl

theorem binRun_eq (tabs : xmllintOptTables) (content : List Nat) (seekOk : Bool)
    (calls : List DumpCall) :
    binRun tabs content seekOk calls =
      content ++ openBinDumpFile content seekOk ++
        (binPayloads tabs calls).flatMap binRecordOf := by
  unfold binRun
  rw [foldl_append_eq, flatMap_binCall]

theorem openBinDumpFile_eq (content : List Nat) (seekOk : Bool) :
    openBinDumpFile content seekOk =
      if seekOk = true ∧ content = [] then xmllintWriteBinHeader else [] := by
  unfold openBinDumpFile
  cases seekOk with
  | false => simp
  | true =>
    cases content with
    | nil => simp
    | cons a l =>
      simp only [List.length_cons, if_true, true_and]
      rw [if_neg (by push_cast; omega), if_neg (by simp)]

theorem binRuns_nonempty (tabs : xmllintOptTables) (runs : List (Bool × List DumpCall))
    (content : List Nat) (h : content ≠ []) :
    binRuns tabs content runs =
      content ++ (runs.flatMap (fun r => binPayloads tabs r.2)).flatMap binRecordOf := by
  induction runs generalizing content with
  | nil => simp [binRuns]
  | cons r rest ih =>
    unfold binRuns at ih ⊢
    rw [List.foldl_cons, binRun_eq, openBinDumpFile_eq, if_neg (fun hc => h hc.2),
      List.append_nil, ih _ (by simp [h]), List.flatMap_cons, List.flatMap_append,
      List.append_assoc]

theorem binRecordOf_eq (p : List Nat) (h : p.length < 2 ^ 32) :
    binRecordOf p = bigEndianBytes 4 p.length ++ p := by
  unfold binRecordOf
  rw [Nat.mod_eq_of_lt (by norm_num at h ⊢; omega)]
  exact writeBinRecord_eq p p.length rfl

theorem readBinRecord_binRecordOf (p rest : List Nat) (h : p.length < 2 ^ 32) :
    readBinRecord (binRecordOf p ++ rest) = some (p, rest) := by
  rw [binRecordOf_eq p h]
  have hl4 := bigEndianBytes_length 4 p.length
  have hval := bigEndianValue_bytes 4 p.length (by norm_num at h ⊢; omega)
  unfold readBinRecord
  dsimp only
  rw [List.append_assoc, List.take_left' hl4, List.drop_left' hl4, hval,
    if_neg (by rw [List.length_append, List.length_append, hl4]; omega),
    if_neg (by rw [List.length_append]; omega),
    List.take_left' rfl, List.drop_left' rfl]

theorem readBinRecords_flatMap (ps : List (List Nat)) (h : ∀ p ∈ ps, p.length < 2 ^ 32)
    (fuel : Nat) (hf : ps.length < fuel) :
    readBinRecords fuel (ps.flatMap binRecordOf) = some ps := by
  induction ps generalizing fuel with
  | nil =>
    cases fuel with
    | zero => omega
    | succ n => simp [readBinRecords]
  | cons p rest ih =>
    cases fuel with
    | zero => omega
    | succ n =>
      have hp := h p (List.mem_cons_self _ _)
      have hne : binRecordOf p ++ rest.flatMap binRecordOf ≠ [] := by
        rw [binRecordOf_eq p hp]
        intro hc
        have := congrArg List.length hc
        simp only [List.length_append, bigEndianBytes_length, List.length_nil] at this
        omega
      rw [List.flatMap_cons]
      unfold readBinRecords
      rw [if_neg hne, readBinRecord_binRecordOf p _ hp]
      dsimp only
      rw [ih (fun q hq => h q (List.mem_cons_of_mem _ hq)) n
        (by simp only [List.length_cons] at hf; omega)]
      rfl

theorem flatMap_binRecordOf_length (ps : List (List Nat)) :
    ps.length ≤ (ps.flatMap binRecordOf).length := by
  induction ps with
  | nil => simp
  | cons p rest ih =>
    rw [List.flatMap_cons, List.length_append, List.length_cons]
    have : 4 ≤ (binRecordOf p).length := by
      unfold binRecordOf xmllintWriteBinRecord
      simp
    omega

/-- C16: the binary dump file after a sequence of runs that starts on an
empty or absent file, the `fseek` of the first run succeeding.  Each run
opens the file in append mode and calls `xmllintDumpErrorRingBinary` after
each of its input files.  The content at the end is the 8 bytes `XERB` 0 0
0 1 followed by one length-prefixed record for each call that wrote its
buffer, in order: the magic stands once, at offset 0.  The statements at
the opening write the magic exactly when `fseek` succeeds and the file is
empty, a call writes nothing or one record, and when every buffer is
shorter than `2 ^ 32` bytes the reader of the file gives back the buffers,
so the number of records is the number of such calls. -/
theorem C16_bin_file_layout (tabs : xmllintOptTables) (seekOk : Bool)
    (calls : List DumpCall) (runs : List (Bool × List DumpCall))
    (hseek : seekOk = true) :
    binRuns tabs [] ((seekOk, calls) :: runs) =
      [88, 69, 82, 66, 0, 0, 0, 1] ++
        (binPayloads tabs calls ++ runs.flatMap (fun r => binPayloads tabs r.2)).flatMap
          (fun p => xmllintWriteBinRecord p (p.length % 4294967296)) ∧
    (∀ (content : List Nat) (ok : Bool),
      openBinDumpFile content ok =
        if ok = true ∧ content = [] then [88, 69, 82, 66, 0, 0, 0, 1] else []) ∧
    (∀ call : DumpCall,
      xmllintDumpErrorRingBinary tabs call.env call.lint call.ctxt call.filename = [] ∨
      ∃ p, binDumpBuffer tabs call.env call.lint call.ctxt call.filename = some p ∧
        xmllintDumpErrorRingBinary tabs call.env call.lint call.ctxt call.filename =
          xmllintWriteBinRecord p (p.length % 4294967296)) ∧
    ((∀ p ∈ binPayloads tabs calls ++ runs.flatMap (fun r => binPayloads tabs r.2),
        p.length < 2 ^ 32) →
      readBinFile (binRuns tabs [] ((seekOk, calls) :: runs)) =
        some (binPayloads tabs calls ++ runs.flatMap (fun r => binPayloads tabs r.2))) := by
  have hmain : binRuns tabs [] ((seekOk, calls) :: runs) =
      xmllintWriteBinHeader ++
        (binPayloads tabs calls ++ runs.flatMap (fun r => binPayloads tabs r.2)).flatMap
          binRecordOf := by
    unfold binRuns
    rw [List.foldl_cons]
    have h1 : binRun tabs [] seekOk calls =
        xmllintWriteBinHeader ++ (binPayloads tabs calls).flatMap binRecordOf := by
      rw [binRun_eq, openBinDumpFile_eq, if_pos ⟨hseek, rfl⟩, List.nil_append]
    have h2 := binRuns_nonempty tabs runs (binRun tabs [] seekOk calls)
      (by rw [h1]; simp [xmllintWriteBinHeader])
    unfold binRuns at h2
    dsimp only
    rw [h2, h1, List.flatMap_append, List.append_assoc]
  refine ⟨hmain, openBinDumpFile_eq, ?_, ?_⟩
  · intro call
    unfold xmllintDumpErrorRingBinary
    cases binDumpBuffer tabs call.env call.lint call.ctxt call.filename with
    | none => exact Or.inl rfl
    | some p => exact Or.inr ⟨p, rfl, rfl⟩
  · intro hlen
    rw [hmain]
    unfold readBinFile
    have h8 : xmllintWriteBinHeader.length = 8 := rfl
    rw [List.take_left' h8, List.drop_left' h8,
      if_pos (show xmllintWriteBinHeader = [88, 69, 82, 66, 0, 0, 0, 1] from rfl)]
    apply readBinRecords_flatMap _ hlen
    have := flatMap_binRecordOf_length
      (binPayloads tabs calls ++ runs.flatMap (fun r => binPayloads tabs r.2))
    rw [List.length_append xmllintWriteBinHeader, h8]
    omega

/-- Witness for C16: two runs on an absent file, the first with a ring of
one record and the second with an empty ring; the file holds the magic
and two records, the second being the 46 bytes of an object with an empty
array of errors. -/
theorem C16_bin_file_layout_witness :
    (binRuns exampleOptTables []
      [(true, [ringDumpCall [mkError 1 201 2 "mismatched tag" (some "parsing")]]),
       (true, [ringDumpCall []])]).take 8 = [88, 69, 82, 66, 0, 0, 0, 1] ∧
    readBinFile (binRuns exampleOptTables []
      [(true, [ringDumpCall [mkError 1 201 2 "mismatched tag" (some "parsing")]]),
       (true, [ringDumpCall []])]) =
      some (binPayloads exampleOptTables
          [ringDumpCall [mkError 1 201 2 "mismatched tag" (some "parsing")]] ++
        [lit "\x7b\"schema_version\":1,\"file\":\"a.xml\",\"errors\":[]\x7d"]) :=
  ⟨by
    rw [(C16_bin_file_layout exampleOptTables true
      [ringDumpCall [mkError 1 201 2 "mismatched tag" (some "parsing")]]
      [(true, [ringDumpCall []])] rfl).1]
    rfl,
   (C16_bin_file_layout exampleOptTables true
      [ringDumpCall [mkError 1 201 2 "mismatched tag" (some "parsing")]]
      [(true, [ringDumpCall []])] rfl).2.2.2 (by decide!)⟩

theorem redactLoop_cons_valid (t : CStr) (rest : List CStr) (flags : Nat)
    (ht : t ∈ redactTokenNames) :
    redactLoop (t :: rest) flags = redactLoop rest (redactTokenApply flags t) := by
  simp only [redactTokenNames, List.mem_cons, List.mem_singleton, List.not_mem_nil,
    or_false] at ht
  rcases ht with e | e | e | e | e | e | e | e <;> subst e <;>
    simp +decide [redactLoop, redactTokenApply, XMLLINT_REDACT_ALL, XMLLINT_REDACT_FILE,
      XMLLINT_REDACT_MESSAGE, XMLLINT_REDACT_STR1, XMLLINT_REDACT_STR2, XMLLINT_REDACT_STR3,
      XMLLINT_REDACT_WINDOW]

theorem redactLoop_valid (tokens : List CStr) (flags : Nat)
    (h : ∀ t ∈ tokens, t ∈ redactTokenNames) :
    redactLoop tokens flags = some (tokens.foldl redactTokenApply flags) := by
  induction tokens generalizing flags with
  | nil => rfl
  | cons t rest ih =>
    rw [redactLoop_cons_valid t rest flags (h t (List.mem_cons_self _ _)), List.foldl_cons]
    exact ih _ (fun x hx => h x (List.mem_cons_of_mem _ hx))

theorem redactLoop_invalid (tokens : List CStr) (flags : Nat)
    (h : ∃ t ∈ tokens, t ∉ redactTokenNames) : redactLoop tokens flags = none := by
  induction tokens generalizing flags with
  | nil => obtain ⟨t, ht, -⟩ := h; cases ht
  | cons t rest ih =>
    by_cases ht : t ∈ redactTokenNames
    · have hrest : ∃ x ∈ rest, x ∉ redactTokenNames := by
        obtain ⟨x, hx, hn⟩ := h
        rcases List.mem_cons.mp hx with e | e
        · subst e; exact absurd ht hn
        · exact ⟨x, e, hn⟩
      rw [redactLoop_cons_valid t rest flags ht]
      exact ih _ hrest
    · simp only [redactTokenNames, List.mem_cons, List.mem_singleton, List.not_mem_nil,
        or_false, not_or] at ht
      obtain ⟨h1, h2, h3, h4, h5, h6, h7, h8⟩ := ht
      unfold redactLoop
      rw [if_neg h7, if_neg h8, if_neg h1, if_neg h2, if_neg h3, if_neg h4, if_neg h5,
        if_neg h6]

theorem strtokTokens_append (p r cur : List Nat) (hp : 44 ∉ p) :
    strtokTokens 44 (p ++ r) cur = strtokTokens 44 r (cur ++ p) := by
  induction p generalizing cur with
  | nil => simp
  | cons c rest ih =>
    simp only [List.mem_cons, not_or] at hp
    rw [List.cons_append, strtokTokens, if_neg (fun h => hp.1 h.symm), ih _ hp.2,
      List.append_assoc]
    rfl

theorem strtokTokens_joinComma (pieces : List CStr) (h : ∀ p ∈ pieces, 44 ∉ p) :
    strtokTokens 44 (joinComma pieces) [] = pieces.filter (fun p => decide (p ≠ [])) := by
  induction pieces with
  | nil => rfl
  | cons p rest ih =>
    have hp := h p (List.mem_cons_self _ _)
    have hr := ih (fun x hx => h x (List.mem_cons_of_mem _ hx))
    cases rest with
    | nil =>
      have := strtokTokens_append p [] [] hp
      rw [List.append_nil, List.nil_append] at this
      rw [joinComma, this, strtokTokens]
      by_cases he : p = [] <;> simp [he]
    | cons q qs =>
      rw [joinComma, List.append_assoc, strtokTokens_append _ _ _ hp, List.nil_append,
        List.singleton_append, strtokTokens, if_pos rfl, hr]
      have hf : List.filter (fun p => decide (p ≠ [])) (p :: q :: qs) =
          if decide (p ≠ []) = true then
            p :: List.filter (fun p => decide (p ≠ [])) (q :: qs)
          else List.filter (fun p => decide (p ≠ [])) (q :: qs) := List.filter_cons
      rw [hf]
      by_cases he : p = []
      · rw [if_pos he, if_neg (by simp [he])]
      · rw [if_neg he, if_pos (by simp [he])]

/-- C23: `xmllintParseRedact` on a list whose tokens, as `strtok` cuts them
at the commas, are not all among `file`, `message`, `str1`, `str2`, `str3`,
`window`, `all`, `none` returns -1 and leaves the state as it was, whatever
precedes the bad token; on a list whose tokens are all valid it returns 0
(the copy of the list being allocated) and sets the flags to the fold of
the tokens, from left to right, over the previous flags.  The tokens of
pieces joined by commas are the pieces that are not empty. -/
theorem C23_parse_redact (lint : xmllintState) (value : CStr) :
    (∀ strdupOk : Bool, (∃ t ∈ strtokTokens 44 value [], t ∉ redactTokenNames) →
      xmllintParseRedact lint (some value) strdupOk = (-1, lint)) ∧
    ((∀ t ∈ strtokTokens 44 value [], t ∈ redactTokenNames) →
      xmllintParseRedact lint (some value) true =
        (0, { lint with errorRedactFlags :=
          (strtokTokens 44 value []).foldl redactTokenApply lint.errorRedactFlags })) ∧
    (∀ pieces : List CStr, (∀ p ∈ pieces, 44 ∉ p) →
      strtokTokens 44 (joinComma pieces) [] = pieces.filter (fun p => decide (p ≠ []))) := by
  refine ⟨?_, ?_, strtokTokens_joinComma⟩
  · intro ok h
    unfold xmllintParseRedact
    dsimp only
    rw [redactLoop_invalid _ _ h]
    split <;> rfl
  · intro h
    unfold xmllintParseRedact
    dsimp only
    rw [redactLoop_valid _ _ h]
    rfl

/-- Witness for C23: `message,bogus` is refused although `message` is
valid, and `all,none,str1,window` gives the flags of `str1` and `window`
whatever the flags were. -/
theorem C23_parse_redact_witness :
    xmllintParseRedact jsonState (some (lit "message,bogus")) true = (-1, jsonState) ∧
    xmllintParseRedact (withRedact 3 jsonState) (some (lit "all,none,str1,,window")) true =
      (0, withRedact 36 jsonState) :=
  ⟨(C23_parse_redact jsonState (lit "message,bogus")).1 true
     ⟨lit "bogus", by decide, by decide⟩,
   (C23_parse_redact (withRedact 3 jsonState) (lit "all,none,str1,,window")).2.1
     (by decide)⟩

/-- C27: for every string, `NULL` included, and every buffer content, when
`xmlBufferAdd` does not fail `xmllintBufEscape` succeeds and appends to the
buffer exactly the bytes that `xmllintJsonEscape` writes to a stream. -/
theorem C27_escapers_agree (env : Env) (henv : BufferAddOk env) (buf : List Nat)
    (str : Option CStr) :
    xmllintBufEscape env buf str = (true, buf ++ xmllintJsonEscape str) :=
  bufEscape_ok env henv buf str

/-- Witness for C27: a string with a quote, a control byte and a byte above
0x7f, and the `NULL` string. -/
theorem C27_escapers_agree_witness :
    BufferAddOk (envAt ⟨0, 0⟩) ∧
    xmllintBufEscape (envAt ⟨0, 0⟩) [91] (some [97, 34, 1, 200]) =
      (true, [91] ++ xmllintJsonEscape (some [97, 34, 1, 200])) ∧
    xmllintBufEscape (envAt ⟨0, 0⟩) [91] none = (true, [91] ++ xmllintJsonEscape none) :=
  ⟨fun _ _ => rfl,
   C27_escapers_agree (envAt ⟨0, 0⟩) (fun _ _ => rfl) [91] (some [97, 34, 1, 200]),
   C27_escapers_agree (envAt ⟨0, 0⟩) (fun _ _ => rfl) [91] none⟩

theorem fingerprint_concat (e : xmlError) :
    xmllintErrorFingerprint (some e) =
      (e.message.getD [] ++ e.str1.getD [] ++ e.str2.getD [] ++ e.str3.getD []).foldl fnvStep
        (fingerprintInt (fingerprintInt (fingerprintInt 1469598103934665603 e.domain) e.code)
          e.level) := by
  simp only [xmllintErrorFingerprint, fingerprintStr, List.foldl_append]

/-- C29: `xmllintErrorFingerprint` hashes the bytes of message, str1, str2
and str3 one after the other with nothing between them.  Two records with
the same domain, code and level and the same concatenation of the four
strings, an absent string counting as empty, have the same fingerprint;
so the record with the message `ab` and no str1 and the record with the
message `a` and the str1 `b` have the same fingerprint.  The fingerprint
of a `NULL` record is 0. -/
theorem C29_fingerprint_concatenation :
    (∀ a b : xmlError, a.domain = b.domain → a.code = b.code → a.level = b.level →
      a.message.getD [] ++ a.str1.getD [] ++ a.str2.getD [] ++ a.str3.getD [] =
        b.message.getD [] ++ b.str1.getD [] ++ b.str2.getD [] ++ b.str3.getD [] →
      xmllintErrorFingerprint (some a) = xmllintErrorFingerprint (some b)) ∧
    xmllintErrorFingerprint (some (mkError 1 201 2 "ab" none)) =
      xmllintErrorFingerprint
        (some { mkError 1 201 2 "a" none with str1 := some (lit "b") }) ∧
    (mkError 1 201 2 "ab" none).message ≠
      ({ mkError 1 201 2 "a" none with str1 := some (lit "b") } : xmlError).message ∧
    xmllintErrorFingerprint none = 0 := by
  have key : ∀ a b : xmlError, a.domain = b.domain → a.code = b.code → a.level = b.level →
      a.message.getD [] ++ a.str1.getD [] ++ a.str2.getD [] ++ a.str3.getD [] =
        b.message.getD [] ++ b.str1.getD [] ++ b.str2.getD [] ++ b.str3.getD [] →
      xmllintErrorFingerprint (some a) = xmllintErrorFingerprint (some b) := by
    intro a b hd hc hl hcat
    rw [fingerprint_concat, fingerprint_concat, hd, hc, hl, hcat]
  exact ⟨key, key _ _ rfl rfl rfl rfl, by decide, rfl⟩

theorem tdiv_thousand (x : Int) :
    x.tdiv 1000 = if 0 ≤ x then x / 1000 else -((-x) / 1000) := by
  by_cases h : 0 ≤ x
  · rw [if_pos h, Int.tdiv_eq_ediv h (by decide)]
  · rw [if_neg h]
    have h1 : x.tdiv 1000 = -((-x).tdiv 1000) := by rw [Int.neg_tdiv, Int.neg_neg]
    rw [h1, Int.tdiv_eq_ediv (by omega) (by decide)]

theorem timeDiff_self (s : xmlTime) : xmllintTimeDiffMs s s = 0 := by
  unfold xmllintTimeDiffMs
  simp

theorem timeDiff_mono (s e1 e2 : xmlTime) (hs : timeNormal s) (h1 : timeNormal e1)
    (h2 : timeNormal e2) (hle : timeLe e1 e2) :
    xmllintTimeDiffMs s e1 ≤ xmllintTimeDiffMs s e2 := by
  unfold xmllintTimeDiffMs
  rw [tdiv_thousand, tdiv_thousand]
  unfold timeNormal at hs h1 h2
  unfold timeLe at hle
  split_ifs <;> rcases hle with h | ⟨h, h'⟩ <;> omega

theorem timeLe_trans (a b c : xmlTime) (h1 : timeLe a b) (h2 : timeLe b c) :
    timeLe a c := by
  unfold timeLe at *
  omega

theorem timeLe_refl (a : xmlTime) : timeLe a a := Or.inr ⟨rfl, le_refl _⟩

theorem stageLoop_inv (stage : CStr) (msec : Int) (table t2 : List xmllintStageCount)
    (h : stageLoop stage msec table = some t2)
    (hinv : ∀ st ∈ table, 0 ≤ st.firstMs ∧ st.firstMs ≤ st.lastMs ∧ st.lastMs ≤ msec) :
    ∀ st ∈ t2, 0 ≤ st.firstMs ∧ st.firstMs ≤ st.lastMs ∧ st.lastMs ≤ msec := by
  induction table generalizing t2 with
  | nil => simp [stageLoop] at h
  | cons s rest ih =>
    have hs := hinv s (List.mem_cons_self _ _)
    have hr := fun x hx => hinv x (List.mem_cons_of_mem _ hx)
    unfold stageLoop at h
    by_cases hn : s.name = stage
    · rw [if_pos hn] at h
      cases h
      intro st hst
      rcases List.mem_cons.mp hst with e | e
      · subst e
        exact ⟨hs.1, by dsimp only; omega, le_refl _⟩
      · exact hr st e
    · rw [if_neg hn] at h
      cases hl : stageLoop stage msec rest with
      | none => rw [hl] at h; cases h
      | some t3 =>
        rw [hl] at h
        cases h
        intro st hst
        rcases List.mem_cons.mp hst with e | e
        · subst e; exact hs
        · exact ih t3 hl hr st e

theorem growStageCounts_statsStart (l : xmllintState) :
    (growStageCounts l).errorStatsStart = l.errorStatsStart := by
  unfold growStageCounts; split <;> rfl

theorem growCodeCounts_statsStart (l : xmllintState) :
    (growCodeCounts l).errorStatsStart = l.errorStatsStart := by
  unfold growCodeCounts; split <;> rfl

theorem statsAddDomain_statsStart (l : xmllintState) (e : xmlError) :
    (statsAddDomain l e).errorStatsStart = l.errorStatsStart := by
  unfold statsAddDomain; split <;> rfl

theorem statsAddLevel_statsStart (l : xmllintState) (e : xmlError) :
    (statsAddLevel l e).errorStatsStart = l.errorStatsStart := by
  unfold statsAddLevel; split <;> rfl

theorem stageAdd_inv (l : xmllintState) (e : xmlError) (env : Env) (t : xmlTime)
    (hs : timeNormal l.errorStatsStart) (ht : timeNormal t) (hn : timeNormal env.now)
    (hst : timeLe l.errorStatsStart t) (htn : timeLe t env.now)
    (hinv : StageInv l.errorStatsStart t l.errorStageCounts) :
    (xmllintErrorStageAdd l e env).errorStatsStart = l.errorStatsStart ∧
    StageInv l.errorStatsStart env.now (xmllintErrorStageAdd l e env).errorStageCounts := by
  have hmono := timeDiff_mono l.errorStatsStart t env.now hs ht hn htn
  have hpos : 0 ≤ xmllintTimeDiffMs l.errorStatsStart env.now := by
    have := timeDiff_mono l.errorStatsStart l.errorStatsStart env.now hs hs hn
      (timeLe_trans _ _ _ hst htn)
    rw [timeDiff_self] at this
    exact this
  have hinv2 : ∀ st ∈ l.errorStageCounts, 0 ≤ st.firstMs ∧ st.firstMs ≤ st.lastMs ∧
      st.lastMs ≤ xmllintTimeDiffMs l.errorStatsStart env.now := by
    intro st h
    obtain ⟨a, b, c⟩ := hinv st h
    exact ⟨a, b, le_trans c hmono⟩
  unfold xmllintErrorStageAdd
  dsimp only
  cases hl : stageLoop (match e.str3 with
      | some s => s
      | none => lit "unknown")
      (xmllintTimeDiffMs l.errorStatsStart env.now) l.errorStageCounts with
  | some t2 =>
    dsimp only
    exact ⟨rfl, stageLoop_inv _ _ _ _ hl hinv2⟩
  | none =>
    dsimp only
    by_cases hfull : l.errorStageCounts.length = l.errorStageCountsSize ∧
        env.stageRealloc = false
    · rw [if_pos hfull]; exact ⟨rfl, hinv2⟩
    · rw [if_neg hfull]
      by_cases hd : env.stageStrdup = false
      · rw [if_pos hd, growStageCounts_statsStart, growStageCounts_stageCounts]
        exact ⟨rfl, hinv2⟩
      · rw [if_neg hd]
        dsimp only
        rw [growStageCounts_statsStart, growStageCounts_stageCounts]
        refine ⟨rfl, ?_⟩
        intro st hst
        rcases List.mem_append.mp hst with h | h
        · exact hinv2 st h
        · rw [List.mem_singleton] at h
          subst h
          exact ⟨hpos, le_refl _, le_refl _⟩

theorem statsAdd_inv (l : xmllintState) (e : xmlError) (env : Env) (t : xmlTime)
    (hs : timeNormal l.errorStatsStart) (ht : timeNormal t) (hn : timeNormal env.now)
    (hst : timeLe l.errorStatsStart t) (htn : timeLe t env.now)
    (hinv : StageInv l.errorStatsStart t l.errorStageCounts) :
    (xmllintErrorStatsAdd l e env).errorStatsStart = l.errorStatsStart ∧
    StageInv l.errorStatsStart env.now (xmllintErrorStatsAdd l e env).errorStageCounts := by
  have hmono := timeDiff_mono l.errorStatsStart t env.now hs ht hn htn
  have hinv2 : StageInv l.errorStatsStart env.now l.errorStageCounts := by
    intro st h
    obtain ⟨a, b, c⟩ := hinv st h
    exact ⟨a, b, le_trans c hmono⟩
  have h0 : (statsAddLevel (statsAddDomain l e) e).errorStageCounts = l.errorStageCounts := by
    rw [statsAddLevel_stageCounts, statsAddDomain_stageCounts]
  have h1 : (statsAddLevel (statsAddDomain l e) e).errorStatsStart = l.errorStatsStart := by
    rw [statsAddLevel_statsStart, statsAddDomain_statsStart]
  unfold xmllintErrorStatsAdd
  dsimp only
  generalize statsAddLevel (statsAddDomain l e) e = l1 at h0 h1
  cases codeLoop e.code l1.errorCodeCounts with
  | some t2 =>
    dsimp only
    rw [h0, h1]
    exact ⟨rfl, hinv2⟩
  | none =>
    dsimp only
    by_cases hfull : l1.errorCodeCounts.length = l1.errorCodeCountsSize ∧
        env.codeRealloc = false
    · rw [if_pos hfull, h0, h1]; exact ⟨rfl, hinv2⟩
    · rw [if_neg hfull]
      have hstart : ({ growCodeCounts l1 with
          errorCodeCounts := (growCodeCounts l1).errorCodeCounts ++ [⟨e.code, 1⟩] } :
            xmllintState).errorStatsStart = l.errorStatsStart := by
        dsimp only
        rw [growCodeCounts_statsStart, h1]
      have hstage : ({ growCodeCounts l1 with
          errorCodeCounts := (growCodeCounts l1).errorCodeCounts ++ [⟨e.code, 1⟩] } :
            xmllintState).errorStageCounts = l.errorStageCounts := by
        dsimp only
        rw [growCodeCounts_stageCounts, h0]
      have := stageAdd_inv { growCodeCounts l1 with
          errorCodeCounts := (growCodeCounts l1).errorCodeCounts ++ [⟨e.code, 1⟩] } e env t
        (by rw [hstart]; exact hs) ht hn (by rw [hstart]; exact hst) htn
        (by rw [hstart, hstage]; exact hinv)
      rw [hstart] at this
      exact this

theorem statsRun_stageInv (events : List (xmlError × Env)) :
    ∀ (l : xmllintState) (t : xmlTime), timeNormal l.errorStatsStart → timeNormal t →
      (∀ ev ∈ events, timeNormal ev.2.now) → timeLe l.errorStatsStart t →
      List.Chain timeLe t (events.map (fun ev => ev.2.now)) →
      StageInv l.errorStatsStart t l.errorStageCounts →
      ∀ st ∈ (statsRun l events).errorStageCounts, 0 ≤ st.firstMs ∧ st.firstMs ≤ st.lastMs := by
  induction events with
  | nil =>
    intro l t _ _ _ _ _ hinv st hst
    obtain ⟨a, b, -⟩ := hinv st hst
    exact ⟨a, b⟩
  | cons ev rest ih =>
    intro l t hs ht hn hst hchain hinv
    rw [List.map_cons, List.chain_cons] at hchain
    have hnow := hn ev (List.mem_cons_self _ _)
    obtain ⟨h1, h2⟩ := statsAdd_inv l ev.1 ev.2 t hs ht hnow hst hchain.1 hinv
    simp only [statsRun, List.foldl_cons]
    have := ih (xmllintErrorStatsAdd l ev.1 ev.2) ev.2.now (by rw [h1]; exact hs) hnow
      (fun x hx => hn x (List.mem_cons_of_mem _ hx))
      (by rw [h1]; exact timeLe_trans _ _ _ hst hchain.1) hchain.2
      (by rw [h1]; exact h2)
    simpa only [statsRun] using this

theorem growStageCounts_summary (l : xmllintState) :
    (growStageCounts l).errorJsonSummary = l.errorJsonSummary := by
  unfold growStageCounts; split <;> rfl

theorem growCodeCounts_summary (l : xmllintState) :
    (growCodeCounts l).errorJsonSummary = l.errorJsonSummary := by
  unfold growCodeCounts; split <;> rfl

theorem statsAddDomain_summary (l : xmllintState) (e : xmlError) :
    (statsAddDomain l e).errorJsonSummary = l.errorJsonSummary := by
  unfold statsAddDomain; split <;> rfl

theorem statsAddLevel_summary (l : xmllintState) (e : xmlError) :
    (statsAddLevel l e).errorJsonSummary = l.errorJsonSummary := by
  unfold statsAddLevel; split <;> rfl

theorem stageAdd_summary (l : xmllintState) (e : xmlError) (env : Env) :
    (xmllintErrorStageAdd l e env).errorJsonSummary = l.errorJsonSummary := by
  unfold xmllintErrorStageAdd
  dsimp only
  split
  · rfl
  · split
    · rfl
    · split
      · exact growStageCounts_summary l
      · exact growStageCounts_summary l

theorem statsAdd_summary (l : xmllintState) (e : xmlError) (env : Env) :
    (xmllintErrorStatsAdd l e env).errorJsonSummary = l.errorJsonSummary := by
  have h12 : (statsAddLevel (statsAddDomain l e) e).errorJsonSummary = l.errorJsonSummary := by
    rw [statsAddLevel_summary, statsAddDomain_summary]
  unfold xmllintErrorStatsAdd
  dsimp only
  generalize statsAddLevel (statsAddDomain l e) e = l1 at h12 ⊢
  split
  · exact h12
  · split
    · exact h12
    · have h3 := growCodeCounts_summary l1
      have h4 := stageAdd_summary
        { growCodeCounts l1 with
          errorCodeCounts := (growCodeCounts l1).errorCodeCounts ++ [⟨e.code, 1⟩] } e env
      exact h4.trans (h3.trans h12)

theorem statsRun_summary (events : List (xmlError × Env)) :
    ∀ l : xmllintState, (statsRun l events).errorJsonSummary = l.errorJsonSummary := by
  induction events with
  | nil => intro l; rfl
  | cons ev rest ih =>
    intro l
    simp only [statsRun, List.foldl_cons]
    have := ih (xmllintErrorStatsAdd l ev.1 ev.2)
    simp only [statsRun] at this
    rw [this, statsAdd_summary]

/-- The text of the `by_stage` loop of `xmllintJsonWriteSummary` when no
entry of the stage table has `lastMs < firstMs`: the clamp of the span is
inactive. -/
theorem writeSummary_span (pretty : Int) (level : Nat) (l : xmllintState)
    (hsum : l.errorJsonSummary ≠ 0)
    (hinv : ∀ st ∈ l.errorStageCounts, st.firstMs ≤ st.lastMs) :
    ∃ pre : List Nat,
      xmllintJsonWriteSummary pretty level l =
        pre ++ xmllintJsonKey pretty (level + 1) (lit "by_stage") ++ lit "\x7b" ++
        commaLoop (l.errorStageCounts.map (fun st =>
          xmllintJsonKey pretty (level + 2) st.name ++ lit "\x7b" ++
          xmllintJsonKey pretty (level + 3) (lit "count") ++
          xmllintJsonAddInt (castInt st.count) ++
          [44] ++ xmllintJsonKey pretty (level + 3) (lit "first_ms") ++
          xmllintJsonAddLongLong st.firstMs ++
          [44] ++ xmllintJsonKey pretty (level + 3) (lit "last_ms") ++
          xmllintJsonAddLongLong st.lastMs ++
          [44] ++ xmllintJsonKey pretty (level + 3) (lit "span_ms") ++
          xmllintJsonAddLongLong (st.lastMs - st.firstMs) ++
          xmllintJsonIndent pretty (level + 2) ++ lit "\x7d")) true ++
        xmllintJsonIndent pretty (level + 1) ++ lit "\x7d" ++
        xmllintJsonIndent pretty level ++ lit "\x7d" := by
  have hmap : l.errorStageCounts.map (fun st =>
        xmllintJsonKey pretty (level + 2) st.name ++ lit "\x7b" ++
        xmllintJsonKey pretty (level + 3) (lit "count") ++
        xmllintJsonAddInt (castInt st.count) ++
        [44] ++ xmllintJsonKey pretty (level + 3) (lit "first_ms") ++
        xmllintJsonAddLongLong st.firstMs ++
        [44] ++ xmllintJsonKey pretty (level + 3) (lit "last_ms") ++
        xmllintJsonAddLongLong st.lastMs ++
        [44] ++ xmllintJsonKey pretty (level + 3) (lit "span_ms") ++
        xmllintJsonAddLongLong
          (if st.lastMs - st.firstMs < 0 then 0 else st.lastMs - st.firstMs) ++
        xmllintJsonIndent pretty (level + 2) ++ lit "\x7d") =
      l.errorStageCounts.map (fun st =>
        xmllintJsonKey pretty (level + 2) st.name ++ lit "\x7b" ++
        xmllintJsonKey pretty (level + 3) (lit "count") ++
        xmllintJsonAddInt (castInt st.count) ++
        [44] ++ xmllintJsonKey pretty (level + 3) (lit "first_ms") ++
        xmllintJsonAddLongLong st.firstMs ++
        [44] ++ xmllintJsonKey pretty (level + 3) (lit "last_ms") ++
        xmllintJsonAddLongLong st.lastMs ++
        [44] ++ xmllintJsonKey pretty (level + 3) (lit "span_ms") ++
        xmllintJsonAddLongLong (st.lastMs - st.firstMs) ++
        xmllintJsonIndent pretty (level + 2) ++ lit "\x7d") := by
    apply List.map_congr_left
    intro st hst
    have := hinv st hst
    rw [if_neg (by omega)]
  unfold xmllintJsonWriteSummary
  rw [if_neg hsum]
  dsimp only
  rw [hmap]
  refine ⟨lit "\x7b" ++
    xmllintJsonKey pretty (level + 1) (lit "by_level") ++ lit "\x7b" ++
    commaLoop ((List.range (XML_ERR_FATAL + 1).toNat).map (fun (i : Nat) =>
      xmllintJsonKey pretty (level + 2) (levelName (i : Int)) ++
      xmllintJsonAddInt (castInt (l.errorLevelCounts.getD i 0)))) true ++
    xmllintJsonIndent pretty (level + 1) ++ lit "\x7d" ++
    [44] ++ xmllintJsonKey pretty (level + 1) (lit "by_domain") ++ lit "\x7b" ++
    commaLoop (((List.range (XML_FROM_URI + 1).toNat).filter (fun (i : Nat) =>
      l.errorDomainCounts.getD i 0 ≠ 0)).map (fun (i : Nat) =>
      xmllintJsonKey pretty (level + 2) (xmllintDomainName (i : Int)) ++
      xmllintJsonAddInt (castInt (l.errorDomainCounts.getD i 0)))) true ++
    xmllintJsonIndent pretty (level + 1) ++ lit "\x7d" ++
    [44] ++ xmllintJsonKey pretty (level + 1) (lit "by_code") ++ lit "\x7b" ++
    commaLoop (l.errorCodeCounts.map (fun c =>
      xmllintJsonKey pretty (level + 2) (fmtInt c.code) ++
      xmllintJsonAddInt (castInt c.count))) true ++
    xmllintJsonIndent pretty (level + 1) ++ lit "\x7d" ++ [44], ?_⟩
  simp only [List.append_assoc]

/-- C30: on times with normalized microseconds, `xmllintTimeDiffMs` is 0
from a time to itself and does not decrease when its end moves forward.
So after `xmllintErrorStatsReset` at a time `now0` and the recording of
events whose clock readings are normalized and never go back, every entry
of the stage table has `0 <= firstMs <= lastMs`, and in the text that
`xmllintJsonWriteSummary` writes for that state, whatever the indentation,
the object `by_stage` holds one member per entry of the table, in order,
whose member `span_ms` is the number `lastMs - firstMs`, unclamped. -/
theorem C30_time_diff_monotone :
    (∀ s : xmlTime, xmllintTimeDiffMs s s = 0) ∧
    (∀ s e1 e2 : xmlTime, timeNormal s → timeNormal e1 → timeNormal e2 → timeLe e1 e2 →
      xmllintTimeDiffMs s e1 ≤ xmllintTimeDiffMs s e2) ∧
    (∀ (lint : xmllintState) (now0 : xmlTime) (events : List (xmlError × Env)),
      timeNormal now0 → (∀ ev ∈ events, timeNormal ev.2.now) →
      List.Chain timeLe now0 (events.map (fun ev => ev.2.now)) →
      (∀ st ∈ (statsRun (xmllintErrorStatsReset lint now0) events).errorStageCounts,
        0 ≤ st.firstMs ∧ st.firstMs ≤ st.lastMs) ∧
      (lint.errorJsonSummary ≠ 0 → ∀ (pretty : Int) (level : Nat), ∃ pre : List Nat,
        xmllintJsonWriteSummary pretty level
            (statsRun (xmllintErrorStatsReset lint now0) events) =
          pre ++ xmllintJsonKey pretty (level + 1) (lit "by_stage") ++ lit "\x7b" ++
          commaLoop ((statsRun (xmllintErrorStatsReset lint now0) events).errorStageCounts.map
            (fun st =>
              xmllintJsonKey pretty (level + 2) st.name ++ lit "\x7b" ++
              xmllintJsonKey pretty (level + 3) (lit "count") ++
              xmllintJsonAddInt (castInt st.count) ++
              [44] ++ xmllintJsonKey pretty (level + 3) (lit "first_ms") ++
              xmllintJsonAddLongLong st.firstMs ++
              [44] ++ xmllintJsonKey pretty (level + 3) (lit "last_ms") ++
              xmllintJsonAddLongLong st.lastMs ++
              [44] ++ xmllintJsonKey pretty (level + 3) (lit "span_ms") ++
              xmllintJsonAddLongLong (st.lastMs - st.firstMs) ++
              xmllintJsonIndent pretty (level + 2) ++ lit "\x7d")) true ++
          xmllintJsonIndent pretty (level + 1) ++ lit "\x7d" ++
          xmllintJsonIndent pretty level ++ lit "\x7d")) := by
  refine ⟨timeDiff_self, timeDiff_mono, ?_⟩
  intro lint now0 events h0 hn hchain
  have hinv := statsRun_stageInv events (xmllintErrorStatsReset lint now0) now0 h0 h0 hn
    (timeLe_refl _) hchain (by intro x hx; cases hx)
  refine ⟨hinv, ?_⟩
  intro hsum pretty level
  exact writeSummary_span pretty level _
    (by rw [statsRun_summary]; exact hsum) (fun st hst => (hinv st hst).2)

/-- Witness for C30: two records of the stage `parsing` with different
codes, 1001.5 ms and 2002.5 ms after the reset, with `--error-json
--error-json-summary`: the entry of the table is (2, 1003) and the summary
line written at the end of the file reports `"span_ms":1001`. -/
theorem C30_time_diff_monotone_witness :
    (statsRun (xmllintErrorStatsReset { jsonState with errorJsonSummary := 1 } ⟨100, 999000⟩)
      [(mkError 1 5 2 "a" (some "parsing"), envAt ⟨101, 500⟩),
       (mkError 1 7 2 "b" (some "parsing"), envAt ⟨102, 1500⟩)]).errorStageCounts =
      [⟨lit "parsing", 2, 2, 1003⟩] ∧
    (∀ st ∈ (statsRun
        (xmllintErrorStatsReset { jsonState with errorJsonSummary := 1 } ⟨100, 999000⟩)
        [(mkError 1 5 2 "a" (some "parsing"), envAt ⟨101, 500⟩),
         (mkError 1 7 2 "b" (some "parsing"), envAt ⟨102, 1500⟩)]).errorStageCounts,
      0 ≤ st.firstMs ∧ st.firstMs ≤ st.lastMs) ∧
    (∃ pre : List Nat,
      xmllintJsonWriteSummary 0 0
          (statsRun
            (xmllintErrorStatsReset { jsonState with errorJsonSummary := 1 } ⟨100, 999000⟩)
            [(mkError 1 5 2 "a" (some "parsing"), envAt ⟨101, 500⟩),
             (mkError 1 7 2 "b" (some "parsing"), envAt ⟨102, 1500⟩)]) =
        pre ++ xmllintJsonKey 0 (0 + 1) (lit "by_stage") ++ lit "\x7b" ++
        commaLoop ((statsRun
            (xmllintErrorStatsReset { jsonState with errorJsonSummary := 1 } ⟨100, 999000⟩)
            [(mkError 1 5 2 "a" (some "parsing"), envAt ⟨101, 500⟩),
             (mkError 1 7 2 "b" (some "parsing"), envAt ⟨102, 1500⟩)]).errorStageCounts.map
          (fun st =>
            xmllintJsonKey 0 (0 + 2) st.name ++ lit "\x7b" ++
            xmllintJsonKey 0 (0 + 3) (lit "count") ++
            xmllintJsonAddInt (castInt st.count) ++
            [44] ++ xmllintJsonKey 0 (0 + 3) (lit "first_ms") ++
            xmllintJsonAddLongLong st.firstMs ++
            [44] ++ xmllintJsonKey 0 (0 + 3) (lit "last_ms") ++
            xmllintJsonAddLongLong st.lastMs ++
            [44] ++ xmllintJsonKey 0 (0 + 3) (lit "span_ms") ++
            xmllintJsonAddLongLong (st.lastMs - st.firstMs) ++
            xmllintJsonIndent 0 (0 + 2) ++ lit "\x7d")) true ++
        xmllintJsonIndent 0 (0 + 1) ++ lit "\x7d" ++
        xmllintJsonIndent 0 0 ++ lit "\x7d") ∧
    xmllintJsonWriteSummary 0 0
        (statsRun
          (xmllintErrorStatsReset { jsonState with errorJsonSummary := 1 } ⟨100, 999000⟩)
          [(mkError 1 5 2 "a" (some "parsing"), envAt ⟨101, 500⟩),
           (mkError 1 7 2 "b" (some "parsing"), envAt ⟨102, 1500⟩)]) =
      lit "\x7b\"by_level\":\x7b\"none\":0,\"warning\":0,\"error\":2,\"fatal\":0\x7d,\"by_domain\":\x7b\"parser\":2\x7d,\"by_code\":\x7b\"5\":1,\"7\":1\x7d,\"by_stage\":\x7b\"parsing\":\x7b\"count\":2,\"first_ms\":2,\"last_ms\":1003,\"span_ms\":1001\x7d\x7d\x7d" ∧
    lit "\x7b\"schema_version\":1,\"file\":\"a.xml\",\"summary\":\x7b\"by_level\":\x7b\"none\":0,\"warning\":0,\"error\":2,\"fatal\":0\x7d,\"by_domain\":\x7b\"parser\":2\x7d,\"by_code\":\x7b\"5\":1,\"7\":1\x7d,\"by_stage\":\x7b\"parsing\":\x7b\"count\":2,\"first_ms\":2,\"last_ms\":1003,\"span_ms\":1001\x7d\x7d\x7d\x7d\n" <:+
      written (xmllintMainFile exampleOptTables { jsonState with errorJsonSummary := 1 }
        (lit "a.xml") (fun _ => none) ⟨100, 999000⟩
        [(mkError 1 5 2 "a" (some "parsing"), envAt ⟨101, 500⟩),
         (mkError 1 7 2 "b" (some "parsing"), envAt ⟨102, 1500⟩)]).2 (Sink.file 2) :=
  ⟨by decide,
   (C30_time_diff_monotone.2.2 { jsonState with errorJsonSummary := 1 } ⟨100, 999000⟩
      [(mkError 1 5 2 "a" (some "parsing"), envAt ⟨101, 500⟩),
       (mkError 1 7 2 "b" (some "parsing"), envAt ⟨102, 1500⟩)] (by decide) (by decide)
      (List.Chain.cons (by decide) (List.Chain.cons (by decide) List.Chain.nil))).1,
   (C30_time_diff_monotone.2.2 { jsonState with errorJsonSummary := 1 } ⟨100, 999000⟩
      [(mkError 1 5 2 "a" (some "parsing"), envAt ⟨101, 500⟩),
       (mkError 1 7 2 "b" (some "parsing"), envAt ⟨102, 1500⟩)] (by decide) (by decide)
      (List.Chain.cons (by decide) (List.Chain.cons (by decide) List.Chain.nil))).2
      (by decide) 0 0,
   by decide!, by decide!⟩

/-- C24 (evaluation at the failing input): with `--maxmem 1000` the hooks
are installed and `xmllintMaxmem` is 0, the value of `lint->maxmem` being
stored nowhere else; the first request, of 16 bytes with nothing in use,
is refused and sets the out-of-memory flags although `0 + 16 <= 1000`.
Whatever the value given to `--maxmem`, every request with
`used + size > 0` is refused. -/
theorem C24_maxmem_limit_is_zero :
    maxmemSetup 1000 ⟨0, 0, 0⟩ = (⟨0, 0, 0⟩, true) ∧
    myMallocFunc (maxmemSetup 1000 ⟨0, 0, 0⟩).1 0 16 true = (⟨0, 1, 1⟩, false) ∧
    (0 + 16 ≤ 1000) ∧
    (∀ (maxmem : Int) (g : MemGlobals) (used size : Nat) (mallocOk : Bool),
      maxmem ≠ 0 → 0 < (used + size) % 18446744073709551616 →
      myMallocFunc (maxmemSetup maxmem g).1 used size mallocOk =
        (⟨0, 1, 1⟩, false)) := by
  refine ⟨by decide, by decide, by decide, ?_⟩
  intro maxmem g used size ok hm hpos
  unfold maxmemSetup
  rw [if_pos hm]
  unfold myMallocFunc
  dsimp only
  rw [if_pos (by simpa using hpos)]

/-- C28 (evaluation at the failing input): the branch of
`--error-syslog-facility` in `xmllintParseOptions` takes the following
argument as its value, and `skipArgs` returns 0 for this name, so on the
command line `--error-syslog-facility local0 a.xml` the loop over the
input documents takes `local0` as an input file.  For every other option
that takes a value `skipArgs` returns 1, as for `--error-json-limit 5
a.xml`, where the only input file is `a.xml`. -/
theorem C28_skipArgs_misses_syslog_facility :
    lit "--error-syslog-facility" ∈ optionsWithValue ∧
    skipArgs (lit "--error-syslog-facility") = 0 ∧
    skipArgs (lit "-error-syslog-facility") = 0 ∧
    inputFileArgs 0 [lit "--error-syslog-facility", lit "local0", lit "a.xml"] =
      [lit "local0", lit "a.xml"] ∧
    inputFileArgs 0 [lit "--error-json-limit", lit "5", lit "a.xml"] = [lit "a.xml"] ∧
    (∀ name ∈ optionsWithValue, name ≠ lit "-error-syslog-facility" →
      name ≠ lit "--error-syslog-facility" → skipArgs name = 1) := by
  decide!

theorem window_mem_keys (h w t : Bool) :
    lit "window" ∈ errorObjectKeys h w t ↔ w = true := by
  cases h <;> cases w <;> cases t <;> decide

theorem jsonAddWindow_ne_nil_iff (p : Int) (l : Nat) (k : CStr) (lint : xmllintState)
    (env : Env) :
    xmllintJsonAddWindow p l k lint env ≠ [] ↔
      (lint.errorJsonWindow > 0 ∧
        (lint.errorRedactFlags &&& XMLLINT_REDACT_WINDOW ≠ 0 ∨
          ∃ ctxt w start, lint.ctxt = some ctxt ∧ ctxt.inputWindow = some w ∧
            w.start = some start ∧ w.size > 0 ∧ env.windowMalloc = true)) := by
  unfold xmllintJsonAddWindow
  by_cases h1 : lint.errorJsonWindow ≤ 0
  · rw [if_pos h1]
    constructor
    · intro h; exact absurd rfl h
    · intro h; omega
  rw [if_neg h1]
  by_cases h2 : lint.errorRedactFlags &&& XMLLINT_REDACT_WINDOW ≠ 0
  · rw [if_pos h2]
    constructor
    · intro _; exact ⟨by omega, Or.inl h2⟩
    · intro _; simp
  rw [if_neg h2]
  cases hc : lint.ctxt with
  | none =>
    dsimp only
    constructor
    · intro h; exact absurd rfl h
    · rintro ⟨-, h | ⟨c, w, s, h, -⟩⟩
      · exact absurd h h2
      · cases h
  | some ctxt =>
    dsimp only
    cases hw : ctxt.inputWindow with
    | none =>
      dsimp only
      constructor
      · intro h; exact absurd rfl h
      · rintro ⟨-, h | ⟨c, w, s, h, h', -⟩⟩
        · exact absurd h h2
        · cases h; rw [hw] at h'; cases h'
    | some w =>
      dsimp only
      cases hs : w.start with
      | none =>
        dsimp only
        constructor
        · intro h; exact absurd rfl h
        · rintro ⟨-, h | ⟨c, w', s, h, h', h'', -⟩⟩
          · exact absurd h h2
          · cases h; rw [hw] at h'; cases h'; rw [hs] at h''; cases h''
      | some start =>
        dsimp only
        by_cases h3 : w.size ≤ 0
        · rw [if_pos h3]
          constructor
          · intro h; exact absurd rfl h
          · rintro ⟨-, h | ⟨c, w', s, h, h', -, h4, -⟩⟩
            · exact absurd h h2
            · cases h; rw [hw] at h'; cases h'; omega
        rw [if_neg h3]
        by_cases h4 : env.windowMalloc = true
        · rw [if_pos h4]
          constructor
          · intro _
            exact ⟨by omega, Or.inr ⟨ctxt, w, start, rfl, hw, hs, by omega, h4⟩⟩
          · intro _; simp
        · rw [if_neg h4]
          constructor
          · intro h; exact absurd rfl h
          · rintro ⟨-, h | ⟨c, w', s, -, -, -, -, h5⟩⟩
            · exact absurd h h2
            · exact absurd h5 h4

/-- C21 (counterexample): with a window of 16 bytes configured and the
WINDOW redaction bit set, the object written for an error has the member
`window`, with the value `null`. -/
theorem C21_redacted_window_counterexample :
    lit "window" ∈ jsonTopLevelKeys
      (xmllintWriteJsonError exampleOptTables windowRedactedState
        (mkError 1 201 2 "e" (some "parsing")) (some (lit "a.xml"))
        { envAt ⟨100, 0⟩ with tv := none }) ∧
    ¬ (windowRedactedState.errorJsonWindow > 0 ∧
        windowRedactedState.errorRedactFlags &&& XMLLINT_REDACT_WINDOW = 0) ∧
    xmllintWriteJsonError exampleOptTables windowRedactedState
        (mkError 1 201 2 "e" (some "parsing")) (some (lit "a.xml"))
        { envAt ⟨100, 0⟩ with tv := none } =
      lit "\x7b\"schema_version\":1,\"file\":\"a.xml\",\"domain\":1,\"code\":201,\"level\":2,\"line\":5,\"column\":3,\"message\":\"e\",\"str1\":null,\"str2\":null,\"str3\":\"parsing\",\"resource_type\":null,\"stage\":\"parsing\",\"parse_options\":[\"COMPACT\",\"BIG_LINES\"],\"window\":null,\"checksum\":null,\"fingerprint\":\"80ecc06d882c23a4\"\x7d" := by
  decide!

theorem bufAddKey_ok (env : Env) (h : BufferAddOk env) (buf : List Nat) (key : CStr) :
    xmllintBufAddKey env buf key = (true, buf ++ xmllintJsonEscape (some key) ++ lit ":") := by
  unfold xmllintBufAddKey
  simp only [bufEscape_ok env h, bufSeq, if_true, bufAdd_ok env h]
  rfl

theorem jsonAddWindow_eq_copy (p : Int) (l : Nat) (k : CStr) (lint : xmllintState)
    (env : Env) (ctxt : xmlParserCtxt) (w : xmlInputWindow) (start : List Nat)
    (h1 : lint.errorJsonWindow > 0)
    (h2 : lint.errorRedactFlags &&& XMLLINT_REDACT_WINDOW = 0)
    (hc : lint.ctxt = some ctxt) (hw : ctxt.inputWindow = some w)
    (hs : w.start = some start) (h3 : w.size > 0) (h4 : env.windowMalloc = true) :
    xmllintJsonAddWindow p l k lint env =
      [44] ++ xmllintJsonKey p l k ++
        xmllintJsonEscape (some ((windowCopy start w.size w.offset
          lint.errorJsonWindow).takeWhile (fun b => b ≠ 0))) := by
  unfold xmllintJsonAddWindow windowCopy
  rw [if_neg (by omega), if_neg (by rw [h2]; simp), hc]
  dsimp only
  rw [hw]
  dsimp only
  rw [hs]
  dsimp only
  rw [if_neg (by omega), if_pos h4]

theorem bufAddWindow_eq_copy (env : Env) (henv : BufferAddOk env) (buf : List Nat)
    (k : CStr) (lint : xmllintState) (ctxt : xmlParserCtxt) (w : xmlInputWindow)
    (start : List Nat)
    (h1 : lint.errorJsonWindow > 0)
    (h2 : lint.errorRedactFlags &&& XMLLINT_REDACT_WINDOW = 0)
    (hc : lint.ctxt = some ctxt) (hw : ctxt.inputWindow = some w)
    (hs : w.start = some start) (h3 : w.size > 0) (h4 : env.windowMalloc = true) :
    xmllintBufAddWindow env buf k lint =
      (true, buf ++ lit "," ++ xmllintJsonEscape (some k) ++ lit ":" ++
        xmllintJsonEscape (some ((windowCopy start w.size w.offset
          lint.errorJsonWindow).takeWhile (fun b => b ≠ 0)))) := by
  unfold xmllintBufAddWindow windowCopy
  rw [if_neg (by omega), if_neg (by rw [h2]; simp), hc]
  dsimp only
  rw [hw]
  dsimp only
  rw [hs]
  dsimp only
  rw [if_neg (by omega), if_pos h4]
  simp only [bufAdd_ok env henv, bufSeq, if_true, bufAddKey_ok env henv,
    bufEscape_ok env henv]
  rfl

theorem bufAddWindow_redacted (env : Env) (henv : BufferAddOk env) (buf : List Nat)
    (k : CStr) (lint : xmllintState) (h1 : lint.errorJsonWindow > 0)
    (h2 : lint.errorRedactFlags &&& XMLLINT_REDACT_WINDOW ≠ 0) :
    xmllintBufAddWindow env buf k lint =
      (true, buf ++ lit "," ++ xmllintJsonEscape (some k) ++ lit ":" ++ lit "null") := by
  unfold xmllintBufAddWindow
  rw [if_neg (by omega), if_pos h2]
  simp only [bufAdd_ok env henv, bufSeq, if_true, bufAddKey_ok env henv]
  rfl

/-- C21 (amended): the object written for an error has the member `window`
exactly when a positive window size is configured and either the WINDOW
redaction bit is set, in which case the value of the member is `null`, or
the parser context gives a window of positive size and its copy can be
allocated.  In particular the member appears only if `errorJsonWindow > 0`.
Into a buffer, when `xmlBufferAdd` does not fail, nothing is added for
`errorJsonWindow <= 0` and `,"window":null` is added when the bit is set. -/
theorem C21_window_member (tabs : xmllintOptTables) (lint : xmllintState)
    (error : xmlError) (filename : Option CStr) (env : Env) :
    (lit "window" ∈ jsonTopLevelKeys (xmllintWriteJsonError tabs lint error filename env) ↔
      (lint.errorJsonWindow > 0 ∧
        (lint.errorRedactFlags &&& XMLLINT_REDACT_WINDOW ≠ 0 ∨
          ∃ ctxt w start, lint.ctxt = some ctxt ∧ ctxt.inputWindow = some w ∧
            w.start = some start ∧ w.size > 0 ∧ env.windowMalloc = true))) ∧
    (lit "window" ∈ jsonTopLevelKeys (xmllintWriteJsonError tabs lint error filename env) →
      lint.errorJsonWindow > 0) ∧
    (lint.errorJsonWindow > 0 → lint.errorRedactFlags &&& XMLLINT_REDACT_WINDOW ≠ 0 →
      xmllintJsonAddWindow lint.errorJsonPretty (if lint.errorJsonPretty ≠ 0 then 1 else 0)
          (lit "window") lint env =
        [44] ++ xmllintJsonKey lint.errorJsonPretty
          (if lint.errorJsonPretty ≠ 0 then 1 else 0) (lit "window") ++ lit "null") ∧
    (∀ buf : List Nat, BufferAddOk env →
      (lint.errorJsonWindow ≤ 0 →
        xmllintBufAddWindow env buf (lit "window") lint = (true, buf)) ∧
      (lint.errorJsonWindow > 0 → lint.errorRedactFlags &&& XMLLINT_REDACT_WINDOW ≠ 0 →
        xmllintBufAddWindow env buf (lit "window") lint =
          (true, buf ++ lit ",\"window\":null"))) := by
  have hiff : lit "window" ∈
      jsonTopLevelKeys (xmllintWriteJsonError tabs lint error filename env) ↔
      (lint.errorJsonWindow > 0 ∧
        (lint.errorRedactFlags &&& XMLLINT_REDACT_WINDOW ≠ 0 ∨
          ∃ ctxt w start, lint.ctxt = some ctxt ∧ ctxt.inputWindow = some w ∧
            w.start = some start ∧ w.size > 0 ∧ env.windowMalloc = true)) := by
    rw [keys_writeJsonError, window_mem_keys, decide_eq_true_iff]
    exact jsonAddWindow_ne_nil_iff _ _ _ lint env
  refine ⟨hiff, fun h => (hiff.mp h).1, ?_, ?_⟩
  · intro h1 h2
    unfold xmllintJsonAddWindow
    rw [if_neg (by omega), if_pos h2]
  · intro buf henv
    constructor
    · intro h1
      unfold xmllintBufAddWindow
      rw [if_pos h1]
    · intro h1 h2
      rw [bufAddWindow_redacted env henv buf _ lint h1 h2]
      have e : lit "," ++ (xmllintJsonEscape (some (lit "window")) ++
          (lit ":" ++ lit "null")) = lit ",\"window\":null" := by decide
      simp only [List.append_assoc, e]

/-- Witness for C21: the redacted state writes the member with `null`, and
the state with a window of 4 bytes on the input `<a><b/></a>` at offset 3
writes the member. -/
theorem C21_window_member_witness :
    xmllintBufAddWindow (envAt ⟨100, 0⟩) [] (lit "window") windowRedactedState =
      (true, lit ",\"window\":null") ∧
    lit "window" ∈ jsonTopLevelKeys
      (xmllintWriteJsonError exampleOptTables windowState
        (mkError 1 201 2 "e" (some "parsing")) (some (lit "a.xml")) (envAt ⟨100, 0⟩)) :=
  ⟨((C21_window_member exampleOptTables windowRedactedState
      (mkError 1 201 2 "e" (some "parsing")) none (envAt ⟨100, 0⟩)).2.2.2 []
        (fun _ _ => rfl)).2 (by decide) (by decide),
   (C21_window_member exampleOptTables windowState
      (mkError 1 201 2 "e" (some "parsing")) (some (lit "a.xml")) (envAt ⟨100, 0⟩)).1.mpr
     ⟨by decide, Or.inr ⟨_, _, _, rfl, rfl, rfl, by decide, rfl⟩⟩⟩

/-- C22: for a buffer of `size > 0` bytes, any reported offset and a
window size `N > 0`, the bytes copied for the window are the `len` bytes of
the buffer from `o`, where `o` is the offset clamped to `[0, size]` and
`len` is the smaller of `N` and `size - o`; so `0 <= len <= N`, the range
`[o, o + len)` lies inside the buffer and exactly `len` bytes are copied.
Both serializers copy these bytes; what they write as the value of the
member is the escaped copy, read as a C string. -/
theorem C22_window_copy (start : List Nat) (size offset window : Int)
    (hsize : 0 < size) (hwin : 0 < window) (hlen : (start.length : Int) = size) :
    windowCopy start size offset window =
      (start.drop (max 0 (min offset size)).toNat).take
        (min window (size - max 0 (min offset size))).toNat ∧
    0 ≤ max 0 (min offset size) ∧ max 0 (min offset size) ≤ size ∧
    0 ≤ min window (size - max 0 (min offset size)) ∧
    min window (size - max 0 (min offset size)) ≤ window ∧
    max 0 (min offset size) + min window (size - max 0 (min offset size)) ≤ size ∧
    ((windowCopy start size offset window).length : Int) =
      min window (size - max 0 (min offset size)) ∧
    (∀ i : Nat, (i : Int) < min window (size - max 0 (min offset size)) →
      (windowCopy start size offset window)[i]? =
        start[(max 0 (min offset size)).toNat + i]?) ∧
    (∀ (p : Int) (l : Nat) (k : CStr) (lint : xmllintState) (env : Env)
      (ctxt : xmlParserCtxt) (w : xmlInputWindow),
      lint.errorJsonWindow = window → lint.errorRedactFlags &&& XMLLINT_REDACT_WINDOW = 0 →
      lint.ctxt = some ctxt → ctxt.inputWindow = some w → w.start = some start →
      w.size = size → w.offset = offset → env.windowMalloc = true →
      xmllintJsonAddWindow p l k lint env =
        [44] ++ xmllintJsonKey p l k ++
          xmllintJsonEscape (some ((windowCopy start size offset window).takeWhile
            (fun b => b ≠ 0))) ∧
      (BufferAddOk env → ∀ buf : List Nat,
        xmllintBufAddWindow env buf k lint =
          (true, buf ++ lit "," ++ xmllintJsonEscape (some k) ++ lit ":" ++
            xmllintJsonEscape (some ((windowCopy start size offset window).takeWhile
              (fun b => b ≠ 0)))))) := by
  have ho : (if (if offset < 0 then 0 else offset) > size then size
      else (if offset < 0 then 0 else offset)) = max 0 (min offset size) := by
    split_ifs <;> omega
  have hcopy : windowCopy start size offset window =
      (start.drop (max 0 (min offset size)).toNat).take
        (min window (size - max 0 (min offset size))).toNat := by
    unfold windowCopy
    dsimp only
    rw [ho]
    congr 2
    split_ifs <;> omega
  have hb1 : 0 ≤ max 0 (min offset size) := by omega
  have hb2 : max 0 (min offset size) ≤ size := by omega
  have hl1 : 0 ≤ min window (size - max 0 (min offset size)) := by omega
  have hl2 : min window (size - max 0 (min offset size)) ≤ window := by omega
  have hl3 : max 0 (min offset size) + min window (size - max 0 (min offset size)) ≤
      size := by omega
  refine ⟨hcopy, hb1, hb2, hl1, hl2, hl3, ?_, ?_, ?_⟩
  · rw [hcopy, List.length_take, List.length_drop]
    omega
  · intro i hi
    rw [hcopy, List.getElem?_take_of_lt (by omega), List.getElem?_drop]
  · intro p l k lint env ctxt w hwn hbit hc hw hs hsz hoff hm
    subst hwn hsz hoff
    refine ⟨jsonAddWindow_eq_copy p l k lint env ctxt w start hwin hbit hc hw hs hsize hm,
      fun henv buf =>
        bufAddWindow_eq_copy env henv buf k lint ctxt w start hwin hbit hc hw hs hsize hm⟩

/-- Witness for C22: the input `<a><b/></a>` of 11 bytes with a window of 4
bytes: at offset 3 the bytes `<b/>` are copied, at offset 9 the two bytes
that are left, at offset 50 nothing and at offset -7 the first four. -/
theorem C22_window_copy_witness :
    windowCopy (lit "<a><b/></a>") 11 3 4 = lit "<b/>" ∧
    windowCopy (lit "<a><b/></a>") 11 9 4 = lit "a>" ∧
    windowCopy (lit "<a><b/></a>") 11 50 4 = [] ∧
    windowCopy (lit "<a><b/></a>") 11 (-7) 4 = lit "<a><" ∧
    ((windowCopy (lit "<a><b/></a>") 11 9 4).length : Int) =
      min 4 (11 - max 0 (min 9 11)) :=
  ⟨by decide, by decide, by decide, by decide,
   (C22_window_copy (lit "<a><b/></a>") 11 9 4 (by decide) (by decide)
     (by decide)).2.2.2.2.2.2.1⟩

theorem ringPush_last (r : ErrorRing) (pushed : List xmlError) (e : xmlError)
    (h : 0 < r.capacity)
    (hinv : r.entries = pushed.drop (pushed.length - r.capacity)) :
    (ringPush r e).capacity = r.capacity ∧
    (ringPush r e).entries =
      (pushed ++ [e]).drop ((pushed ++ [e]).length - r.capacity) := by
  have hlen : r.entries.length = pushed.length - (pushed.length - r.capacity) := by
    rw [hinv, List.length_drop]
  unfold ringPush
  rw [if_neg (by omega)]
  by_cases hl : r.entries.length < r.capacity
  · rw [if_pos hl]
    refine ⟨rfl, ?_⟩
    have h0 : pushed.length - r.capacity = 0 := by omega
    have h1 : (pushed ++ [e]).length - r.capacity = 0 := by
      rw [List.length_append, List.length_singleton]; omega
    dsimp only
    rw [h1, List.drop_zero, hinv, h0, List.drop_zero]
  · rw [if_neg hl]
    refine ⟨rfl, ?_⟩
    dsimp only
    have h1 : (pushed ++ [e]).length - r.capacity = pushed.length - r.capacity + 1 := by
      rw [List.length_append, List.length_singleton]; omega
    rw [h1, List.drop_append_of_le_length (by omega), hinv, List.drop_drop]

theorem ringPush_foldl (records : List xmlError) (capacity : Nat) (h : 0 < capacity) :
    (records.foldl ringPush (ringConfigure capacity)).capacity = capacity ∧
    (records.foldl ringPush (ringConfigure capacity)).entries =
      records.drop (records.length - capacity) := by
  induction records using List.reverseRecOn with
  | nil => exact ⟨rfl, by simp [ringConfigure]⟩
  | append_singleton rs e ih =>
    rw [List.foldl_append, List.foldl_cons, List.foldl_nil]
    have := ringPush_last (rs.foldl ringPush (ringConfigure capacity)) rs e
      (by rw [ih.1]; exact h) (by rw [ih.1]; exact ih.2)
    rw [ih.1] at this
    exact this

theorem dumpRingLoop_eq (tabs : xmllintOptTables) (lint : xmllintState)
    (filename : Option CStr) (recEnv : Nat → Env) (errors : List xmlError) (i : Nat) :
    dumpRingLoop tabs lint filename recEnv i errors =
      commaLoop ((errors.enumFrom i).map (fun p =>
        xmllintWriteJsonError tabs lint p.2 filename (recEnv p.1))) (decide (i = 0)) := by
  induction errors generalizing i with
  | nil => rfl
  | cons e rest ih =>
    rw [dumpRingLoop, ih (i + 1), List.enumFrom_cons, List.map_cons, commaLoop]
    have h1 : decide (i + 1 = 0) = false := by simp
    rw [h1]
    by_cases h0 : i = 0
    · subst h0; rfl
    · have h2 : decide (i = 0) = false := by simp [h0]
      rw [h2, if_pos (by omega)]
      rfl

/-- C25: in the ring as the specification describes it, configured with a
capacity of at least 1, after `capacity + k` pushes with `k >= 1` the
snapshot holds exactly `capacity` records, the last `capacity` pushed,
oldest first.  `xmllintDumpErrorRing`, given a context whose ring accessor
answers this snapshot, writes the objects of these records in this order,
separated by commas, between the head with the file name and `]}`. -/
theorem C25_ring_keeps_last (capacity k : Nat) (records : List xmlError)
    (hc : 1 ≤ capacity) (hk : 1 ≤ k) (hlen : records.length = capacity + k) :
    ringSnapshot (records.foldl ringPush (ringConfigure capacity)) = records.drop k ∧
    (ringSnapshot (records.foldl ringPush (ringConfigure capacity))).length = capacity ∧
    (∀ (tabs : xmllintOptTables) (env : Env) (recEnv : Nat → Env) (lint : xmllintState)
      (filename : Option CStr),
      lint.errorRingSize > 0 → env.ringMalloc = true → env.ringCopy = true →
      xmllintDumpErrorRing tabs env recEnv lint
          (some (ctxtOfRing (records.foldl ringPush (ringConfigure capacity)))) filename =
        lit "\x7b\"schema_version\":1,\"file\":" ++
        xmllintJsonEscape (xmllintRedactValue lint XMLLINT_REDACT_FILE filename) ++
        lit ",\"errors\":[" ++
        commaLoop (((records.drop k).enumFrom 0).map (fun p =>
          xmllintWriteJsonError tabs lint p.2 filename (recEnv p.1))) true ++
        lit "]\x7d\n") := by
  have hsnap : ringSnapshot (records.foldl ringPush (ringConfigure capacity)) =
      records.drop k := by
    unfold ringSnapshot
    rw [(ringPush_foldl records capacity (by omega)).2, hlen]
    congr 1
    omega
  refine ⟨hsnap, ?_, ?_⟩
  · rw [hsnap, List.length_drop, hlen]
    omega
  · intro tabs env recEnv lint filename hsz hm hcp
    unfold xmllintDumpErrorRing ctxtOfRing
    dsimp only
    rw [if_neg (by omega), hsnap, if_neg (by simp [hm]), if_neg (by simp [hcp]),
      dumpRingLoop_eq]
    rfl

/-- Witness for C25: the scenario of the specification, a ring of capacity
2 and three records; the snapshot holds the second and the third. -/
theorem C25_ring_keeps_last_witness :
    ringSnapshot ([mkError 2 1 1 "first" none,
        mkError 1 201 2 "mismatched tag" (some "parsing"),
        mkError 1 5 2 "third" none].foldl ringPush (ringConfigure 2)) =
      [mkError 1 201 2 "mismatched tag" (some "parsing"), mkError 1 5 2 "third" none] :=
  (C25_ring_keeps_last 2 1 _ (by decide) (by decide) (by decide)).1

theorem digitsAux_length (base : Nat) :
    ∀ (fuel n : Nat) (acc : List Nat), acc.length ≤ (digitsAux base fuel n acc).length := by
  intro fuel
  induction fuel with
  | zero => intro n acc; exact Nat.le_refl _
  | succ fuel ih =>
    intro n acc
    unfold digitsAux
    dsimp only
    split
    · simp
    · exact Nat.le_trans (by simp) (ih _ _)

theorem digitsAux_pos (base fuel n : Nat) (acc : List Nat) :
    0 < (digitsAux base (fuel + 1) n acc).length := by
  unfold digitsAux
  dsimp only
  split
  · simp
  · exact Nat.lt_of_lt_of_le (by simp) (digitsAux_length base fuel _ _)

theorem fmtInt_pos (v : Int) : 0 < (fmtInt v).length := by
  unfold fmtInt fmtNat
  split
  · simp
  · exact digitsAux_pos _ _ _ _

theorem fmtHex_pos (w n : Nat) : 0 < (fmtHex w n).length := by
  unfold fmtHex
  dsimp only
  rw [List.length_append]
  exact Nat.lt_of_lt_of_le (digitsAux_pos 16 n n []) (Nat.le_add_left _ _)

theorem bufAdd_whole (env : Env) (h : BufferAddOk env) (buf tmp : List Nat)
    (hpos : 0 < tmp.length) :
    (if ((tmp.length : Nat) : Int) ≤ 0 then (false, buf)
      else xmllintBufAdd env buf tmp ((tmp.length : Nat) : Int)) = (true, buf ++ tmp) := by
  rw [if_neg (by omega), bufAdd_ok env h, if_neg (by omega), Int.toNat_ofNat,
    List.take_left' rfl]

theorem bufAddInt_ok (env : Env) (h : BufferAddOk env) (buf : List Nat) (v : Int) :
    xmllintBufAddInt env buf v = (true, buf ++ xmllintJsonAddInt v) := by
  unfold xmllintBufAddInt xmllintJsonAddInt
  exact bufAdd_whole env h buf (fmtInt v) (fmtInt_pos v)

theorem bufAdd_lit (env : Env) (h : BufferAddOk env) (buf str out : List Nat) (len : Int)
    (hout : (if len < 0 then str else (str ++ [0]).take len.toNat) = out) :
    xmllintBufAdd env buf str len = (true, buf ++ out) := by
  rw [bufAdd_ok env h, hout]

theorem jsonKey_compact (level : Nat) (key : CStr) :
    xmllintJsonKey 0 level key = xmllintJsonEscape (some key) ++ lit ":" := by
  unfold xmllintJsonKey xmllintJsonIndent
  simp

theorem bufAddOptionsLoop_ok (env : Env) (h : BufferAddOk env) (level options : Nat)
    (defs : List xmllintOptName) :
    ∀ (first : Bool) (buf : List Nat),
      xmllintBufAddOptionsLoop env options defs first buf =
        (true, buf ++ (xmllintJsonAddOptionsLoop 0 level options defs first).1) := by
  induction defs with
  | nil => intro first buf; simp [xmllintBufAddOptionsLoop, xmllintJsonAddOptionsLoop]
  | cons d ds ih =>
    intro first buf
    unfold xmllintBufAddOptionsLoop xmllintJsonAddOptionsLoop
    by_cases hf : options &&& d.flag = 0
    · rw [if_pos hf, if_pos hf]; exact ih first buf
    · rw [if_neg hf, if_neg hf]
      dsimp only
      cases first with
      | true =>
        simp only [bufSeq, if_true, bufEscape_ok env h, ih, xmllintJsonIndent,
          List.nil_append, List.append_assoc]
      | false =>
        simp only [bufSeq, if_true, bufEscape_ok env h, ih, xmllintJsonIndent,
          bufAdd_ok env h, Bool.false_eq_true, if_false, List.nil_append,
          List.append_assoc]
        rfl

theorem bufAddOptions_ok (env : Env) (h : BufferAddOk env) (level : Nat) (buf : List Nat)
    (key : CStr) (options : Nat) (defs : List xmllintOptName) :
    xmllintBufAddOptions env buf key options defs =
      (true, buf ++ xmllintJsonAddOptions 0 level key options defs) := by
  unfold xmllintBufAddOptions xmllintJsonAddOptions
  simp only [bufSeq, if_true, bufAdd_ok env h, bufAddKey_ok env h,
    bufAddOptionsLoop_ok env h level, jsonKey_compact, xmllintJsonIndent,
    List.append_assoc]
  have e : ∀ b : Bool, (if b = true then ([] : List Nat) else []) = [] := by
    intro b; cases b <;> rfl
  simp only [e, List.nil_append]
  rfl

theorem bufAddChecksum_ok (env : Env) (h : BufferAddOk env) (level : Nat) (buf : List Nat)
    (key : CStr) (valid : Int) (checksum : Nat) :
    xmllintBufAddChecksum env buf key valid checksum =
      (true, buf ++ xmllintJsonAddChecksum 0 level key valid checksum) := by
  unfold xmllintBufAddChecksum xmllintJsonAddChecksum
  have hc : ∀ b : List Nat, xmllintBufAdd env b (lit ",") 1 = (true, b ++ [44]) :=
    fun b => bufAdd_lit env h b _ _ _ rfl
  have hn : ∀ b : List Nat, xmllintBufAdd env b (lit "null") 4 = (true, b ++ lit "null") :=
    fun b => bufAdd_lit env h b _ _ _ rfl
  have hpos : 0 < ([34] ++ fmtHex 16 checksum ++ [34]).length := by simp
  simp only [bufSeq, if_true, hc, hn, bufAddKey_ok env h, jsonKey_compact,
    bufAdd_whole env h _ _ hpos]
  by_cases hv : valid = 0
  · rw [if_pos hv, if_pos hv]
    simp only [List.append_assoc]
  · rw [if_neg hv, if_neg hv]
    simp only [List.append_assoc]

theorem bufAddWindow_ok (env : Env) (h : BufferAddOk env) (hm : env.windowMalloc = true)
    (level : Nat) (buf : List Nat) (key : CStr) (lint : xmllintState) :
    xmllintBufAddWindow env buf key lint =
      (true, buf ++ xmllintJsonAddWindow 0 level key lint env) := by
  unfold xmllintBufAddWindow xmllintJsonAddWindow
  by_cases h1 : lint.errorJsonWindow ≤ 0
  · rw [if_pos h1, if_pos h1, List.append_nil]
  rw [if_neg h1, if_neg h1]
  by_cases h2 : lint.errorRedactFlags &&& XMLLINT_REDACT_WINDOW ≠ 0
  · rw [if_pos h2, if_pos h2]
    simp only [bufSeq, if_true, bufAdd_ok env h, bufAddKey_ok env h, jsonKey_compact,
      List.append_assoc]
    rfl
  rw [if_neg h2, if_neg h2]
  cases lint.ctxt with
  | none => simp
  | some ctxt =>
    dsimp only
    cases ctxt.inputWindow with
    | none => simp
    | some w =>
      dsimp only
      cases w.start with
      | none => simp
      | some start =>
        dsimp only
        by_cases h3 : w.size ≤ 0
        · rw [if_pos h3, if_pos h3, List.append_nil]
        rw [if_neg h3, if_neg h3, if_pos hm, if_pos hm]
        simp only [bufSeq, if_true, bufAdd_ok env h, bufAddKey_ok env h,
          bufEscape_ok env h, jsonKey_compact, List.append_assoc]
        rfl

theorem writeJsonError_beforeFingerprint (tabs : xmllintOptTables) (lint : xmllintState)
    (error : xmlError) (filename : Option CStr) (env : Env) :
    xmllintWriteJsonError tabs lint error filename env =
      jsonErrorBeforeFingerprint tabs lint error filename env ++
      xmllintJsonAddFingerprint lint.errorJsonPretty
        (if lint.errorJsonPretty ≠ 0 then 1 else 0) (lit "fingerprint") error ++
      xmllintJsonAddTime lint.errorJsonPretty
        (if lint.errorJsonPretty ≠ 0 then 1 else 0) (lit "timestamp") env.tv ++
      xmllintJsonIndent lint.errorJsonPretty 0 ++ lit "\x7d" := by
  simp only [xmllintWriteJsonError, jsonErrorBeforeFingerprint, List.append_assoc]

theorem writeJsonError_compact (tabs : xmllintOptTables) (lint : xmllintState)
    (error : xmlError) (filename : Option CStr) (env : Env)
    (hp : lint.errorJsonPretty = 0) (ht : env.tv = none) :
    xmllintWriteJsonError tabs lint error filename env =
      jsonErrorBeforeFingerprint tabs lint error filename env ++
      lit ",\"fingerprint\":\"" ++ fmtHex 16 (xmllintErrorFingerprint (some error)) ++
      lit "\"\x7d" := by
  rw [writeJsonError_beforeFingerprint, hp, ht]
  unfold xmllintJsonAddFingerprint xmllintJsonAddTime xmllintJsonIndent
  simp only [jsonKey_compact, if_true, List.append_nil, List.append_assoc]
  rfl

theorem jsonErrorToBuffer_compact (tabs : xmllintOptTables) (lint : xmllintState)
    (error : xmlError) (filename : Option CStr) (env : Env) (buf : List Nat)
    (hp : lint.errorJsonPretty = 0) (h : BufferAddOk env) (hm : env.windowMalloc = true) :
    xmllintJsonErrorToBuffer tabs env buf lint error filename =
      (true, buf ++ jsonErrorBeforeFingerprint tabs lint error filename env ++
        lit ",\"fingerprint\":\"" ++ [0] ++
        fmtHex 16 (xmllintErrorFingerprint (some error)) ++ lit "\"\x7d") := by
  have l1 : ∀ b : List Nat, xmllintBufAdd env b (lit "\x7b") 1 = (true, b ++ lit "\x7b") :=
    fun b => bufAdd_lit env h b _ _ _ rfl
  have l2 : ∀ b : List Nat, xmllintBufAdd env b (lit ",") 1 = (true, b ++ [44]) :=
    fun b => bufAdd_lit env h b _ _ _ rfl
  have l3 : ∀ b : List Nat, xmllintBufAdd env b (lit ",\"domain\":") 10 =
      (true, b ++ ([44] ++ (xmllintJsonEscape (some (lit "domain")) ++ lit ":"))) :=
    fun b => bufAdd_lit env h b _ _ _ (by decide)
  have l4 : ∀ b : List Nat, xmllintBufAdd env b (lit ",\"code\":") 8 =
      (true, b ++ ([44] ++ (xmllintJsonEscape (some (lit "code")) ++ lit ":"))) :=
    fun b => bufAdd_lit env h b _ _ _ (by decide)
  have l5 : ∀ b : List Nat, xmllintBufAdd env b (lit ",\"level\":") 9 =
      (true, b ++ ([44] ++ (xmllintJsonEscape (some (lit "level")) ++ lit ":"))) :=
    fun b => bufAdd_lit env h b _ _ _ (by decide)
  have l6 : ∀ b : List Nat, xmllintBufAdd env b (lit ",\"line\":") 8 =
      (true, b ++ ([44] ++ (xmllintJsonEscape (some (lit "line")) ++ lit ":"))) :=
    fun b => bufAdd_lit env h b _ _ _ (by decide)
  have l7 : ∀ b : List Nat, xmllintBufAdd env b (lit ",\"column\":") 10 =
      (true, b ++ ([44] ++ (xmllintJsonEscape (some (lit "column")) ++ lit ":"))) :=
    fun b => bufAdd_lit env h b _ _ _ (by decide)
  have l8 : ∀ b : List Nat, xmllintBufAdd env b (lit ",\"message\":") 11 =
      (true, b ++ ([44] ++ (xmllintJsonEscape (some (lit "message")) ++ lit ":"))) :=
    fun b => bufAdd_lit env h b _ _ _ (by decide)
  have l9 : ∀ b : List Nat, xmllintBufAdd env b (lit ",\"str1\":") 8 =
      (true, b ++ ([44] ++ (xmllintJsonEscape (some (lit "str1")) ++ lit ":"))) :=
    fun b => bufAdd_lit env h b _ _ _ (by decide)
  have l10 : ∀ b : List Nat, xmllintBufAdd env b (lit ",\"str2\":") 8 =
      (true, b ++ ([44] ++ (xmllintJsonEscape (some (lit "str2")) ++ lit ":"))) :=
    fun b => bufAdd_lit env h b _ _ _ (by decide)
  have l11 : ∀ b : List Nat, xmllintBufAdd env b (lit ",\"str3\":") 8 =
      (true, b ++ ([44] ++ (xmllintJsonEscape (some (lit "str3")) ++ lit ":"))) :=
    fun b => bufAdd_lit env h b _ _ _ (by decide)
  have l12 : ∀ b : List Nat, xmllintBufAdd env b (lit ",\"resource_type\":") 17 =
      (true, b ++ ([44] ++ (xmllintJsonEscape (some (lit "resource_type")) ++ lit ":"))) :=
    fun b => bufAdd_lit env h b _ _ _ (by decide)
  have l13 : ∀ b : List Nat, xmllintBufAdd env b (lit ",\"stage\":") 9 =
      (true, b ++ ([44] ++ (xmllintJsonEscape (some (lit "stage")) ++ lit ":"))) :=
    fun b => bufAdd_lit env h b _ _ _ (by decide)
  have l14 : ∀ b : List Nat, xmllintBufAdd env b (lit ",\"fingerprint\":\"") 17 =
      (true, b ++ (lit ",\"fingerprint\":\"" ++ [0])) :=
    fun b => bufAdd_lit env h b _ _ _ (by decide)
  have l15 : ∀ b : List Nat, xmllintBufAdd env b (lit "\"") 1 = (true, b ++ [34]) :=
    fun b => bufAdd_lit env h b _ _ _ rfl
  have l16 : ∀ b : List Nat, xmllintBufAdd env b (lit "\x7d") 1 = (true, b ++ lit "\x7d") :=
    fun b => bufAdd_lit env h b _ _ _ rfl
  have hhex : ∀ b : List Nat,
      (if (((fmtHex 16 (xmllintErrorFingerprint (some error))).length : Nat) : Int) ≤ 0 then
          (false, b)
        else xmllintBufAdd env b (fmtHex 16 (xmllintErrorFingerprint (some error)))
          (((fmtHex 16 (xmllintErrorFingerprint (some error))).length : Nat) : Int)) =
        (true, b ++ fmtHex 16 (xmllintErrorFingerprint (some error))) :=
    fun b => bufAdd_whole env h b _ (fmtHex_pos _ _)
  unfold xmllintJsonErrorToBuffer jsonErrorBeforeFingerprint
  rw [hp]
  by_cases hh : lint.appOptions &&& XML_LINT_HTML_ENABLED ≠ 0
  · simp only [hh, bufSeq, if_true, l1, l2, l3, l4, l5, l6, l7, l8, l9, l10, l11, l12, l13,
      l14, l15, l16, hhex, bufAddKey_ok env h, bufAddInt_ok env h, bufEscape_ok env h,
      bufAddOptions_ok env h 0, bufAddWindow_ok env h hm 0, bufAddChecksum_ok env h 0,
      jsonKey_compact, ne_eq, not_true_eq_false, not_false_eq_true, if_false,
      List.append_assoc]
    rfl
  · simp only [hh, bufSeq, if_true, l1, l2, l3, l4, l5, l6, l7, l8, l9, l10, l11, l12, l13,
      l14, l15, l16, hhex, bufAddKey_ok env h, bufAddInt_ok env h, bufEscape_ok env h,
      bufAddOptions_ok env h 0, bufAddWindow_ok env h hm 0, bufAddChecksum_ok env h 0,
      jsonKey_compact, ne_eq, not_true_eq_false, not_false_eq_true, if_false,
      List.append_assoc, List.nil_append]
    rfl

/-- C26 (the code at the failing input, and in general): in compact mode,
when `xmlBufferAdd` and the allocation of the window do not fail, the
buffer serializer succeeds and appends the bytes that the stream
serializer writes without the timestamp, with one more byte: a NUL
between the opening quote of the fingerprint and its digits, the literal
of 16 characters being added with the length 17.  So for the record
`mismatched tag`, also with the members `html_options` and `window` and a
valid checksum, the two serializations differ. -/
theorem C26_buffer_has_nul_byte :
    (∀ (tabs : xmllintOptTables) (lint : xmllintState) (error : xmlError)
      (filename : Option CStr) (env : Env) (buf : List Nat),
      lint.errorJsonPretty = 0 → BufferAddOk env → env.windowMalloc = true →
      env.tv = none →
      xmllintWriteJsonError tabs lint error filename env =
        jsonErrorBeforeFingerprint tabs lint error filename env ++
        lit ",\"fingerprint\":\"" ++ fmtHex 16 (xmllintErrorFingerprint (some error)) ++
        lit "\"\x7d" ∧
      xmllintJsonErrorToBuffer tabs env buf lint error filename =
        (true, buf ++ jsonErrorBeforeFingerprint tabs lint error filename env ++
          lit ",\"fingerprint\":\"" ++ [0] ++
          fmtHex 16 (xmllintErrorFingerprint (some error)) ++ lit "\"\x7d")) ∧
    xmllintWriteJsonError exampleOptTables jsonState
        (mkError 1 201 2 "mismatched tag" (some "parsing")) (some (lit "a.xml"))
        { envAt ⟨100, 0⟩ with tv := none } =
      lit "\x7b\"schema_version\":1,\"file\":\"a.xml\",\"domain\":1,\"code\":201,\"level\":2,\"line\":5,\"column\":3,\"message\":\"mismatched tag\",\"str1\":null,\"str2\":null,\"str3\":\"parsing\",\"resource_type\":null,\"stage\":\"parsing\",\"parse_options\":[\"COMPACT\",\"BIG_LINES\"],\"checksum\":null,\"fingerprint\":\"" ++
        lit "ee9ee9ba57d13c04\"\x7d" ∧
    xmllintJsonErrorToBuffer exampleOptTables (envAt ⟨100, 0⟩) [] jsonState
        (mkError 1 201 2 "mismatched tag" (some "parsing")) (some (lit "a.xml")) =
      (true,
       lit "\x7b\"schema_version\":1,\"file\":\"a.xml\",\"domain\":1,\"code\":201,\"level\":2,\"line\":5,\"column\":3,\"message\":\"mismatched tag\",\"str1\":null,\"str2\":null,\"str3\":\"parsing\",\"resource_type\":null,\"stage\":\"parsing\",\"parse_options\":[\"COMPACT\",\"BIG_LINES\"],\"checksum\":null,\"fingerprint\":\"" ++
        [0] ++ lit "ee9ee9ba57d13c04\"\x7d") ∧
    (xmllintJsonErrorToBuffer exampleOptTables (envAt ⟨100, 0⟩) [] jsonState
        (mkError 1 201 2 "mismatched tag" (some "parsing")) (some (lit "a.xml"))).2 ≠
      xmllintWriteJsonError exampleOptTables jsonState
        (mkError 1 201 2 "mismatched tag" (some "parsing")) (some (lit "a.xml"))
        { envAt ⟨100, 0⟩ with tv := none } ∧
    xmllintWriteJsonError exampleOptTables fullJsonState
        (mkError 1 201 2 "mismatched tag" (some "parsing")) (some (lit "a.xml"))
        { envAt ⟨100, 0⟩ with tv := none } =
      lit "\x7b\"schema_version\":1,\"file\":\"a.xml\",\"domain\":1,\"code\":201,\"level\":2,\"line\":5,\"column\":3,\"message\":\"mismatched tag\",\"str1\":null,\"str2\":null,\"str3\":\"parsing\",\"resource_type\":null,\"stage\":\"parsing\",\"parse_options\":[\"COMPACT\",\"BIG_LINES\"],\"html_options\":[\"COMPACT\",\"BIG_LINES\"],\"window\":\"<b/>\",\"checksum\":\"00000000000000ff\",\"fingerprint\":\"" ++
        lit "ee9ee9ba57d13c04\"\x7d" ∧
    xmllintJsonErrorToBuffer exampleOptTables (envAt ⟨100, 0⟩) [] fullJsonState
        (mkError 1 201 2 "mismatched tag" (some "parsing")) (some (lit "a.xml")) =
      (true,
       lit "\x7b\"schema_version\":1,\"file\":\"a.xml\",\"domain\":1,\"code\":201,\"level\":2,\"line\":5,\"column\":3,\"message\":\"mismatched tag\",\"str1\":null,\"str2\":null,\"str3\":\"parsing\",\"resource_type\":null,\"stage\":\"parsing\",\"parse_options\":[\"COMPACT\",\"BIG_LINES\"],\"html_options\":[\"COMPACT\",\"BIG_LINES\"],\"window\":\"<b/>\",\"checksum\":\"00000000000000ff\",\"fingerprint\":\"" ++
        [0] ++ lit "ee9ee9ba57d13c04\"\x7d") :=
  ⟨fun tabs lint error filename env buf hp h hm ht =>
     ⟨writeJsonError_compact tabs lint error filename env hp ht,
      jsonErrorToBuffer_compact tabs lint error filename env buf hp h hm⟩,
   by decide!⟩

end Xmllint
